import Mathlib

/-!
# Verification of the `ast-demangle` rust_v0 decoder

Shallow embedding of `src/src/rust_v0/parsers/mod.rs` (the grammar-directed
decoder for the rust v0 name-mangling scheme) together with the parts of the
repository that are not shipped under `src/`:

* the `mini_parser` combinator toolkit (only `alphanumeric0.rs` is under
  `src/`); the remaining combinators are modelled from spec §4.2, which gives
  their exact semantics (fail without consuming input, alternatives in order,
  context threaded through failures, ...);
* the AST node types of `rust_v0/mod.rs`, modelled from spec §3 and from the
  constructor applications visible in `parsers/mod.rs`;
* the public entry point that strips the `_R` prefix, modelled from spec §6.

Strings are modelled as `List Char`; for the ASCII mangling grammar byte
offsets and character offsets coincide (spec §4.1: "all splits happen at byte
boundaries because every tag is ASCII").  Machine integers are `Nat`/`Int`
with explicit bounds (`u64Max` etc.); `checked_*` arithmetic is explicit.

`Rc` shared ownership is modelled by tagging every allocation (`Rc::new`)
with a fresh id drawn from a counter in the parsing context; cloning an `Rc`
(memo-table lookups) preserves the id, so "object identity" of the Rust code
is id equality in the model.

The mutually recursive grammar is defined with explicit fuel (the Rust code
recurses on the input; fuel `2*|input| + 4` dominates the recursion depth,
which grows by at most two frames per consumed byte).
-/

set_option maxHeartbeats 1000000

namespace AstDemangle

/-! ## Basic character classes and machine integers -/

def u64Max : Nat := 2 ^ 64 - 1

def isAsciiDigit (c : Char) : Bool := '0' ≤ c && c ≤ '9'

def isAsciiLower (c : Char) : Bool := 'a' ≤ c && c ≤ 'z'

def isAsciiUpper (c : Char) : Bool := 'A' ≤ c && c ≤ 'Z'

/-- `char::is_ascii_alphanumeric` (used by `alphanumeric0.rs`). -/
def isAsciiAlphanumeric (c : Char) : Bool :=
  isAsciiDigit c || isAsciiLower c || isAsciiUpper c

/-- lowercase hexadecimal digit (`lower_hex_digit0`). -/
def isLowerHexDigit (c : Char) : Bool := isAsciiDigit c || ('a' ≤ c && c ≤ 'f')

/-! ## The input cursor (`IndexedStr`) -/

/-- `IndexedStr`: remaining text plus the absolute offset of its first
character within the original input (`parsers/mod.rs` lines 28-78). -/
structure IndexedStr where
  index : Nat
  data : List Char
  deriving DecidableEq, Repr

/-! ## AST data model

Modelled from the spec (§3) and the constructor usses in `parsers/mod.rs`;
`rust_v0/mod.rs` itself is not under `src/`.  `Rc<T>` becomes a node paired
with an allocation id. -/

/-- BasicType: closed enumeration of 21 primitive kinds (spec §6 table). -/
inductive BasicType where
  | i8 | bool | char | f64 | str | f32 | u8 | isize | usize | i32 | u32
  | i128 | u128 | i16 | u16 | unit | ellipsis | i64 | u64 | never | placeholder
  deriving DecidableEq, Repr

/-- Identifier: disambiguator + name.  The `Cow` borrowed/owned distinction
of the Rust code is flattened to the character sequence. -/
structure Identifier where
  disambiguator : Nat
  name : List Char
  deriving DecidableEq, Repr

/-- Abi: `C` or a named identifier. -/
inductive Abi where
  | c
  | named (name : List Char)
  deriving DecidableEq, Repr

mutual

inductive Path where
  | crateRoot (name : Identifier)
  | inherentImpl (implPath : ImplPath) (ty : RcType)
  | traitImpl (implPath : ImplPath) (ty : RcType) (traitPath : RcPath)
  | traitDefinition (ty : RcType) (traitPath : RcPath)
  | nested (ns : Char) (parent : RcPath) (name : Identifier)
  | generic (base : RcPath) (args : List GenericArg)

/-- `Rc<Path>`: allocation id + node. -/
inductive RcPath where
  | mk (id : Nat) (node : Path)

inductive ImplPath where
  | mk (disambiguator : Nat) (path : RcPath)

inductive GenericArg where
  | lifetime (idx : Nat)
  | ty (t : RcType)
  | const (c : RcConst)

inductive Ty where
  | basic (b : BasicType)
  | named (p : RcPath)
  | array (t : RcType) (len : RcConst)
  | slice (t : RcType)
  | tuple (ts : List RcType)
  | ref (lifetime : Nat) (t : RcType)
  | refMut (lifetime : Nat) (t : RcType)
  | ptrConst (t : RcType)
  | ptrMut (t : RcType)
  | fn (sig : FnSig)
  | dynTrait (bounds : DynBounds) (lifetime : Nat)

/-- `Rc<Type>`: allocation id + node. -/
inductive RcType where
  | mk (id : Nat) (node : Ty)

inductive FnSig where
  | mk (boundLifetimes : Nat) (isUnsafe : Bool) (abi : Option Abi)
       (argumentTypes : List RcType) (returnType : RcType)

inductive DynBounds where
  | mk (boundLifetimes : Nat) (dynTraits : List DynTrait)

inductive DynTrait where
  | mk (path : RcPath) (assocBindings : List DynTraitAssocBinding)

inductive DynTraitAssocBinding where
  | mk (name : List Char) (ty : RcType)

inductive Const where
  | i8 (v : Int) | u8 (v : Int) | i16 (v : Int) | u16 (v : Int)
  | i32 (v : Int) | u32 (v : Int) | i64 (v : Int) | u64 (v : Int)
  | i128 (v : Int) | u128 (v : Int) | isize (v : Int) | usize (v : Int)
  | bool (b : Bool)
  | char (c : Char)
  | str (hex : List Char)
  | ref (c : RcConst)
  | refMut (c : RcConst)
  | array (cs : List RcConst)
  | tuple (cs : List RcConst)
  | namedStruct (path : RcPath) (fields : ConstFields)
  | placeholder

/-- `Rc<Const>`: allocation id + node. -/
inductive RcConst where
  | mk (id : Nat) (node : Const)

inductive ConstFields where
  | unit
  | tuple (cs : List RcConst)
  | struct_ (fs : List (Identifier × RcConst))

end

/-- Symbol: optional version, root path, optional instantiating crate. -/
structure Symbol where
  version : Option Nat
  path : RcPath
  instantiatingCrate : Option RcPath

/-! ## The parsing context (three memo tables + allocation counter)

The Rust `Context` holds three `HashMap<usize, Rc<_>>`.  They are modelled as
association lists where insertion conses in front; `List.lookup` returns the
most recent binding with the key, exactly like `HashMap::insert` followed by
`HashMap::get`.  Keeping the history lets theorems talk about every insert
the run performed. -/

structure Ctx where
  paths : List (Nat × RcPath)
  types : List (Nat × RcType)
  consts : List (Nat × RcConst)
  counter : Nat

def Ctx.empty : Ctx := ⟨[], [], [], 0⟩

def Ctx.insertPath (c : Ctx) (k : Nat) (v : RcPath) : Ctx :=
  { c with paths := (k, v) :: c.paths }

def Ctx.insertType (c : Ctx) (k : Nat) (v : RcType) : Ctx :=
  { c with types := (k, v) :: c.types }

def Ctx.insertConst (c : Ctx) (k : Nat) (v : RcConst) : Ctx :=
  { c with consts := (k, v) :: c.consts }

/-! ## The parser toolkit (spec §4.2)

A parser takes the cursor and the shared context and returns failure or
(output, new cursor); the context is threaded through both outcomes because
the Rust code passes `&mut Context` and never rolls mutations back. -/

abbrev P (α : Type) : Type := IndexedStr → Ctx → Option (α × IndexedStr) × Ctx

def pfail {α : Type} : P α := fun _ ctx => (none, ctx)

def pmap {α β : Type} (p : P α) (f : α → β) : P β := fun inp ctx =>
  match p inp ctx with
  | (some (v, rest), c) => (some (f v, rest), c)
  | (none, c) => (none, c)

/-- `map_opt`: a failing `f` rewinds and fails the parser. -/
def pmapOpt {α β : Type} (p : P α) (f : α → Option β) : P β := fun inp ctx =>
  match p inp ctx with
  | (some (v, rest), c) =>
    match f v with
    | some w => (some (w, rest), c)
    | none => (none, c)
  | (none, c) => (none, c)

/-- `map_opt_with_context`: the function may read the shared context (the
grammar only uses it for memo-table lookups, which do not mutate). -/
def pmapOptCtx {α β : Type} (p : P α) (f : α → Ctx → Option β) : P β := fun inp ctx =>
  match p inp ctx with
  | (some (v, rest), c) =>
    match f v c with
    | some w => (some (w, rest), c)
    | none => (none, c)
  | (none, c) => (none, c)

/-- `inspect_with_context`: on success run a context mutation (memo insert). -/
def pinspectCtx {α : Type} (p : P α) (f : α → Ctx → Ctx) : P α := fun inp ctx =>
  match p inp ctx with
  | (some (v, rest), c) => (some (v, rest), f v c)
  | (none, c) => (none, c)

/-- `or` / one step of `alt`: second parser runs on the original cursor but
the context mutated by the failed first branch. -/
def por {α : Type} (p q : P α) : P α := fun inp ctx =>
  match p inp ctx with
  | (some r, c) => (some r, c)
  | (none, c) => q inp c

/-- `opt`: on failure succeed with `none` without consuming. -/
def popt {α : Type} (p : P α) : P (Option α) := fun inp ctx =>
  match p inp ctx with
  | (some (v, rest), c) => (some (some v, rest), c)
  | (none, c) => (some (none, inp), c)

/-- sequencing (`tuple` of two; longer tuples are nested pairs). -/
def pand {α β : Type} (p : P α) (q : P β) : P (α × β) := fun inp ctx =>
  match p inp ctx with
  | (some (v, rest), c) =>
    match q rest c with
    | (some (w, rest2), c2) => (some ((v, w), rest2), c2)
    | (none, c2) => (none, c2)
  | (none, c) => (none, c)

def preceded {α β : Type} (p : P α) (q : P β) : P β := pmap (pand p q) (·.2)

def terminated {α β : Type} (p : P α) (q : P β) : P α := pmap (pand p q) (·.1)

def delimited {α β γ : Type} (p : P α) (q : P β) (r : P γ) : P β :=
  preceded p (terminated q r)

/-- `flat_map`. -/
def pflatMap {α β : Type} (p : P α) (f : α → P β) : P β := fun inp ctx =>
  match p inp ctx with
  | (some (v, rest), c) => f v rest c
  | (none, c) => (none, c)

/-- `many0`, with explicit fuel bounding the number of iterations (every
element parser of the grammar consumes input on success, so any fuel at
least `|input| + 1` gives the Rust semantics). -/
def pmany0 {α : Type} (p : P α) : Nat → P (List α)
  | 0 => fun inp ctx => (some ([], inp), ctx)
  | fuel + 1 => fun inp ctx =>
    match p inp ctx with
    | (some (v, rest), c) =>
      match pmany0 p fuel rest c with
      | (some (vs, rest2), c2) => (some (v :: vs, rest2), c2)
      | (none, c2) => (none, c2)
    | (none, c) => (some ([], inp), c)

/-- `tag(literal)`: `strip_prefix` on the cursor. -/
def tag (lit : List Char) : P (List Char) := fun inp ctx =>
  if lit.isPrefixOf inp.data then
    (some (lit, ⟨inp.index + lit.length, inp.data.drop lit.length⟩), ctx)
  else (none, ctx)

/-- `take(n)`: `split_at` on the cursor. -/
def takeP (n : Nat) : P (List Char) := fun inp ctx =>
  if n ≤ inp.data.length then
    (some (inp.data.take n, ⟨inp.index + n, inp.data.drop n⟩), ctx)
  else (none, ctx)

/-- `take_while(pred)`: longest prefix of characters satisfying `pred`. -/
def takeWhileP (pred : Char → Bool) : P (List Char) := fun inp ctx =>
  let pre := inp.data.takeWhile pred
  (some (pre, ⟨inp.index + pre.length, inp.data.drop pre.length⟩), ctx)

/-- `alphanumeric0` (from `src/src/mini_parser/parsers/alphanumeric0.rs`). -/
def alphanumeric0 : P (List Char) := takeWhileP isAsciiAlphanumeric

/-- `digit1`: one or more decimal digits. -/
def digit1 : P (List Char) := fun inp ctx =>
  match takeWhileP isAsciiDigit inp ctx with
  | (some (ds, rest), c) => if ds.isEmpty then (none, c) else (some (ds, rest), c)
  | (none, c) => (none, c)

/-- `lower_hex_digit0`: zero or more lowercase hex digits. -/
def lowerHexDigit0 : P (List Char) := takeWhileP isLowerHexDigit

/-! ## Numeric encodings (`parsers/mod.rs` lines 398-457) -/

/-- `u64::checked_add`. -/
def checkedAdd (a b : Nat) : Option Nat :=
  if a + b ≤ u64Max then some (a + b) else none

/-- `u64::checked_mul`. -/
def checkedMul (a b : Nat) : Option Nat :=
  if a * b ≤ u64Max then some (a * b) else none

/-- base-62 digit values, as in the `match` of `parse_base62_number`:
`0-9 → 0-9`, `a-z → 10-35`, anything else (the grammar guarantees `A-Z`)
`→ 36 + (c - 'A')`. -/
def base62DigitVal (c : Char) : Nat :=
  if isAsciiDigit c then c.toNat - '0'.toNat
  else if isAsciiLower c then 10 + (c.toNat - 'a'.toNat)
  else 36 + (c.toNat - 'A'.toNat)

/-- the checked accumulation loop of `parse_base62_number`. -/
def base62Loop : List Char → Nat → Option Nat
  | [], acc => some acc
  | c :: cs, acc =>
    match checkedMul acc 62 with
    | none => none
    | some m =>
      match checkedAdd m (base62DigitVal c) with
      | none => none
      | some a => base62Loop cs a

/-- `parse_base62_number`: alphanumeric run terminated by `_`; empty run is
0, otherwise value + 1, with checked arithmetic. -/
def parseBase62Number : P Nat :=
  pmapOpt (terminated alphanumeric0 (tag ['_'])) (fun num =>
    if num.isEmpty then some 0
    else
      match base62Loop num 0 with
      | none => none
      | some v => checkedAdd v 1)

/-- `parse_back_ref`: `B` + base-62 number; `u64 → usize` always fits on the
64-bit platform the crate targets. -/
def parseBackRef : P Nat := preceded (tag ['B']) parseBase62Number

def decDigitVal (c : Char) : Nat := c.toNat - '0'.toNat

def decVal (ds : List Char) : Nat :=
  ds.foldl (fun acc c => 10 * acc + decDigitVal c) 0

/-- `T::from_str_radix(s, 10)` into an unsigned width with maximum `max`:
fails on the empty string and on overflow. -/
def fromStrRadixDec (max : Nat) (ds : List Char) : Option Nat :=
  if ds.isEmpty then none
  else if decVal ds ≤ max then some (decVal ds) else none

/-- `parse_decimal_number`: the literal `"0"` or a `digit1` run, converted
with `from_str_radix`.  Both uses (`u64` version, `usize` length) have
maximum `u64Max` on the 64-bit target. -/
def parseDecimalNumber (max : Nat) : P Nat :=
  pmapOpt (por (tag ['0']) digit1) (fromStrRadixDec max)

def hexDigitVal (c : Char) : Nat :=
  if isAsciiDigit c then c.toNat - '0'.toNat else 10 + (c.toNat - 'a'.toNat)

def hexVal (ds : List Char) : Nat :=
  ds.foldl (fun acc c => 16 * acc + hexDigitVal c) 0

/-- `parse_const_int::<T>`: optional `n` sign, `lower_hex_digit0` run,
terminating `_`.  `T::from_str_radix(data, 16)` parses a non-negative value
bounded by `T::MAX` (fails on the empty run and on overflow); a leading `n`
then applies `checked_neg`, which for the non-negative parsed value fails
exactly on non-zero values of unsigned types. -/
def parseConstInt (signed : Bool) (bits : Nat) : P Int :=
  terminated
    (pmapOpt (pand (popt (tag ['n'])) lowerHexDigit0)
      (fun x =>
        let tmax : Nat := if signed then 2 ^ (bits - 1) - 1 else 2 ^ bits - 1
        if x.2.isEmpty then none
        else if hexVal x.2 ≤ tmax then
          match x.1 with
          | none => some (Int.ofNat (hexVal x.2))
          | some _ =>
            if signed then some (-(Int.ofNat (hexVal x.2)))
            else if hexVal x.2 = 0 then some 0 else none
        else none))
    (tag ['_'])

/-- `parse_const_str`: lowercase hex run terminated by `_`, length even. -/
def parseConstStr : P (List Char) :=
  pmapOpt (terminated lowerHexDigit0 (tag ['_']))
    (fun s => if s.length % 2 = 0 then some s else none)

/-! ## Leaf grammar productions -/

def parseDisambiguator : P Nat := preceded (tag ['s']) parseBase62Number

def parseLifetime : P Nat := preceded (tag ['L']) parseBase62Number

def parseBinder : P Nat := preceded (tag ['G']) parseBase62Number

/-- `opt_u64`: absent ⇒ 0, present ⇒ value + 1 with `checked_add`. -/
def optU64 (p : P Nat) : P Nat :=
  pmapOpt (popt p) (fun num =>
    match num with
    | none => some 0
    | some n => checkedAdd n 1)

/-- the single-byte basic-type map of `parse_basic_type`. -/
def basicTypeOfChar (c : Char) : Option BasicType :=
  if c = 'a' then some BasicType.i8
  else if c = 'b' then some BasicType.bool
  else if c = 'c' then some BasicType.char
  else if c = 'd' then some BasicType.f64
  else if c = 'e' then some BasicType.str
  else if c = 'f' then some BasicType.f32
  else if c = 'h' then some BasicType.u8
  else if c = 'i' then some BasicType.isize
  else if c = 'j' then some BasicType.usize
  else if c = 'l' then some BasicType.i32
  else if c = 'm' then some BasicType.u32
  else if c = 'n' then some BasicType.i128
  else if c = 'o' then some BasicType.u128
  else if c = 's' then some BasicType.i16
  else if c = 't' then some BasicType.u16
  else if c = 'u' then some BasicType.unit
  else if c = 'v' then some BasicType.ellipsis
  else if c = 'x' then some BasicType.i64
  else if c = 'y' then some BasicType.u64
  else if c = 'z' then some BasicType.never
  else if c = 'p' then some BasicType.placeholder
  else none

/-- `parse_basic_type`: `take(1)` then the map above. -/
def parseBasicType : P BasicType :=
  pmapOpt (takeP 1) (fun s =>
    match s with
    | [c] => basicTypeOfChar c
    | _ => none)

/-- external punycode decoding (the `punycode` crate is not part of this
repository); the grammar is verified for every decoding function. -/
abbrev PunyDecode : Type := List Char → Option (List Char)

/-- a concrete decoding function, used to instantiate theorems. -/
def pdId : PunyDecode := fun s => some s

/-- replace the last `_` of the name by `-` (the `rfind` loop of
`parse_undisambiguated_identifier`). -/
def replaceLastUnderscoreRev : List Char → List Char
  | [] => []
  | c :: cs => if c = '_' then '-' :: cs else c :: replaceLastUnderscoreRev cs

def replaceLastUnderscore (l : List Char) : List Char :=
  (replaceLastUnderscoreRev l.reverse).reverse

/-- `parse_undisambiguated_identifier`: optional `u` (punycode flag), a
decimal length, an optional `_` separator, then exactly `length` characters;
punycode names are decoded after rewriting the final `_` to `-`. -/
def parseUndisambiguatedIdentifier (pd : PunyDecode) : P (List Char) :=
  pflatMap
    (pand (pand (popt (tag ['u'])) (parseDecimalNumber u64Max)) (popt (tag ['_'])))
    (fun v =>
      pmapOpt (takeP v.1.2) (fun name =>
        if v.1.1.isSome then pd (replaceLastUnderscore name) else some name))

/-- `parse_identifier`: `opt_u64` disambiguator + undisambiguated name. -/
def parseIdentifier (pd : PunyDecode) : P Identifier :=
  pmap (pand (optU64 parseDisambiguator) (parseUndisambiguatedIdentifier pd))
    (fun x => ⟨x.1, x.2⟩)

/-- `parse_abi`: `C`, or a named undisambiguated identifier. -/
def parseAbi (pd : PunyDecode) : P Abi :=
  por (pmap (tag ['C']) (fun _ => Abi.c))
    (pmap (parseUndisambiguatedIdentifier pd) Abi.named)

/-! ## The mutually recursive grammar

The recursive productions are gathered in a bundle built by structural
recursion on fuel; `(grammar pd fuel).path` is `parse_path` where every
recursive call uses `fuel - 1`. -/

structure Grammar where
  path : P RcPath
  implPath : P ImplPath
  genericArg : P GenericArg
  ty : P RcType
  fnSig : P FnSig
  dynBounds : P DynBounds
  dynTrait : P DynTrait
  dynTraitAssocBinding : P DynTraitAssocBinding
  const : P RcConst
  constFields : P ConstFields

def failGrammar : Grammar :=
  ⟨pfail, pfail, pfail, pfail, pfail, pfail, pfail, pfail, pfail, pfail⟩

/-- allocate a fresh `Rc` id for a constructor result (`.map(Rc::new)`). -/
def pmapRc {α β : Type} (mk : Nat → α → β) (p : P α) : P β := fun inp ctx =>
  match p inp ctx with
  | (some (v, rest), c) =>
    (some (mk c.counter v, rest), { c with counter := c.counter + 1 })
  | (none, c) => (none, c)

/-- one unfolding of the grammar: each production of `parsers/mod.rs`, with
recursive positions taken from `g` and `many0` running on `fuel`. -/
def mkGrammar (pd : PunyDecode) (g : Grammar) (fuel : Nat) : Grammar where
  path := fun inp ctx =>
    (pinspectCtx
      (por
        (pmapRc RcPath.mk
          (por (pmap (preceded (tag ['C']) (parseIdentifier pd)) Path.crateRoot)
          (por (pmap (preceded (tag ['M']) (pand g.implPath g.ty))
                 (fun x => Path.inherentImpl x.1 x.2))
          (por (pmap (preceded (tag ['X']) (pand (pand g.implPath g.ty) g.path))
                 (fun x => Path.traitImpl x.1.1 x.1.2 x.2))
          (por (pmap (preceded (tag ['Y']) (pand g.ty g.path))
                 (fun x => Path.traitDefinition x.1 x.2))
          (por (pmap (preceded (tag ['N']) (pand (pand (takeP 1) g.path) (parseIdentifier pd)))
                 (fun x => Path.nested (x.1.1.headD ' ') x.1.2 x.2))
               (pmap (delimited (tag ['I']) (pand g.path (pmany0 g.genericArg fuel)) (tag ['E']))
                 (fun x => Path.generic x.1 x.2))))))))
        (pmapOptCtx parseBackRef (fun k c => c.paths.lookup k)))
      (fun v c => c.insertPath inp.index v)) inp ctx
  implPath :=
    pmap (pand (optU64 parseDisambiguator) g.path) (fun x => ImplPath.mk x.1 x.2)
  genericArg :=
    por (pmap parseLifetime GenericArg.lifetime)
    (por (pmap g.ty GenericArg.ty)
         (pmap (preceded (tag ['K']) g.const) GenericArg.const))
  ty := fun inp ctx =>
    (pinspectCtx
      (por
        (pmapRc RcType.mk
          (por (pmap parseBasicType Ty.basic)
          (por (pmap g.path Ty.named)
          (por (pmap (preceded (tag ['A']) (pand g.ty g.const))
                 (fun x => Ty.array x.1 x.2))
          (por (pmap (preceded (tag ['S']) g.ty) Ty.slice)
          (por (pmap (delimited (tag ['T']) (pmany0 g.ty fuel) (tag ['E'])) Ty.tuple)
          (por (pmap (preceded (tag ['R'])
                       (pand (pmap (popt parseLifetime) (fun o => o.getD 0)) g.ty))
                 (fun x => Ty.ref x.1 x.2))
          (por (pmap (preceded (tag ['Q'])
                       (pand (pmap (popt parseLifetime) (fun o => o.getD 0)) g.ty))
                 (fun x => Ty.refMut x.1 x.2))
          (por (pmap (preceded (tag ['P']) g.ty) Ty.ptrConst)
          (por (pmap (preceded (tag ['O']) g.ty) Ty.ptrMut)
          (por (pmap (preceded (tag ['F']) g.fnSig) Ty.fn)
               (pmap (preceded (tag ['D']) (pand g.dynBounds parseLifetime))
                 (fun x => Ty.dynTrait x.1 x.2)))))))))))))
        (pmapOptCtx parseBackRef (fun k c => c.types.lookup k)))
      (fun v c => c.insertType inp.index v)) inp ctx
  fnSig :=
    pmap (pand (pand (pand (pand (optU64 parseBinder)
                                 (pmap (popt (tag ['U'])) Option.isSome))
                           (popt (preceded (tag ['K']) (parseAbi pd))))
                     (terminated (pmany0 g.ty fuel) (tag ['E'])))
               g.ty)
      (fun x => FnSig.mk x.1.1.1.1 x.1.1.1.2 x.1.1.2 x.1.2 x.2)
  dynBounds :=
    pmap (pand (optU64 parseBinder) (terminated (pmany0 g.dynTrait fuel) (tag ['E'])))
      (fun x => DynBounds.mk x.1 x.2)
  dynTrait :=
    pmap (pand g.path (pmany0 g.dynTraitAssocBinding fuel))
      (fun x => DynTrait.mk x.1 x.2)
  dynTraitAssocBinding :=
    pmap (preceded (tag ['p']) (pand (parseUndisambiguatedIdentifier pd) g.ty))
      (fun x => DynTraitAssocBinding.mk x.1 x.2)
  const := fun inp ctx =>
    (pinspectCtx
      (por
        (pmapRc RcConst.mk
          (por (pmap (preceded (tag ['a']) (parseConstInt true 8)) Const.i8)
          (por (pmap (preceded (tag ['h']) (parseConstInt false 8)) Const.u8)
          (por (pmap (preceded (tag ['i']) (parseConstInt true 64)) Const.isize)
          (por (pmap (preceded (tag ['j']) (parseConstInt false 64)) Const.usize)
          (por (pmap (preceded (tag ['l']) (parseConstInt true 32)) Const.i32)
          (por (pmap (preceded (tag ['m']) (parseConstInt false 32)) Const.u32)
          (por (pmap (preceded (tag ['n']) (parseConstInt true 128)) Const.i128)
          (por (pmap (preceded (tag ['o']) (parseConstInt false 128)) Const.u128)
          (por (pmap (preceded (tag ['s']) (parseConstInt true 16)) Const.i16)
          (por (pmap (preceded (tag ['t']) (parseConstInt false 16)) Const.u16)
          (por (pmap (preceded (tag ['x']) (parseConstInt true 64)) Const.i64)
          (por (pmap (preceded (tag ['y']) (parseConstInt false 64)) Const.u64)
          (por (preceded (tag ['b'])
                 (pmapOpt (parseConstInt false 8) (fun r =>
                   if r = 0 then some (Const.bool false)
                   else if r = 1 then some (Const.bool true) else none)))
          (por (preceded (tag ['c'])
                 (pmapOpt (parseConstInt false 32) (fun r =>
                   if Nat.isValidChar r.toNat then some (Const.char (Char.ofNat r.toNat))
                   else none)))
          (por (pmap (preceded (tag ['e']) parseConstStr) Const.str)
          (por (pmap (preceded (tag ['R']) g.const) Const.ref)
          (por (pmap (preceded (tag ['Q']) g.const) Const.refMut)
          (por (pmap (delimited (tag ['A']) (pmany0 g.const fuel) (tag ['E'])) Const.array)
          (por (pmap (delimited (tag ['T']) (pmany0 g.const fuel) (tag ['E'])) Const.tuple)
          (por (pmap (preceded (tag ['V']) (pand g.path g.constFields))
                 (fun x => Const.namedStruct x.1 x.2))
               (pmap (tag ['p']) (fun _ => Const.placeholder)))))))))))))))))))))))
        (pmapOptCtx parseBackRef (fun k c => c.consts.lookup k)))
      (fun v c => c.insertConst inp.index v)) inp ctx
  constFields :=
    por (pmap (tag ['U']) (fun _ => ConstFields.unit))
    (por (pmap (delimited (tag ['T']) (pmany0 g.const fuel) (tag ['E'])) ConstFields.tuple)
         (pmap (delimited (tag ['S']) (pmany0 (pand (parseIdentifier pd) g.const) fuel) (tag ['E']))
           ConstFields.struct_))

/-- the fuel-indexed grammar. -/
def grammar (pd : PunyDecode) : Nat → Grammar
  | 0 => failGrammar
  | fuel + 1 => mkGrammar pd (grammar pd fuel) fuel

def parsePath (pd : PunyDecode) (fuel : Nat) : P RcPath := (grammar pd fuel).path

def parseType (pd : PunyDecode) (fuel : Nat) : P RcType := (grammar pd fuel).ty

def parseGenericArg (pd : PunyDecode) (fuel : Nat) : P GenericArg :=
  (grammar pd fuel).genericArg

def parseConst (pd : PunyDecode) (fuel : Nat) : P RcConst := (grammar pd fuel).const

/-- `parse_symbol_inner`: optional version, root path, optional
instantiating crate. -/
def parseSymbolInner (pd : PunyDecode) (fuel : Nat) : P Symbol :=
  pmap (pand (pand (popt (parseDecimalNumber u64Max)) (parsePath pd fuel))
             (popt (parsePath pd fuel)))
    (fun x => ⟨x.1.1, x.1.2, x.2⟩)

/-- fuel large enough for every input: the recursion adds at most two frames
(`type → path`, `generic-arg → type`) without consuming a character. -/
def symbolFuel (input : List Char) : Nat := 2 * input.length + 4

/-- `parse_symbol` (the public function of `parsers/mod.rs`): run on a fresh
context, return the symbol and the unconsumed remainder. -/
def parseSymbol (pd : PunyDecode) (input : List Char) : Option (Symbol × List Char) :=
  match parseSymbolInner pd (symbolFuel input) ⟨0, input⟩ Ctx.empty with
  | (some (sym, rest), _) => some (sym, rest.data)
  | (none, _) => none

/-- Modelled from the spec: the public entry point (`rust_v0/mod.rs`, not
under `src/`) strips the leading `_R` and hands the remainder to
`parse_symbol`, whose cursor starts at offset 0 (spec §6; `IndexedStr::new`
in the source). -/
def parseMangled (pd : PunyDecode) (input : List Char) : Option (Symbol × List Char) :=
  match input with
  | '_' :: 'R' :: rest => parseSymbol pd rest
  | _ => none

/-! ## Projections (the `Rc` pointer, i.e. allocation id, and the node) -/

def RcPath.rcId : RcPath → Nat
  | .mk i _ => i

def RcPath.node : RcPath → Path
  | .mk _ n => n

def RcType.rcId : RcType → Nat
  | .mk i _ => i

def RcType.node : RcType → Ty
  | .mk _ n => n

def RcConst.rcId : RcConst → Nat
  | .mk i _ => i

def RcConst.node : RcConst → Const
  | .mk _ n => n

/-! ## Consumption discipline

`Advances p`: on success the returned cursor is the verbatim unconsumed tail
of the input — the data is a `drop` of the input data and the index advanced
by exactly the number of consumed characters. -/

def Advances {α : Type} (p : P α) : Prop :=
  ∀ inp ctx out rest, (p inp ctx).1 = some (out, rest) →
    ∃ k, k ≤ inp.data.length ∧ rest.index = inp.index + k ∧ rest.data = inp.data.drop k

/-- all recursive productions of a grammar bundle advance. -/
def AdvGrammar (g : Grammar) : Prop :=
  Advances g.path ∧ Advances g.implPath ∧ Advances g.genericArg ∧ Advances g.ty ∧
  Advances g.fnSig ∧ Advances g.dynBounds ∧ Advances g.dynTrait ∧
  Advances g.dynTraitAssocBinding ∧ Advances g.const ∧ Advances g.constFields

/-! ## Base-62 numbers (C2) and the opt-u64 convention (C6) -/

/-- the unchecked value of the accumulation loop, starting from `acc`. -/
def base62ValFrom (acc : Nat) (ds : List Char) : Nat :=
  ds.foldl (fun a c => a * 62 + base62DigitVal c) acc

/-- the base-62 interpretation of a digit run. -/
def base62Val (ds : List Char) : Nat := base62ValFrom 0 ds

/-- head bytes accepted by `parse_path` (constructor tags and `B`). -/
def pathHeads : List Char := ['C', 'M', 'X', 'Y', 'N', 'I', 'B']

/-- the 21 bytes of the basic-type map. -/
def basicChars : List Char :=
  ['a', 'b', 'c', 'd', 'e', 'f', 'h', 'i', 'j', 'l', 'm', 'n', 'o', 's', 't',
   'u', 'v', 'x', 'y', 'z', 'p']

/-- head bytes accepted by `parse_type`. -/
def tyHeads : List Char :=
  basicChars ++ pathHeads ++ ['A', 'S', 'T', 'R', 'Q', 'P', 'O', 'F', 'D']

/-- head bytes accepted by `parse_const`. -/
def constHeads : List Char :=
  ['a', 'h', 'i', 'j', 'l', 'm', 'n', 'o', 's', 't', 'x', 'y', 'b', 'c', 'e',
   'R', 'Q', 'A', 'T', 'V', 'p', 'B']

/-- the head of `l` (if any) lies outside `bad`. -/
def HeadNotIn (bad : List Char) (l : List Char) : Prop :=
  ∀ c, l.head? = some c → c ∉ bad

/-! ## Named views of the recursive productions

`pathAlt`/`tyAlt`/`constAlt` name the constructor-alternative chains and
`pathBackRef`/`tyBackRef`/`constBackRef` the back-reference fallbacks, so
theorems can talk about the structure of `parse_path`/`parse_type`/
`parse_const`; the `*_unfold` lemmas are definitional. -/

def pathAlt (pd : PunyDecode) (g : Grammar) (fuel : Nat) : P Path :=
  por (pmap (preceded (tag ['C']) (parseIdentifier pd)) Path.crateRoot)
  (por (pmap (preceded (tag ['M']) (pand g.implPath g.ty))
         (fun x => Path.inherentImpl x.1 x.2))
  (por (pmap (preceded (tag ['X']) (pand (pand g.implPath g.ty) g.path))
         (fun x => Path.traitImpl x.1.1 x.1.2 x.2))
  (por (pmap (preceded (tag ['Y']) (pand g.ty g.path))
         (fun x => Path.traitDefinition x.1 x.2))
  (por (pmap (preceded (tag ['N']) (pand (pand (takeP 1) g.path) (parseIdentifier pd)))
         (fun x => Path.nested (x.1.1.headD ' ') x.1.2 x.2))
       (pmap (delimited (tag ['I']) (pand g.path (pmany0 g.genericArg fuel)) (tag ['E']))
         (fun x => Path.generic x.1 x.2))))))

def pathBackRef : P RcPath := pmapOptCtx parseBackRef (fun k c => c.paths.lookup k)

def tyAlt (_pd : PunyDecode) (g : Grammar) (fuel : Nat) : P Ty :=
  por (pmap parseBasicType Ty.basic)
  (por (pmap g.path Ty.named)
  (por (pmap (preceded (tag ['A']) (pand g.ty g.const))
         (fun x => Ty.array x.1 x.2))
  (por (pmap (preceded (tag ['S']) g.ty) Ty.slice)
  (por (pmap (delimited (tag ['T']) (pmany0 g.ty fuel) (tag ['E'])) Ty.tuple)
  (por (pmap (preceded (tag ['R'])
               (pand (pmap (popt parseLifetime) (fun o => o.getD 0)) g.ty))
         (fun x => Ty.ref x.1 x.2))
  (por (pmap (preceded (tag ['Q'])
               (pand (pmap (popt parseLifetime) (fun o => o.getD 0)) g.ty))
         (fun x => Ty.refMut x.1 x.2))
  (por (pmap (preceded (tag ['P']) g.ty) Ty.ptrConst)
  (por (pmap (preceded (tag ['O']) g.ty) Ty.ptrMut)
  (por (pmap (preceded (tag ['F']) g.fnSig) Ty.fn)
       (pmap (preceded (tag ['D']) (pand g.dynBounds parseLifetime))
         (fun x => Ty.dynTrait x.1 x.2)))))))))))

def tyBackRef : P RcType := pmapOptCtx parseBackRef (fun k c => c.types.lookup k)

def constAlt (_pd : PunyDecode) (g : Grammar) (fuel : Nat) : P Const :=
  por (pmap (preceded (tag ['a']) (parseConstInt true 8)) Const.i8)
  (por (pmap (preceded (tag ['h']) (parseConstInt false 8)) Const.u8)
  (por (pmap (preceded (tag ['i']) (parseConstInt true 64)) Const.isize)
  (por (pmap (preceded (tag ['j']) (parseConstInt false 64)) Const.usize)
  (por (pmap (preceded (tag ['l']) (parseConstInt true 32)) Const.i32)
  (por (pmap (preceded (tag ['m']) (parseConstInt false 32)) Const.u32)
  (por (pmap (preceded (tag ['n']) (parseConstInt true 128)) Const.i128)
  (por (pmap (preceded (tag ['o']) (parseConstInt false 128)) Const.u128)
  (por (pmap (preceded (tag ['s']) (parseConstInt true 16)) Const.i16)
  (por (pmap (preceded (tag ['t']) (parseConstInt false 16)) Const.u16)
  (por (pmap (preceded (tag ['x']) (parseConstInt true 64)) Const.i64)
  (por (pmap (preceded (tag ['y']) (parseConstInt false 64)) Const.u64)
  (por (preceded (tag ['b'])
         (pmapOpt (parseConstInt false 8) (fun r =>
           if r = 0 then some (Const.bool false)
           else if r = 1 then some (Const.bool true) else none)))
  (por (preceded (tag ['c'])
         (pmapOpt (parseConstInt false 32) (fun r =>
           if Nat.isValidChar r.toNat then some (Const.char (Char.ofNat r.toNat))
           else none)))
  (por (pmap (preceded (tag ['e']) parseConstStr) Const.str)
  (por (pmap (preceded (tag ['R']) g.const) Const.ref)
  (por (pmap (preceded (tag ['Q']) g.const) Const.refMut)
  (por (pmap (delimited (tag ['A']) (pmany0 g.const fuel) (tag ['E'])) Const.array)
  (por (pmap (delimited (tag ['T']) (pmany0 g.const fuel) (tag ['E'])) Const.tuple)
  (por (pmap (preceded (tag ['V']) (pand g.path g.constFields))
         (fun x => Const.namedStruct x.1 x.2))
       (pmap (tag ['p']) (fun _ => Const.placeholder)))))))))))))))))))))

def constBackRef : P RcConst := pmapOptCtx parseBackRef (fun k c => c.consts.lookup k)

/-! ## C5: the `_RNvC1a1fB4_` scenario -/

/-- the allocation id of the parent path of a `Nested` node. -/
def Path.nestedParentId : Path → Option Nat
  | Path.nested _ parent _ => some parent.rcId
  | _ => none

/-! ## C3: memo-table key discipline

The memo tables are cons-lists, so the final context records every insert a
run performed, most recent first, and `List.lookup` returns the most recent
binding of a key — the `HashMap` semantics.  The development proves:
resolution of a back-reference returns exactly the current table entry;
parsers only prepend entries; starting from the empty context every insert
uses a fresh key; and with the last two facts an entry is returned unchanged
by every later lookup of its offset. -/

def keysP (c : Ctx) : List Nat := c.paths.map Prod.fst

def keysT (c : Ctx) : List Nat := c.types.map Prod.fst

def keysC (c : Ctx) : List Nat := c.consts.map Prod.fst

/-- every memoized key is below `n` (the cursor position). -/
def CtxBelow (c : Ctx) (n : Nat) : Prop :=
  (∀ k ∈ keysP c, k < n) ∧ (∀ k ∈ keysT c, k < n) ∧ (∀ k ∈ keysC c, k < n)

/-- every memo table has pairwise distinct keys. -/
def NodupAll (c : Ctx) : Prop :=
  (keysP c).Nodup ∧ (keysT c).Nodup ∧ (keysC c).Nodup

/-- `c'` extends `c`: each table grew by consing entries in front. -/
def Ext (c c' : Ctx) : Prop :=
  (∃ l, c'.paths = l ++ c.paths) ∧ (∃ l, c'.types = l ++ c.types) ∧
  (∃ l, c'.consts = l ++ c.consts)

/-- all keys of `l` lie in `[lo, hi)`. -/
def KeysIn (l : List Nat) (lo hi : Nat) : Prop := ∀ k ∈ l, lo ≤ k ∧ k < hi

/-- `c'` extends `c` and the new keys lie in the given per-table windows. -/
def BoundedNew (c c' : Ctx) (lp lt lc hi : Nat) : Prop :=
  (∃ l, c'.paths = l ++ c.paths ∧ KeysIn (l.map Prod.fst) lp hi) ∧
  (∃ l, c'.types = l ++ c.types ∧ KeysIn (l.map Prod.fst) lt hi) ∧
  (∃ l, c'.consts = l ++ c.consts ∧ KeysIn (l.map Prod.fst) lc hi)

/-- clean failure on every input whose head byte is listed. -/
def CleanOn {α : Type} (p : P α) (hs : List Char) : Prop :=
  ∀ inp ctx c, inp.data.head? = some c → c ∈ hs → p inp ctx = (none, ctx)

/-- a failure either left the context untouched or the head byte is listed
(the parser had started consuming its structure before failing). -/
def DirtyOn {α : Type} (p : P α) (hs : List Char) : Prop :=
  ∀ inp ctx ctx', p inp ctx = (none, ctx') →
    ctx' = ctx ∨ ∃ c, inp.data.head? = some c ∧ c ∈ hs

/-- the parser never mutates the context. -/
def CtxPure {α : Type} (p : P α) : Prop := ∀ inp ctx, (p inp ctx).2 = ctx

/-- success consumes at least one character. -/
def ConsumesPos {α : Type} (p : P α) : Prop :=
  ∀ inp ctx out rest, (p inp ctx).1 = some (out, rest) → inp.index < rest.index

/-- the key-discipline invariant.  Assuming all memoized keys are below the
cursor and duplicate-free: success keeps the tables duplicate-free and
either inserts only keys inside the consumed window (with per-table lower
bounds `inp.index + bp/bt/bc`), or stops at a residue whose head byte is in
`dS` after absorbing a polluted sub-parse (a residue every caller rejects);
failure keeps the tables duplicate-free. -/
def KeyInv {α : Type} (p : P α) (dS : List Char) (bp bt bc : Nat) : Prop :=
  ∀ inp ctx, CtxBelow ctx inp.index → NodupAll ctx →
    (∀ out rest ctx', p inp ctx = (some (out, rest), ctx') →
      NodupAll ctx' ∧
      (BoundedNew ctx ctx' (inp.index + bp) (inp.index + bt) (inp.index + bc)
         rest.index ∨
       ∃ c, rest.data.head? = some c ∧ c ∈ dS)) ∧
    (∀ ctx', p inp ctx = (none, ctx') → NodupAll ctx')

/-- head bytes on which a failing `parse_path` may have mutated the tables
(its constructor tags; the back-reference branch never mutates). -/
def pathDirty : List Char := ['C', 'M', 'X', 'Y', 'N', 'I']

/-- head bytes on which a failing `parse_type` may have mutated the tables. -/
def tyDirty : List Char :=
  ['C', 'M', 'X', 'Y', 'N', 'I', 'A', 'S', 'T', 'R', 'Q', 'P', 'O', 'F', 'D']

/-- head bytes on which a failing `parse_const` may have mutated the tables. -/
def constDirty : List Char :=
  ['a', 'h', 'i', 'j', 'l', 'm', 'n', 'o', 's', 't', 'x', 'y', 'b', 'c', 'e',
   'R', 'Q', 'A', 'T', 'V']

/-- head bytes on which a failing `parse_generic_arg` may have mutated. -/
def gaDirty : List Char := tyDirty ++ ['K']

/-- head bytes on which a failing identifier-const pair (a field of a
`V`-const struct body) may have mutated. -/
def pairDirty : List Char :=
  ['s', 'u', '0', '1', '2', '3', '4', '5', '6', '7', '8', '9']

/-! ### extension: every parser only prepends to the memo tables -/

/-- regardless of outcome, the output context extends the input context. -/
def Extends {α : Type} (p : P α) : Prop := ∀ inp ctx, Ext ctx (p inp ctx).2

/-- all productions of a grammar bundle only extend the tables. -/
def ExtGrammar (g : Grammar) : Prop :=
  Extends g.path ∧ Extends g.implPath ∧ Extends g.genericArg ∧ Extends g.ty ∧
  Extends g.fnSig ∧ Extends g.dynBounds ∧ Extends g.dynTrait ∧
  Extends g.dynTraitAssocBinding ∧ Extends g.const ∧ Extends g.constFields

/-- the recursive productions that memoize consume input on success. -/
def CPGrammar (g : Grammar) : Prop :=
  ConsumesPos g.path ∧ ConsumesPos g.ty ∧ ConsumesPos g.const

/-! ### the grammar-wide key invariant -/

def KeyInvGrammar (g : Grammar) : Prop :=
  KeyInv g.path [] 0 1 1 ∧
  KeyInv g.implPath [] 0 1 1 ∧
  KeyInv g.genericArg [] 0 0 1 ∧
  KeyInv g.ty [] 0 0 1 ∧
  KeyInv g.fnSig [] 0 0 1 ∧
  KeyInv g.dynBounds [] 0 1 1 ∧
  KeyInv g.dynTrait ['p'] 0 1 1 ∧
  KeyInv g.dynTraitAssocBinding [] 1 1 1 ∧
  KeyInv g.const [] 1 1 0 ∧
  KeyInv g.constFields [] 1 1 1

/-! ### C3 -/

def c3w1 : RcPath := RcPath.mk 0 (Path.crateRoot ⟨0, ['a']⟩)

def c3wCtx : Ctx := Ctx.empty.insertPath 0 c3w1

def c3wCtx2 : Ctx := c3wCtx.insertPath 1 c3w1


theorem drop_add {α : Type} (k k2 : Nat) (l : List α) :
    List.drop (k + k2) l = List.drop k2 (List.drop k l) := by
  rw [List.drop_drop, Nat.add_comm]

theorem advances_pfail {α : Type} : Advances (pfail (α := α)) := by
  intro inp ctx out rest h
  simp [pfail] at h

theorem advances_pmap {α β : Type} {p : P α} {f : α → β} (hp : Advances p) :
    Advances (pmap p f) := by
  intro inp ctx out rest h
  unfold pmap at h
  rcases hres : p inp ctx with ⟨o, c⟩
  rw [hres] at h
  rcases o with _ | ⟨v, r⟩
  · simp at h
  · simp at h
    exact h.2 ▸ hp inp ctx v r (by rw [hres])

theorem advances_pmapOpt {α β : Type} {p : P α} {f : α → Option β} (hp : Advances p) :
    Advances (pmapOpt p f) := by
  intro inp ctx out rest h
  unfold pmapOpt at h
  rcases hres : p inp ctx with ⟨o, c⟩
  rw [hres] at h
  rcases o with _ | ⟨v, r⟩
  · simp at h
  · rcases hf : f v with _ | w
    · simp [hf] at h
    · simp [hf] at h
      exact h.2 ▸ hp inp ctx v r (by rw [hres])

theorem advances_pmapOptCtx {α β : Type} {p : P α} {f : α → Ctx → Option β}
    (hp : Advances p) : Advances (pmapOptCtx p f) := by
  intro inp ctx out rest h
  unfold pmapOptCtx at h
  rcases hres : p inp ctx with ⟨o, c⟩
  rw [hres] at h
  rcases o with _ | ⟨v, r⟩
  · simp at h
  · rcases hf : f v c with _ | w
    · simp [hf] at h
    · simp [hf] at h
      exact h.2 ▸ hp inp ctx v r (by rw [hres])

theorem advances_pinspectCtx {α : Type} {p : P α} {f : α → Ctx → Ctx}
    (hp : Advances p) : Advances (pinspectCtx p f) := by
  intro inp ctx out rest h
  unfold pinspectCtx at h
  rcases hres : p inp ctx with ⟨o, c⟩
  rw [hres] at h
  rcases o with _ | ⟨v, r⟩
  · simp at h
  · simp at h
    exact h.2 ▸ hp inp ctx v r (by rw [hres])

theorem advances_pmapRc {α β : Type} {mk : Nat → α → β} {p : P α} (hp : Advances p) :
    Advances (pmapRc mk p) := by
  intro inp ctx out rest h
  unfold pmapRc at h
  rcases hres : p inp ctx with ⟨o, c⟩
  rw [hres] at h
  rcases o with _ | ⟨v, r⟩
  · simp at h
  · simp at h
    exact h.2 ▸ hp inp ctx v r (by rw [hres])

theorem advances_por {α : Type} {p q : P α} (hp : Advances p) (hq : Advances q) :
    Advances (por p q) := by
  intro inp ctx out rest h
  unfold por at h
  rcases hres : p inp ctx with ⟨o, c⟩
  rw [hres] at h
  rcases o with _ | ⟨v, r⟩
  · exact hq inp c out rest h
  · simp at h
    exact h.2 ▸ hp inp ctx v r (by rw [hres, h.1])

theorem advances_popt {α : Type} {p : P α} (hp : Advances p) : Advances (popt p) := by
  intro inp ctx out rest h
  unfold popt at h
  rcases hres : p inp ctx with ⟨o, c⟩
  rw [hres] at h
  rcases o with _ | ⟨v, r⟩
  · simp at h
    exact ⟨0, by simp [h.2]⟩
  · simp at h
    exact h.2 ▸ hp inp ctx v r (by rw [hres])

theorem advances_pand {α β : Type} {p : P α} {q : P β} (hp : Advances p)
    (hq : Advances q) : Advances (pand p q) := by
  intro inp ctx out rest h
  unfold pand at h
  rcases hres : p inp ctx with ⟨o, c⟩
  rw [hres] at h
  rcases o with _ | ⟨v, r⟩
  · simp at h
  · simp only at h
    rcases hres2 : q r c with ⟨o2, c2⟩
    rw [hres2] at h
    rcases o2 with _ | ⟨w, r2⟩
    · simp at h
    · simp at h
      obtain ⟨-, rfl⟩ := h
      obtain ⟨k, hk, hik, hdk⟩ := hp inp ctx v r (by rw [hres])
      obtain ⟨k2, hk2, hik2, hdk2⟩ := hq r c w r2 (by rw [hres2])
      have hlen : r.data.length = inp.data.length - k := by rw [hdk]; simp
      refine ⟨k + k2, by omega, by omega, ?_⟩
      rw [drop_add, ← hdk]
      exact hdk2

theorem advances_preceded {α β : Type} {p : P α} {q : P β} (hp : Advances p)
    (hq : Advances q) : Advances (preceded p q) :=
  advances_pmap (advances_pand hp hq)

theorem advances_terminated {α β : Type} {p : P α} {q : P β} (hp : Advances p)
    (hq : Advances q) : Advances (terminated p q) :=
  advances_pmap (advances_pand hp hq)

theorem advances_delimited {α β γ : Type} {p : P α} {q : P β} {r : P γ}
    (hp : Advances p) (hq : Advances q) (hr : Advances r) :
    Advances (delimited p q r) :=
  advances_preceded hp (advances_terminated hq hr)

theorem advances_pflatMap {α β : Type} {p : P α} {f : α → P β} (hp : Advances p)
    (hf : ∀ v, Advances (f v)) : Advances (pflatMap p f) := by
  intro inp ctx out rest h
  unfold pflatMap at h
  rcases hres : p inp ctx with ⟨o, c⟩
  rw [hres] at h
  rcases o with _ | ⟨v, r⟩
  · simp at h
  · simp only at h
    obtain ⟨k, hk, hik, hdk⟩ := hp inp ctx v r (by rw [hres])
    obtain ⟨k2, hk2, hik2, hdk2⟩ := hf v r c out rest h
    have hlen : r.data.length = inp.data.length - k := by rw [hdk]; simp
    refine ⟨k + k2, by omega, by omega, ?_⟩
    rw [drop_add, ← hdk]
    exact hdk2

theorem advances_pmany0 {α : Type} {p : P α} (hp : Advances p) :
    ∀ fuel, Advances (pmany0 p fuel) := by
  intro fuel
  induction fuel with
  | zero =>
    intro inp ctx out rest h
    unfold pmany0 at h
    simp at h
    exact ⟨0, by simp [h.2]⟩
  | succ fuel ih =>
    intro inp ctx out rest h
    unfold pmany0 at h
    rcases hres : p inp ctx with ⟨o, c⟩
    rw [hres] at h
    rcases o with _ | ⟨v, r⟩
    · simp at h
      exact ⟨0, by simp [h.2]⟩
    · simp only at h
      rcases hres2 : pmany0 p fuel r c with ⟨o2, c2⟩
      rw [hres2] at h
      rcases o2 with _ | ⟨w, r2⟩
      · simp at h
      · simp at h
        obtain ⟨-, rfl⟩ := h
        obtain ⟨k, hk, hik, hdk⟩ := hp inp ctx v r (by rw [hres])
        obtain ⟨k2, hk2, hik2, hdk2⟩ := ih r c w r2 (by rw [hres2])
        have hlen : r.data.length = inp.data.length - k := by rw [hdk]; simp
        refine ⟨k + k2, by omega, by omega, ?_⟩
        rw [drop_add, ← hdk]
        exact hdk2

theorem advances_tag {lit : List Char} : Advances (tag lit) := by
  intro inp ctx out rest h
  unfold tag at h
  by_cases hpre : lit.isPrefixOf inp.data
  · rw [if_pos hpre] at h
    simp at h
    refine ⟨lit.length, ?_, by simp [← h.2], by simp [← h.2]⟩
    exact (List.isPrefixOf_iff_prefix.mp hpre).length_le
  · rw [if_neg hpre] at h
    simp at h

theorem advances_takeP {n : Nat} : Advances (takeP n) := by
  intro inp ctx out rest h
  unfold takeP at h
  by_cases hn : n ≤ inp.data.length
  · rw [if_pos hn] at h
    simp at h
    exact ⟨n, hn, by simp [← h.2], by simp [← h.2]⟩
  · rw [if_neg hn] at h
    simp at h

theorem advances_takeWhileP {pred : Char → Bool} : Advances (takeWhileP pred) := by
  intro inp ctx out rest h
  unfold takeWhileP at h
  simp at h
  refine ⟨(inp.data.takeWhile pred).length, ?_, by simp [← h.2], by simp [← h.2]⟩
  exact (List.takeWhile_prefix pred).length_le

theorem advances_alphanumeric0 : Advances alphanumeric0 := advances_takeWhileP

theorem advances_lowerHexDigit0 : Advances lowerHexDigit0 := advances_takeWhileP

theorem advances_digit1 : Advances digit1 := by
  intro inp ctx out rest h
  unfold digit1 at h
  rcases hres : takeWhileP isAsciiDigit inp ctx with ⟨o, c⟩
  rw [hres] at h
  rcases o with _ | ⟨v, r⟩
  · simp at h
  · simp only at h
    by_cases he : v.isEmpty
    · rw [if_pos he] at h; simp at h
    · rw [if_neg he] at h
      simp at h
      exact h.2 ▸ advances_takeWhileP inp ctx v r (by rw [hres])

theorem advances_parseBase62Number : Advances parseBase62Number :=
  advances_pmapOpt (advances_terminated advances_alphanumeric0 advances_tag)

theorem advances_parseBackRef : Advances parseBackRef :=
  advances_preceded advances_tag advances_parseBase62Number

theorem advances_parseDecimalNumber {max : Nat} : Advances (parseDecimalNumber max) :=
  advances_pmapOpt (advances_por advances_tag advances_digit1)

theorem advances_parseConstInt {signed : Bool} {bits : Nat} :
    Advances (parseConstInt signed bits) :=
  advances_terminated
    (advances_pmapOpt (advances_pand (advances_popt advances_tag) advances_lowerHexDigit0))
    advances_tag

theorem advances_parseConstStr : Advances parseConstStr :=
  advances_pmapOpt (advances_terminated advances_lowerHexDigit0 advances_tag)

theorem advances_parseDisambiguator : Advances parseDisambiguator :=
  advances_preceded advances_tag advances_parseBase62Number

theorem advances_parseLifetime : Advances parseLifetime :=
  advances_preceded advances_tag advances_parseBase62Number

theorem advances_parseBinder : Advances parseBinder :=
  advances_preceded advances_tag advances_parseBase62Number

theorem advances_optU64 {p : P Nat} (hp : Advances p) : Advances (optU64 p) :=
  advances_pmapOpt (advances_popt hp)

theorem advances_parseBasicType : Advances parseBasicType :=
  advances_pmapOpt advances_takeP

theorem advances_parseUndisambiguatedIdentifier {pd : PunyDecode} :
    Advances (parseUndisambiguatedIdentifier pd) :=
  advances_pflatMap
    (advances_pand (advances_pand (advances_popt advances_tag) advances_parseDecimalNumber)
      (advances_popt advances_tag))
    (fun _ => advances_pmapOpt advances_takeP)

theorem advances_parseIdentifier {pd : PunyDecode} : Advances (parseIdentifier pd) :=
  advances_pmap (advances_pand (advances_optU64 advances_parseDisambiguator)
    advances_parseUndisambiguatedIdentifier)

theorem advances_parseAbi {pd : PunyDecode} : Advances (parseAbi pd) :=
  advances_por (advances_pmap advances_tag)
    (advances_pmap advances_parseUndisambiguatedIdentifier)

theorem advGrammar_failGrammar : AdvGrammar failGrammar :=
  ⟨advances_pfail, advances_pfail, advances_pfail, advances_pfail, advances_pfail,
   advances_pfail, advances_pfail, advances_pfail, advances_pfail, advances_pfail⟩

theorem advGrammar_mkGrammar (pd : PunyDecode) (g : Grammar) (fuel : Nat)
    (hg : AdvGrammar g) : AdvGrammar (mkGrammar pd g fuel) := by
  obtain ⟨hpath, himpl, hgen, hty, hfn, hdynB, hdynT, hdynA, hconst, hcf⟩ := hg
  refine ⟨?_, ?_, ?_, ?_, ?_, ?_, ?_, ?_, ?_, ?_⟩
  · intro inp ctx out rest h
    exact advances_pinspectCtx (advances_por (advances_pmapRc (advances_por (advances_pmap (advances_preceded advances_tag advances_parseIdentifier)) (advances_por (advances_pmap (advances_preceded advances_tag (advances_pand himpl hty))) (advances_por (advances_pmap (advances_preceded advances_tag (advances_pand (advances_pand himpl hty) hpath))) (advances_por (advances_pmap (advances_preceded advances_tag (advances_pand hty hpath))) (advances_por (advances_pmap (advances_preceded advances_tag (advances_pand (advances_pand advances_takeP hpath) advances_parseIdentifier))) (advances_pmap (advances_delimited advances_tag (advances_pand hpath (advances_pmany0 hgen fuel)) advances_tag)))))))) (advances_pmapOptCtx advances_parseBackRef)) inp ctx out rest h
  · exact advances_pmap (advances_pand (advances_optU64 advances_parseDisambiguator) hpath)
  · exact advances_por (advances_pmap advances_parseLifetime)
      (advances_por (advances_pmap hty)
        (advances_pmap (advances_preceded advances_tag hconst)))
  · intro inp ctx out rest h
    exact advances_pinspectCtx (advances_por (advances_pmapRc (advances_por (advances_pmap advances_parseBasicType) (advances_por (advances_pmap hpath) (advances_por (advances_pmap (advances_preceded advances_tag (advances_pand hty hconst))) (advances_por (advances_pmap (advances_preceded advances_tag hty)) (advances_por (advances_pmap (advances_delimited advances_tag (advances_pmany0 hty fuel) advances_tag)) (advances_por (advances_pmap (advances_preceded advances_tag (advances_pand (advances_pmap (advances_popt advances_parseLifetime)) hty))) (advances_por (advances_pmap (advances_preceded advances_tag (advances_pand (advances_pmap (advances_popt advances_parseLifetime)) hty))) (advances_por (advances_pmap (advances_preceded advances_tag hty)) (advances_por (advances_pmap (advances_preceded advances_tag hty)) (advances_por (advances_pmap (advances_preceded advances_tag hfn)) (advances_pmap (advances_preceded advances_tag (advances_pand hdynB advances_parseLifetime)))))))))))))) (advances_pmapOptCtx advances_parseBackRef)) inp ctx out rest h
  · exact advances_pmap (advances_pand (advances_pand (advances_pand (advances_pand
      (advances_optU64 advances_parseBinder) (advances_pmap (advances_popt advances_tag)))
      (advances_popt (advances_preceded advances_tag advances_parseAbi)))
      (advances_terminated (advances_pmany0 hty fuel) advances_tag)) hty)
  · exact advances_pmap (advances_pand (advances_optU64 advances_parseBinder)
      (advances_terminated (advances_pmany0 hdynT fuel) advances_tag))
  · exact advances_pmap (advances_pand hpath (advances_pmany0 hdynA fuel))
  · exact advances_pmap (advances_preceded advances_tag
      (advances_pand advances_parseUndisambiguatedIdentifier hty))
  · intro inp ctx out rest h
    exact advances_pinspectCtx (advances_por (advances_pmapRc (advances_por (advances_pmap (advances_preceded advances_tag advances_parseConstInt)) (advances_por (advances_pmap (advances_preceded advances_tag advances_parseConstInt)) (advances_por (advances_pmap (advances_preceded advances_tag advances_parseConstInt)) (advances_por (advances_pmap (advances_preceded advances_tag advances_parseConstInt)) (advances_por (advances_pmap (advances_preceded advances_tag advances_parseConstInt)) (advances_por (advances_pmap (advances_preceded advances_tag advances_parseConstInt)) (advances_por (advances_pmap (advances_preceded advances_tag advances_parseConstInt)) (advances_por (advances_pmap (advances_preceded advances_tag advances_parseConstInt)) (advances_por (advances_pmap (advances_preceded advances_tag advances_parseConstInt)) (advances_por (advances_pmap (advances_preceded advances_tag advances_parseConstInt)) (advances_por (advances_pmap (advances_preceded advances_tag advances_parseConstInt)) (advances_por (advances_pmap (advances_preceded advances_tag advances_parseConstInt)) (advances_por (advances_preceded advances_tag (advances_pmapOpt advances_parseConstInt)) (advances_por (advances_preceded advances_tag (advances_pmapOpt advances_parseConstInt)) (advances_por (advances_pmap (advances_preceded advances_tag advances_parseConstStr)) (advances_por (advances_pmap (advances_preceded advances_tag hconst)) (advances_por (advances_pmap (advances_preceded advances_tag hconst)) (advances_por (advances_pmap (advances_delimited advances_tag (advances_pmany0 hconst fuel) advances_tag)) (advances_por (advances_pmap (advances_delimited advances_tag (advances_pmany0 hconst fuel) advances_tag)) (advances_por (advances_pmap (advances_preceded advances_tag (advances_pand hpath hcf))) (advances_pmap advances_tag)))))))))))))))))))))) (advances_pmapOptCtx advances_parseBackRef)) inp ctx out rest h
  · exact (advances_por (advances_pmap advances_tag) (advances_por (advances_pmap (advances_delimited advances_tag (advances_pmany0 hconst fuel) advances_tag)) (advances_pmap (advances_delimited advances_tag (advances_pmany0 (advances_pand advances_parseIdentifier hconst) fuel) advances_tag))))

theorem advGrammar_grammar (pd : PunyDecode) : ∀ fuel, AdvGrammar (grammar pd fuel)
  | 0 => advGrammar_failGrammar
  | fuel + 1 => advGrammar_mkGrammar pd (grammar pd fuel) fuel (advGrammar_grammar pd fuel)

theorem advances_parseSymbolInner (pd : PunyDecode) (fuel : Nat) :
    Advances (parseSymbolInner pd fuel) :=
  advances_pmap (advances_pand
    (advances_pand (advances_popt advances_parseDecimalNumber)
      (advGrammar_grammar pd fuel).1)
    (advances_popt (advGrammar_grammar pd fuel).1))

/-- shared helper: a successful `parseSymbol` returns a suffix that is a
`drop` of the input. -/
theorem parseSymbol_consumes (pd : PunyDecode) (input : List Char) (sym : Symbol)
    (suffix : List Char) (h : parseSymbol pd input = some (sym, suffix)) :
    ∃ k, k ≤ input.length ∧ suffix = input.drop k := by
  unfold parseSymbol at h
  rcases hres : parseSymbolInner pd (symbolFuel input) ⟨0, input⟩ Ctx.empty with ⟨o, c⟩
  rw [hres] at h
  rcases o with _ | ⟨v, r⟩
  · simp at h
  · simp at h
    obtain ⟨-, hsuf⟩ := h
    obtain ⟨k, hk, -, hdk⟩ :=
      advances_parseSymbolInner pd (symbolFuel input) ⟨0, input⟩ Ctx.empty v r (by rw [hres])
    exact ⟨k, hk, hsuf ▸ hdk⟩

/-- **C1.**  For every input on which `parse_symbol` succeeds returning
`(symbol, suffix)`, the suffix is the verbatim unconsumed tail: the input is
the consumed prefix followed by the suffix, and the suffix's length plus the
number of consumed characters equals the input's length. -/
theorem parse_symbol_suffix_exact (pd : PunyDecode) (input : List Char) (sym : Symbol)
    (suffix : List Char) (h : parseSymbol pd input = some (sym, suffix)) :
    ∃ k, k ≤ input.length ∧ suffix = input.drop k ∧
      input.take k ++ suffix = input ∧ suffix.length + k = input.length := by
  obtain ⟨k, hk, hsuf⟩ := parseSymbol_consumes pd input sym suffix h
  refine ⟨k, hk, hsuf, ?_, ?_⟩
  · rw [hsuf]
    exact List.take_append_drop k input
  · rw [hsuf]
    simp
    omega

/-- witness for C1 at the concrete input `C1a` (crate root `a`). -/
theorem parse_symbol_suffix_exact_witness :
    ∃ k, k ≤ (['C', '1', 'a'] : List Char).length ∧
      ([] : List Char) = List.drop k ['C', '1', 'a'] ∧
      List.take k ['C', '1', 'a'] ++ ([] : List Char) = ['C', '1', 'a'] ∧
      ([] : List Char).length + k = (['C', '1', 'a'] : List Char).length :=
  parse_symbol_suffix_exact pdId ['C', '1', 'a']
    ⟨none, RcPath.mk 0 (Path.crateRoot ⟨0, ['a']⟩), none⟩ [] rfl

/-- **C4, counterexample.**  `parse_symbol` succeeds on `C1aC1b` consuming
all 6 characters (suffix `[]`, the symbol having `C1b` as instantiating
crate), yet on the strict 5-character prefix `C1aC1` of those consumed
characters it does **not** fail: it succeeds again, parsing the root path
`C1a` and leaving `C1` unconsumed.  This refutes the claim that the parse of
every strict prefix of the consumed characters fails. -/
theorem truncated_prefix_may_succeed :
    (parseSymbol pdId ['C', '1', 'a', 'C', '1', 'b']).map (fun x => x.2) = some [] ∧
    List.take 5 ['C', '1', 'a', 'C', '1', 'b'] = ['C', '1', 'a', 'C', '1'] ∧
    (parseSymbol pdId ['C', '1', 'a', 'C', '1']).map (fun x => x.2) = some ['C', '1'] :=
  ⟨rfl, rfl, rfl⟩

/-- **C4, amended.**  Running `parse_symbol` on a strict prefix of the
consumed characters either fails or consumes strictly fewer characters than
the original parse did (the truncated run can never reproduce the root
symbol's full encoding); it need not fail, as optional trailing components
(instantiating crate, version digits) may simply be dropped. -/
theorem truncated_prefix_consumes_less (pd : PunyDecode) (input : List Char)
    (sym : Symbol) (suffix : List Char) (j : Nat)
    (_h : parseSymbol pd input = some (sym, suffix))
    (hj : j < input.length - suffix.length)
    (sym2 : Symbol) (suffix2 : List Char)
    (h2 : parseSymbol pd (input.take j) = some (sym2, suffix2)) :
    suffix2.length ≤ j ∧ j - suffix2.length < input.length - suffix.length := by
  obtain ⟨k2, hk2, hsuf2⟩ := parseSymbol_consumes pd (input.take j) sym2 suffix2 h2
  have hjlen : (input.take j).length = j := by
    simp
    omega
  have hlen2 : suffix2.length = j - k2 := by
    rw [hsuf2]
    simp
    omega
  omega

/-- witness for the amended C4: on `C1aC1b` (6 consumed) the truncated
prefix of length 5 parses again but consumes only 3 characters. -/
theorem truncated_prefix_consumes_less_witness :
    (['C', '1'] : List Char).length ≤ 5 ∧
      5 - (['C', '1'] : List Char).length <
        (['C', '1', 'a', 'C', '1', 'b'] : List Char).length - ([] : List Char).length :=
  truncated_prefix_consumes_less pdId ['C', '1', 'a', 'C', '1', 'b']
    ⟨none, RcPath.mk 0 (Path.crateRoot ⟨0, ['a']⟩), some (RcPath.mk 1 (Path.crateRoot ⟨0, ['b']⟩))⟩
    [] 5 rfl (by decide)
    ⟨none, RcPath.mk 0 (Path.crateRoot ⟨0, ['a']⟩), none⟩ ['C', '1'] rfl


/-! ## Decimal numbers (C9) -/

/-- `takeWhile` stops exactly at the boundary of an all-satisfying run. -/
theorem takeWhile_append_run {p : Char → Bool} :
    ∀ (ds rest : List Char), ds.all p = true →
      (∀ c, rest.head? = some c → p c = false) →
      (ds ++ rest).takeWhile p = ds := by
  intro ds
  induction ds with
  | nil =>
    intro rest _ h2
    cases rest with
    | nil => rfl
    | cons c cs => simp [List.takeWhile_cons, h2 c rfl]
  | cons d ds ih =>
    intro rest hall h2
    rw [List.all_cons, Bool.and_eq_true] at hall
    simp [List.takeWhile_cons, hall.1, ih rest hall.2 h2]

/-- the `"0"` branch: on input starting with `0` the decimal parser
consumes exactly that one character and returns 0 (`tag("0")` is tried
before `digit1`), whatever follows. -/
theorem parseDecimalNumber_zero_head (max i : Nat) (rest : List Char) (ctx : Ctx) :
    parseDecimalNumber max ⟨i, '0' :: rest⟩ ctx = (some (0, ⟨i + 1, rest⟩), ctx) := by
  simp [parseDecimalNumber, pmapOpt, por, tag, List.isPrefixOf, fromStrRadixDec,
    decVal, decDigitVal]

/-- the `digit1` branch: a maximal digit run not starting with `0` is
consumed in full and converted with `from_str_radix`. -/
theorem parseDecimalNumber_run {max i : Nat} {d : Char} {ds rest : List Char} (ctx : Ctx)
    (hd : d ≠ '0') (hall : (d :: ds).all isAsciiDigit = true)
    (hrest : ∀ c, rest.head? = some c → isAsciiDigit c = false) :
    parseDecimalNumber max ⟨i, d :: ds ++ rest⟩ ctx =
      ((fromStrRadixDec max (d :: ds)).elim (none, ctx)
        (fun v => (some (v, ⟨i + (d :: ds).length, rest⟩), ctx))) := by
  have hrun : ((d :: ds) ++ rest).takeWhile isAsciiDigit = d :: ds :=
    takeWhile_append_run (d :: ds) rest hall hrest
  have hdrop : ((d :: ds) ++ rest).drop (d :: ds).length = rest := by
    simp
  unfold parseDecimalNumber pmapOpt por tag digit1 takeWhileP
  simp only [List.isPrefixOf, List.cons.injEq]
  rw [if_neg (by simpa using fun hdd => hd hdd.symm)]
  simp only [hrun, hdrop, List.isEmpty_cons]
  cases hfsr : fromStrRadixDec max (d :: ds) with
  | none => simp [hfsr]
  | some v => simp [hfsr]

/-- **C9, counterexample.**  On the input `01` — a leading decimal digit run
that starts with `0` and has more than one digit — the decimal-number parser
does **not** fail: it succeeds, returning 0 and consuming only the single
`0`, with the `1` left unconsumed. -/
theorem decimal_leading_zero_does_not_fail :
    (parseDecimalNumber u64Max ⟨0, ['0', '1']⟩ Ctx.empty).1 = some (0, ⟨1, ['1']⟩) := by
  rw [parseDecimalNumber_zero_head]

/-- **C9, amended.**  The decimal-number production accepts either the
literal `0` or a digit run that does not start with `0`.  On an input whose
leading digit run starts with `0` and has further digits it does not fail
and does not consume the run: it succeeds consuming exactly the single `0`
(third conjunct shows the next character is still unconsumed).  A run not
starting with `0` is consumed in full and converted with checked
`from_str_radix`. -/
theorem decimal_number_leading_zero (max i : Nat) (rest : List Char) (ctx : Ctx) :
    parseDecimalNumber max ⟨i, '0' :: rest⟩ ctx = (some (0, ⟨i + 1, rest⟩), ctx) ∧
    (∀ (d : Char) (ds rest2 : List Char), d ≠ '0' →
      (d :: ds).all isAsciiDigit = true →
      (∀ c, rest2.head? = some c → isAsciiDigit c = false) →
      parseDecimalNumber max ⟨i, d :: ds ++ rest2⟩ ctx =
        ((fromStrRadixDec max (d :: ds)).elim (none, ctx)
          (fun v => (some (v, ⟨i + (d :: ds).length, rest2⟩), ctx)))) := by
  refine ⟨parseDecimalNumber_zero_head max i rest ctx, ?_⟩
  intro d ds rest2 hd hall hrest
  exact parseDecimalNumber_run ctx hd hall hrest

/-- witness for the amended C9: `01` yields 0 leaving `1`; `17` yields 17. -/
theorem decimal_number_leading_zero_witness :
    parseDecimalNumber u64Max ⟨0, ['0', '1']⟩ Ctx.empty = (some (0, ⟨1, ['1']⟩), Ctx.empty) ∧
    parseDecimalNumber u64Max ⟨0, ['1', '7']⟩ Ctx.empty = (some (17, ⟨2, []⟩), Ctx.empty) := by
  have h := decimal_number_leading_zero u64Max 0 ['1'] Ctx.empty
  refine ⟨h.1, ?_⟩
  have h2 := h.2 '1' ['7'] [] (by decide) (by decide) (fun c hc => by simp at hc)
  simp only [List.append_nil] at h2
  rw [h2]
  rfl


/-! ## Evaluation lemmas for the parser atoms -/

theorem tag1_cons_pos (c : Char) (i : Nat) (rest : List Char) (ctx : Ctx) :
    tag [c] ⟨i, c :: rest⟩ ctx = (some ([c], ⟨i + 1, rest⟩), ctx) := by
  simp [tag, List.isPrefixOf]

theorem tag1_cons_neg {c d : Char} (h : c ≠ d) (i : Nat) (rest : List Char) (ctx : Ctx) :
    tag [c] ⟨i, d :: rest⟩ ctx = (none, ctx) := by
  simp [tag, List.isPrefixOf, h]

theorem tag1_nil (c : Char) (i : Nat) (ctx : Ctx) :
    tag [c] ⟨i, []⟩ ctx = (none, ctx) := by
  simp [tag, List.isPrefixOf]

theorem base62ValFrom_cons (acc : Nat) (c : Char) (cs : List Char) :
    base62ValFrom acc (c :: cs) = base62ValFrom (acc * 62 + base62DigitVal c) cs := rfl

theorem le_base62ValFrom : ∀ (ds : List Char) (acc : Nat), acc ≤ base62ValFrom acc ds := by
  intro ds
  induction ds with
  | nil => intro acc; exact Nat.le_refl acc
  | cons c cs ih =>
    intro acc
    rw [base62ValFrom_cons]
    have h1 : acc ≤ acc * 62 + base62DigitVal c := by
      have h2 : acc * 1 ≤ acc * 62 := Nat.mul_le_mul_left acc (by norm_num)
      omega
    exact Nat.le_trans h1 (ih (acc * 62 + base62DigitVal c))

/-- the checked loop fails exactly when the unchecked value overflows `u64`
(the accumulator grows monotonically, so intermediate overflow is the same
as final overflow). -/
theorem base62Loop_spec : ∀ (ds : List Char) (acc : Nat), acc ≤ u64Max →
    base62Loop ds acc =
      if base62ValFrom acc ds ≤ u64Max then some (base62ValFrom acc ds) else none := by
  intro ds
  induction ds with
  | nil =>
    intro acc h
    simp [base62Loop, base62ValFrom, h]
  | cons c cs ih =>
    intro acc h
    have hmono := le_base62ValFrom cs (acc * 62 + base62DigitVal c)
    rw [base62ValFrom_cons]
    unfold base62Loop checkedMul checkedAdd
    by_cases h1 : acc * 62 ≤ u64Max
    · rw [if_pos h1]
      simp only
      by_cases h2 : acc * 62 + base62DigitVal c ≤ u64Max
      · rw [if_pos h2]
        simp only
        exact ih (acc * 62 + base62DigitVal c) h2
      · rw [if_neg h2]
        simp only
        rw [if_neg (by omega)]
    · rw [if_neg h1]
      simp only
      rw [if_neg (by omega)]

/-- evaluation of `terminated(alphanumeric0, tag("_"))` on a run followed by
the terminator. -/
theorem terminated_alnum_underscore (i : Nat) (ds rest : List Char) (ctx : Ctx)
    (hall : ds.all isAsciiAlphanumeric = true) :
    terminated alphanumeric0 (tag ['_']) ⟨i, ds ++ '_' :: rest⟩ ctx =
      (some (ds, ⟨i + ds.length + 1, rest⟩), ctx) := by
  have hrun : (ds ++ '_' :: rest).takeWhile isAsciiAlphanumeric = ds :=
    takeWhile_append_run ds ('_' :: rest) hall
      (fun c hc => by
        simp at hc
        rw [← hc]
        decide)
  unfold terminated pmap pand alphanumeric0 takeWhileP
  simp only [hrun]
  have hdrop : (ds ++ '_' :: rest).drop ds.length = '_' :: rest := by simp
  simp only [hdrop, tag1_cons_pos]

/-- full characterization of `parse_base62_number` on a digit run followed
by the `_` terminator. -/
theorem parseBase62Number_spec (i : Nat) (ds rest : List Char) (ctx : Ctx)
    (hall : ds.all isAsciiAlphanumeric = true) :
    parseBase62Number ⟨i, ds ++ '_' :: rest⟩ ctx =
      (if ds.isEmpty then some (0, ⟨i + ds.length + 1, rest⟩)
       else if base62Val ds + 1 ≤ u64Max then
         some (base62Val ds + 1, ⟨i + ds.length + 1, rest⟩)
       else none, ctx) := by
  unfold parseBase62Number pmapOpt
  rw [terminated_alnum_underscore i ds rest ctx hall]
  by_cases he : ds.isEmpty
  · simp [he]
  · rw [if_neg he]
    simp only [he, Bool.false_eq_true, if_false]
    rw [base62Loop_spec ds 0 (by unfold u64Max; omega)]
    by_cases hov : base62Val ds + 1 ≤ u64Max
    · rw [if_pos hov]
      unfold base62Val at hov
      have hle : base62ValFrom 0 ds ≤ u64Max := by omega
      simp [base62Val, hle, checkedAdd, hov]
    · rw [if_neg hov]
      unfold base62Val at hov
      by_cases hle : base62ValFrom 0 ds ≤ u64Max
      · simp [hle, checkedAdd, hov]
      · simp [hle]


/-- **C2.**  `parse_base62_number` consumes an alphanumeric run terminated
by `_`.  First conjunct: full characterization — an empty run decodes to 0,
a non-empty run to its base-62 value plus one, and the parse fails exactly
when the accumulation or the final +1 overflows `u64`.  Second conjunct: the
digit values at the range boundaries (`0-9 → 0-9`, `a-z → 10-35`,
`A-Z → 36-61`).  Third conjunct: `lYGhA16ahyg` encodes `2^64`, and a run
with that value fails. -/
theorem base62_number_characterization :
    (∀ (i : Nat) (ds rest : List Char) (ctx : Ctx), ds.all isAsciiAlphanumeric = true →
      parseBase62Number ⟨i, ds ++ '_' :: rest⟩ ctx =
        (if ds.isEmpty then some (0, ⟨i + ds.length + 1, rest⟩)
         else if base62Val ds + 1 ≤ u64Max then
           some (base62Val ds + 1, ⟨i + ds.length + 1, rest⟩)
         else none, ctx)) ∧
    (base62DigitVal '0' = 0 ∧ base62DigitVal '9' = 9 ∧ base62DigitVal 'a' = 10 ∧
     base62DigitVal 'z' = 35 ∧ base62DigitVal 'A' = 36 ∧ base62DigitVal 'Z' = 61) ∧
    (base62Val "lYGhA16ahyg".toList = 2 ^ 64 ∧
     ∀ (i : Nat) (rest : List Char) (ctx : Ctx),
       parseBase62Number ⟨i, "lYGhA16ahyg".toList ++ '_' :: rest⟩ ctx = (none, ctx)) := by
  refine ⟨parseBase62Number_spec, by decide, by decide, ?_⟩
  intro i rest ctx
  rw [parseBase62Number_spec i "lYGhA16ahyg".toList rest ctx (by decide)]
  rw [if_neg (by decide), if_neg (by decide)]

/-- witness for C2: the single digit `z` decodes to 35 + 1 = 36. -/
theorem base62_number_characterization_witness :
    parseBase62Number ⟨0, ['z', '_', 'x']⟩ Ctx.empty =
      (some (36, ⟨2, ['x']⟩), Ctx.empty) := by
  have h := base62_number_characterization.1 0 ['z'] ['x'] Ctx.empty (by decide)
  simpa using h

/-- **C6.**  The opt-u64 convention.  First two conjuncts: for any
underlying parser, absence stores 0 (without consuming), presence stores the
decoded value plus one under a checked add that fails the parse on overflow.
Remaining conjuncts instantiate this for the disambiguator production: a
missing `s` disambiguator stores 0, the disambiguator `s_` (payload decodes
to 0) stores 1, and a present disambiguator whose stored `u64` is
`2^64 - 1` makes the checked `+1` overflow and the parse fail. -/
theorem opt_u64_convention :
    (∀ (p : P Nat) (inp : IndexedStr) (ctx c2 : Ctx), p inp ctx = (none, c2) →
      optU64 p inp ctx = (some (0, inp), c2)) ∧
    (∀ (p : P Nat) (inp : IndexedStr) (ctx c2 : Ctx) (n : Nat) (rest : IndexedStr),
      p inp ctx = (some (n, rest), c2) →
      optU64 p inp ctx =
        (if n + 1 ≤ u64Max then (some (n + 1, rest), c2) else (none, c2))) ∧
    (∀ (i : Nat) (c : Char) (rest : List Char) (ctx : Ctx), c ≠ 's' →
      optU64 parseDisambiguator ⟨i, c :: rest⟩ ctx = (some (0, ⟨i, c :: rest⟩), ctx)) ∧
    (∀ (i : Nat) (rest : List Char) (ctx : Ctx),
      optU64 parseDisambiguator ⟨i, 's' :: '_' :: rest⟩ ctx =
        (some (1, ⟨i + 2, rest⟩), ctx)) ∧
    (∀ (i : Nat) (rest : List Char) (ctx : Ctx),
      optU64 parseDisambiguator ⟨i, 's' :: ("lYGhA16ahye".toList ++ '_' :: rest)⟩ ctx =
        (none, ctx)) := by
  have habsent : ∀ (p : P Nat) (inp : IndexedStr) (ctx c2 : Ctx), p inp ctx = (none, c2) →
      optU64 p inp ctx = (some (0, inp), c2) := by
    intro p inp ctx c2 h
    unfold optU64 pmapOpt popt
    rw [h]
  have hpresent : ∀ (p : P Nat) (inp : IndexedStr) (ctx c2 : Ctx) (n : Nat) (rest : IndexedStr),
      p inp ctx = (some (n, rest), c2) →
      optU64 p inp ctx =
        (if n + 1 ≤ u64Max then (some (n + 1, rest), c2) else (none, c2)) := by
    intro p inp ctx c2 n rest h
    unfold optU64 pmapOpt popt
    rw [h]
    simp only [checkedAdd]
    by_cases hle : n + 1 ≤ u64Max
    · simp [hle]
    · simp [hle]
  refine ⟨habsent, hpresent, ?_, ?_, ?_⟩
  · intro i c rest ctx hc
    refine habsent parseDisambiguator ⟨i, c :: rest⟩ ctx ctx ?_
    unfold parseDisambiguator preceded pmap pand
    rw [tag1_cons_neg (fun h => hc h.symm) i rest ctx]
  · intro i rest ctx
    have hdis : parseDisambiguator ⟨i, 's' :: '_' :: rest⟩ ctx =
        (some (0, ⟨i + 2, rest⟩), ctx) := by
      unfold parseDisambiguator preceded pmap pand
      rw [tag1_cons_pos 's' i ('_' :: rest) ctx]
      simp only
      have h62 := parseBase62Number_spec (i + 1) [] rest ctx (by decide)
      simp at h62
      rw [h62]
    rw [hpresent parseDisambiguator ⟨i, 's' :: '_' :: rest⟩ ctx ctx 0 ⟨i + 2, rest⟩ hdis]
    rw [if_pos (by norm_num [u64Max])]
  · intro i rest ctx
    have hdis : parseDisambiguator ⟨i, 's' :: ("lYGhA16ahye".toList ++ '_' :: rest)⟩ ctx =
        (some (u64Max, ⟨i + 1 + "lYGhA16ahye".toList.length + 1, rest⟩), ctx) := by
      unfold parseDisambiguator preceded pmap pand
      rw [tag1_cons_pos 's' i ("lYGhA16ahye".toList ++ '_' :: rest) ctx]
      simp only
      rw [parseBase62Number_spec (i + 1) "lYGhA16ahye".toList rest ctx (by decide)]
      rw [if_neg (by decide), if_pos (by decide)]
      have hv : base62Val "lYGhA16ahye".toList + 1 = u64Max := by decide
      rw [hv]
    rw [hpresent parseDisambiguator _ ctx ctx u64Max _ hdis]
    rw [if_neg (by norm_num [u64Max])]

/-- witness for C6 at concrete inputs: absent disambiguator before `C`,
present `s_`. -/
theorem opt_u64_convention_witness :
    optU64 parseDisambiguator ⟨0, ['C', 'x']⟩ Ctx.empty =
      (some (0, ⟨0, ['C', 'x']⟩), Ctx.empty) ∧
    optU64 parseDisambiguator ⟨0, ['s', '_', 'x']⟩ Ctx.empty =
      (some (1, ⟨2, ['x']⟩), Ctx.empty) :=
  ⟨opt_u64_convention.2.2.1 0 'C' ['x'] Ctx.empty (by decide),
   opt_u64_convention.2.2.2.1 0 ['x'] Ctx.empty⟩


/-! ## Failure propagation and first-byte discipline

Every alternative of `parse_path`, `parse_type`, `parse_const` is keyed on a
single leading tag byte; a head byte outside a production's tag set makes it
fail without touching the context.  These lemmas compute such failures. -/

theorem pmap_none {α β : Type} {p : P α} {f : α → β} {inp : IndexedStr} {ctx c2 : Ctx}
    (h : p inp ctx = (none, c2)) : pmap p f inp ctx = (none, c2) := by
  unfold pmap
  rw [h]

theorem pmapOpt_none {α β : Type} {p : P α} {f : α → Option β} {inp : IndexedStr}
    {ctx c2 : Ctx} (h : p inp ctx = (none, c2)) : pmapOpt p f inp ctx = (none, c2) := by
  unfold pmapOpt
  rw [h]

theorem pmapOptCtx_none {α β : Type} {p : P α} {f : α → Ctx → Option β} {inp : IndexedStr}
    {ctx c2 : Ctx} (h : p inp ctx = (none, c2)) : pmapOptCtx p f inp ctx = (none, c2) := by
  unfold pmapOptCtx
  rw [h]

theorem pmapRc_none {α β : Type} {mk : Nat → α → β} {p : P α} {inp : IndexedStr}
    {ctx c2 : Ctx} (h : p inp ctx = (none, c2)) : pmapRc mk p inp ctx = (none, c2) := by
  unfold pmapRc
  rw [h]

theorem pinspectCtx_none {α : Type} {p : P α} {f : α → Ctx → Ctx} {inp : IndexedStr}
    {ctx c2 : Ctx} (h : p inp ctx = (none, c2)) : pinspectCtx p f inp ctx = (none, c2) := by
  unfold pinspectCtx
  rw [h]

theorem pand_none_left {α β : Type} {p : P α} {q : P β} {inp : IndexedStr} {ctx c2 : Ctx}
    (h : p inp ctx = (none, c2)) : pand p q inp ctx = (none, c2) := by
  unfold pand
  rw [h]

theorem preceded_none_left {α β : Type} {p : P α} {q : P β} {inp : IndexedStr}
    {ctx c2 : Ctx} (h : p inp ctx = (none, c2)) : preceded p q inp ctx = (none, c2) :=
  pmap_none (pand_none_left h)

theorem delimited_none_left {α β γ : Type} {p : P α} {q : P β} {r : P γ}
    {inp : IndexedStr} {ctx c2 : Ctx} (h : p inp ctx = (none, c2)) :
    delimited p q r inp ctx = (none, c2) :=
  preceded_none_left h

theorem por_none {α : Type} {p q : P α} {inp : IndexedStr} {ctx c2 : Ctx}
    (h : p inp ctx = (none, c2)) : por p q inp ctx = q inp c2 := by
  unfold por
  rw [h]

theorem tag1_fail {c : Char} {l : List Char} (h : l.head? ≠ some c) (i : Nat) (ctx : Ctx) :
    tag [c] ⟨i, l⟩ ctx = (none, ctx) := by
  cases l with
  | nil => exact tag1_nil c i ctx
  | cons d tl =>
    refine tag1_cons_neg (fun hc => h ?_) i tl ctx
    rw [hc]
    rfl

theorem headNotIn_mono {bad bad2 l : List Char} (hsub : ∀ c, c ∈ bad2 → c ∈ bad)
    (h : HeadNotIn bad l) : HeadNotIn bad2 l :=
  fun c hc hmem => h c hc (hsub c hmem)

theorem headNotIn_tag1_fail {bad : List Char} (c : Char) {l : List Char}
    (hmem : c ∈ bad) (h : HeadNotIn bad l) (i : Nat) (ctx : Ctx) :
    tag [c] ⟨i, l⟩ ctx = (none, ctx) := by
  refine tag1_fail (fun hc => ?_) i ctx
  exact h c hc hmem

theorem basicTypeOfChar_eq_none {c : Char} (h : c ∉ basicChars) :
    basicTypeOfChar c = none := by
  unfold basicTypeOfChar
  repeat rw [if_neg (fun hc => h (by rw [hc]; decide))]

theorem parseBasicType_fail {l : List Char} (h : ∀ c, l.head? = some c → basicTypeOfChar c = none)
    (i : Nat) (ctx : Ctx) : parseBasicType ⟨i, l⟩ ctx = (none, ctx) := by
  cases l with
  | nil =>
    unfold parseBasicType pmapOpt takeP
    simp
  | cons d tl =>
    unfold parseBasicType pmapOpt takeP
    rw [if_pos (by simp)]
    simp [h d rfl]

theorem parseLifetime_fail {l : List Char} (h : l.head? ≠ some 'L') (i : Nat) (ctx : Ctx) :
    parseLifetime ⟨i, l⟩ ctx = (none, ctx) :=
  preceded_none_left (tag1_fail h i ctx)

/-- `parse_path` rejects any head byte outside its tag set, leaving the
context untouched. -/
theorem path_clean_fail (pd : PunyDecode) : ∀ (fuel : Nat) (i : Nat) (l : List Char)
    (ctx : Ctx), HeadNotIn pathHeads l → (grammar pd fuel).path ⟨i, l⟩ ctx = (none, ctx) := by
  intro fuel i l ctx h
  cases fuel with
  | zero => rfl
  | succ fuel =>
    show pinspectCtx _ _ _ _ = _
    refine pinspectCtx_none ?_
    refine Eq.trans (por_none (pmapRc_none ?_)) (pmapOptCtx_none (preceded_none_left
      (headNotIn_tag1_fail 'B' (by decide) h i ctx)))
    refine Eq.trans (por_none (pmap_none (preceded_none_left
      (headNotIn_tag1_fail 'C' (by decide) h i ctx)))) ?_
    refine Eq.trans (por_none (pmap_none (preceded_none_left
      (headNotIn_tag1_fail 'M' (by decide) h i ctx)))) ?_
    refine Eq.trans (por_none (pmap_none (preceded_none_left
      (headNotIn_tag1_fail 'X' (by decide) h i ctx)))) ?_
    refine Eq.trans (por_none (pmap_none (preceded_none_left
      (headNotIn_tag1_fail 'Y' (by decide) h i ctx)))) ?_
    refine Eq.trans (por_none (pmap_none (preceded_none_left
      (headNotIn_tag1_fail 'N' (by decide) h i ctx)))) ?_
    exact pmap_none (preceded_none_left (headNotIn_tag1_fail 'I' (by decide) h i ctx))


theorem pathHeads_sub_tyHeads : ∀ c, c ∈ pathHeads → c ∈ tyHeads := by
  intro c hc
  unfold tyHeads
  exact List.mem_append_left _ (List.mem_append_right _ hc)

theorem mem_basicChars_tyHeads : ∀ c, c ∈ basicChars → c ∈ tyHeads := by
  intro c hc
  unfold tyHeads
  exact List.mem_append_left _ (List.mem_append_left _ hc)

/-- `parse_type` rejects any head byte outside its tag set, leaving the
context untouched. -/
theorem ty_clean_fail (pd : PunyDecode) : ∀ (fuel : Nat) (i : Nat) (l : List Char)
    (ctx : Ctx), HeadNotIn tyHeads l → (grammar pd fuel).ty ⟨i, l⟩ ctx = (none, ctx) := by
  intro fuel i l ctx h
  cases fuel with
  | zero => rfl
  | succ fuel =>
    show pinspectCtx _ _ _ _ = _
    refine pinspectCtx_none ?_
    refine Eq.trans (por_none (pmapRc_none ?_)) (pmapOptCtx_none (preceded_none_left
      (tag1_fail (fun hc => h 'B' hc (by decide)) i ctx)))
    refine Eq.trans (por_none (pmap_none (parseBasicType_fail (fun c hc => basicTypeOfChar_eq_none (fun hmem => h c hc (mem_basicChars_tyHeads c hmem))) i ctx))) ?_
    refine Eq.trans (por_none (pmap_none (path_clean_fail pd fuel i l ctx (headNotIn_mono pathHeads_sub_tyHeads h)))) ?_
    refine Eq.trans (por_none (pmap_none (preceded_none_left (headNotIn_tag1_fail 'A' (by decide) h i ctx)))) ?_
    refine Eq.trans (por_none (pmap_none (preceded_none_left (headNotIn_tag1_fail 'S' (by decide) h i ctx)))) ?_
    refine Eq.trans (por_none (pmap_none (preceded_none_left (headNotIn_tag1_fail 'T' (by decide) h i ctx)))) ?_
    refine Eq.trans (por_none (pmap_none (preceded_none_left (headNotIn_tag1_fail 'R' (by decide) h i ctx)))) ?_
    refine Eq.trans (por_none (pmap_none (preceded_none_left (headNotIn_tag1_fail 'Q' (by decide) h i ctx)))) ?_
    refine Eq.trans (por_none (pmap_none (preceded_none_left (headNotIn_tag1_fail 'P' (by decide) h i ctx)))) ?_
    refine Eq.trans (por_none (pmap_none (preceded_none_left (headNotIn_tag1_fail 'O' (by decide) h i ctx)))) ?_
    refine Eq.trans (por_none (pmap_none (preceded_none_left (headNotIn_tag1_fail 'F' (by decide) h i ctx)))) ?_
    exact (pmap_none (preceded_none_left (headNotIn_tag1_fail 'D' (by decide) h i ctx)))

/-- `parse_const` rejects any head byte outside its tag set, leaving the
context untouched. -/
theorem const_clean_fail (pd : PunyDecode) : ∀ (fuel : Nat) (i : Nat) (l : List Char)
    (ctx : Ctx), HeadNotIn constHeads l → (grammar pd fuel).const ⟨i, l⟩ ctx = (none, ctx) := by
  intro fuel i l ctx h
  cases fuel with
  | zero => rfl
  | succ fuel =>
    show pinspectCtx _ _ _ _ = _
    refine pinspectCtx_none ?_
    refine Eq.trans (por_none (pmapRc_none ?_)) (pmapOptCtx_none (preceded_none_left
      (tag1_fail (fun hc => h 'B' hc (by decide)) i ctx)))
    refine Eq.trans (por_none (pmap_none (preceded_none_left (headNotIn_tag1_fail 'a' (by decide) h i ctx)))) ?_
    refine Eq.trans (por_none (pmap_none (preceded_none_left (headNotIn_tag1_fail 'h' (by decide) h i ctx)))) ?_
    refine Eq.trans (por_none (pmap_none (preceded_none_left (headNotIn_tag1_fail 'i' (by decide) h i ctx)))) ?_
    refine Eq.trans (por_none (pmap_none (preceded_none_left (headNotIn_tag1_fail 'j' (by decide) h i ctx)))) ?_
    refine Eq.trans (por_none (pmap_none (preceded_none_left (headNotIn_tag1_fail 'l' (by decide) h i ctx)))) ?_
    refine Eq.trans (por_none (pmap_none (preceded_none_left (headNotIn_tag1_fail 'm' (by decide) h i ctx)))) ?_
    refine Eq.trans (por_none (pmap_none (preceded_none_left (headNotIn_tag1_fail 'n' (by decide) h i ctx)))) ?_
    refine Eq.trans (por_none (pmap_none (preceded_none_left (headNotIn_tag1_fail 'o' (by decide) h i ctx)))) ?_
    refine Eq.trans (por_none (pmap_none (preceded_none_left (headNotIn_tag1_fail 's' (by decide) h i ctx)))) ?_
    refine Eq.trans (por_none (pmap_none (preceded_none_left (headNotIn_tag1_fail 't' (by decide) h i ctx)))) ?_
    refine Eq.trans (por_none (pmap_none (preceded_none_left (headNotIn_tag1_fail 'x' (by decide) h i ctx)))) ?_
    refine Eq.trans (por_none (pmap_none (preceded_none_left (headNotIn_tag1_fail 'y' (by decide) h i ctx)))) ?_
    refine Eq.trans (por_none (preceded_none_left (headNotIn_tag1_fail 'b' (by decide) h i ctx))) ?_
    refine Eq.trans (por_none (preceded_none_left (headNotIn_tag1_fail 'c' (by decide) h i ctx))) ?_
    refine Eq.trans (por_none (pmap_none (preceded_none_left (headNotIn_tag1_fail 'e' (by decide) h i ctx)))) ?_
    refine Eq.trans (por_none (pmap_none (preceded_none_left (headNotIn_tag1_fail 'R' (by decide) h i ctx)))) ?_
    refine Eq.trans (por_none (pmap_none (preceded_none_left (headNotIn_tag1_fail 'Q' (by decide) h i ctx)))) ?_
    refine Eq.trans (por_none (pmap_none (preceded_none_left (headNotIn_tag1_fail 'A' (by decide) h i ctx)))) ?_
    refine Eq.trans (por_none (pmap_none (preceded_none_left (headNotIn_tag1_fail 'T' (by decide) h i ctx)))) ?_
    refine Eq.trans (por_none (pmap_none (preceded_none_left (headNotIn_tag1_fail 'V' (by decide) h i ctx)))) ?_
    exact pmap_none (headNotIn_tag1_fail 'p' (by decide) h i ctx)


theorem path_unfold (pd : PunyDecode) (fuel : Nat) :
    (grammar pd (fuel + 1)).path = fun inp ctx =>
      pinspectCtx (por (pmapRc RcPath.mk (pathAlt pd (grammar pd fuel) fuel)) pathBackRef)
        (fun v c => c.insertPath inp.index v) inp ctx := rfl

theorem ty_unfold (pd : PunyDecode) (fuel : Nat) :
    (grammar pd (fuel + 1)).ty = fun inp ctx =>
      pinspectCtx (por (pmapRc RcType.mk (tyAlt pd (grammar pd fuel) fuel)) tyBackRef)
        (fun v c => c.insertType inp.index v) inp ctx := rfl

theorem const_unfold (pd : PunyDecode) (fuel : Nat) :
    (grammar pd (fuel + 1)).const = fun inp ctx =>
      pinspectCtx (por (pmapRc RcConst.mk (constAlt pd (grammar pd fuel) fuel)) constBackRef)
        (fun v c => c.insertConst inp.index v) inp ctx := rfl


/-- consuming a single-character tag steps `preceded` to the suffix. -/
theorem preceded_tag1_step {α : Type} (q : P α) (c : Char) (i : Nat) (rest : List Char)
    (ctx : Ctx) : preceded (tag [c]) q ⟨i, c :: rest⟩ ctx = q ⟨i + 1, rest⟩ ctx := by
  unfold preceded pmap pand
  rw [tag1_cons_pos]
  simp only
  rcases hq : q ⟨i + 1, rest⟩ ctx with ⟨o, c2⟩
  rcases o with _ | ⟨v, r⟩ <;> simp

theorem pmap_ext {α β : Type} {p q : P α} {f : α → β} {inp inp2 : IndexedStr}
    {ctx ctx2 : Ctx} (h : p inp ctx = q inp2 ctx2) :
    pmap p f inp ctx = pmap q f inp2 ctx2 := by
  unfold pmap
  rw [h]

/-- **C8.**  First conjunct: on every input beginning with `K`, `parse_type`
fails (no basic-type byte, no path alternative, no structural tag and no
back-reference accepts `K`), leaving the context untouched.  Second
conjunct: consequently `parse_generic_arg` — whose alternatives are tried in
the order lifetime, type, const — reduces on a `K`-headed input to the const
branch, parsing `K` followed by a const as `GenericArg::Const`. -/
theorem generic_arg_K_reaches_const :
    (∀ (pd : PunyDecode) (fuel i : Nat) (rest : List Char) (ctx : Ctx),
      (grammar pd fuel).ty ⟨i, 'K' :: rest⟩ ctx = (none, ctx)) ∧
    (∀ (pd : PunyDecode) (fuel i : Nat) (rest : List Char) (ctx : Ctx),
      (grammar pd (fuel + 1)).genericArg ⟨i, 'K' :: rest⟩ ctx =
        pmap ((grammar pd fuel).const) GenericArg.const ⟨i + 1, rest⟩ ctx) := by
  have hty : ∀ (pd : PunyDecode) (fuel i : Nat) (rest : List Char) (ctx : Ctx),
      (grammar pd fuel).ty ⟨i, 'K' :: rest⟩ ctx = (none, ctx) := by
    intro pd fuel i rest ctx
    refine ty_clean_fail pd fuel i ('K' :: rest) ctx ?_
    intro c hc
    injection hc with hc2
    rw [← hc2]
    decide
  refine ⟨hty, ?_⟩
  intro pd fuel i rest ctx
  rw [show (grammar pd (fuel + 1)).genericArg =
    por (pmap parseLifetime GenericArg.lifetime)
      (por (pmap ((grammar pd fuel).ty) GenericArg.ty)
        (pmap (preceded (tag ['K']) ((grammar pd fuel).const)) GenericArg.const)) from rfl]
  rw [por_none (pmap_none (parseLifetime_fail (show ('K' :: rest).head? ≠ some 'L' by simp) i ctx))]
  rw [por_none (pmap_none (hty pd fuel i rest ctx))]
  exact pmap_ext (preceded_tag1_step ((grammar pd fuel).const) 'K' i rest ctx)

/-- evaluation of the shared `R`/`Q` body when the optional lifetime is
absent: the lifetime component is `Option::unwrap_or_default() = 0`. -/
theorem ref_body_eval {f : Nat × RcType → Ty} (q : P RcType) (c : Char) (i : Nat)
    (rest : List Char) (ctx : Ctx) (h : rest.head? ≠ some 'L') :
    pmap (preceded (tag [c])
        (pand (pmap (popt parseLifetime) (fun o => o.getD 0)) q)) f ⟨i, c :: rest⟩ ctx =
      (match q ⟨i + 1, rest⟩ ctx with
       | (some (t, r2), c2) => (some (f (0, t), r2), c2)
       | (none, c2) => (none, c2)) := by
  refine Eq.trans (pmap_ext (preceded_tag1_step _ c i rest ctx)) ?_
  show pmap (pand (pmap (popt parseLifetime) (fun o => o.getD 0)) q) f ⟨i + 1, rest⟩ ctx = _
  unfold pmap pand popt
  simp only
  rw [parseLifetime_fail h]
  simp only [Option.getD]
  rcases hq : q ⟨i + 1, rest⟩ ctx with ⟨o, c2⟩
  rcases o with _ | ⟨v, r⟩ <;> simp

/-! ## C7: evaluation of `parse_type` on `R`/`Q` heads -/

/-- on an `R`-headed input with no following `L`, the alternative chain of
`parse_type` reduces to the Ref branch with lifetime 0. -/
theorem tyAlt_R_eval (pd : PunyDecode) (g : Grammar) (fuel i : Nat) (rest : List Char)
    (ctx : Ctx) (h : rest.head? ≠ some 'L')
    (hpathfail : ∀ cv : Ctx, g.path ⟨i, 'R' :: rest⟩ cv = (none, cv)) :
    tyAlt pd g fuel ⟨i, 'R' :: rest⟩ ctx =
      (match g.ty ⟨i + 1, rest⟩ ctx with
       | (some (t, r2), c2) => (some (Ty.ref 0 t, r2), c2)
       | (none, c2) => (none, c2)) := by
  unfold tyAlt
  rw [por_none (pmap_none (parseBasicType_fail (fun c hc => by
    injection hc with hc2
    rw [← hc2]
    decide) i ctx))]
  rw [por_none (pmap_none (hpathfail ctx))]
  rw [por_none (pmap_none (preceded_none_left (tag1_cons_neg (by decide) i rest ctx)))]
  rw [por_none (pmap_none (preceded_none_left (tag1_cons_neg (by decide) i rest ctx)))]
  rw [por_none (pmap_none (delimited_none_left (tag1_cons_neg (by decide) i rest ctx)))]
  unfold por
  rw [ref_body_eval g.ty 'R' i rest ctx h]
  rcases hq : g.ty ⟨i + 1, rest⟩ ctx with ⟨o, c2⟩
  rcases o with _ | ⟨t, r2⟩
  · simp only
    rw [pmap_none (preceded_none_left (tag1_cons_neg (by decide) i rest c2))]
    simp only
    rw [pmap_none (preceded_none_left (tag1_cons_neg (by decide) i rest c2))]
    simp only
    rw [pmap_none (preceded_none_left (tag1_cons_neg (by decide) i rest c2))]
    simp only
    rw [pmap_none (preceded_none_left (tag1_cons_neg (by decide) i rest c2))]
    simp only
    rw [pmap_none (preceded_none_left (tag1_cons_neg (by decide) i rest c2))]
  · simp only

/-- on a `Q`-headed input with no following `L`, the alternative chain of
`parse_type` reduces to the RefMut branch with lifetime 0. -/
theorem tyAlt_Q_eval (pd : PunyDecode) (g : Grammar) (fuel i : Nat) (rest : List Char)
    (ctx : Ctx) (h : rest.head? ≠ some 'L')
    (hpathfail : ∀ cv : Ctx, g.path ⟨i, 'Q' :: rest⟩ cv = (none, cv)) :
    tyAlt pd g fuel ⟨i, 'Q' :: rest⟩ ctx =
      (match g.ty ⟨i + 1, rest⟩ ctx with
       | (some (t, r2), c2) => (some (Ty.refMut 0 t, r2), c2)
       | (none, c2) => (none, c2)) := by
  unfold tyAlt
  rw [por_none (pmap_none (parseBasicType_fail (fun c hc => by
    injection hc with hc2
    rw [← hc2]
    decide) i ctx))]
  rw [por_none (pmap_none (hpathfail ctx))]
  rw [por_none (pmap_none (preceded_none_left (tag1_cons_neg (by decide) i rest ctx)))]
  rw [por_none (pmap_none (preceded_none_left (tag1_cons_neg (by decide) i rest ctx)))]
  rw [por_none (pmap_none (delimited_none_left (tag1_cons_neg (by decide) i rest ctx)))]
  rw [por_none (pmap_none (preceded_none_left (tag1_cons_neg (by decide) i rest ctx)))]
  unfold por
  rw [ref_body_eval g.ty 'Q' i rest ctx h]
  rcases hq : g.ty ⟨i + 1, rest⟩ ctx with ⟨o, c2⟩
  rcases o with _ | ⟨t, r2⟩
  · simp only
    rw [pmap_none (preceded_none_left (tag1_cons_neg (by decide) i rest c2))]
    simp only
    rw [pmap_none (preceded_none_left (tag1_cons_neg (by decide) i rest c2))]
    simp only
    rw [pmap_none (preceded_none_left (tag1_cons_neg (by decide) i rest c2))]
    simp only
    rw [pmap_none (preceded_none_left (tag1_cons_neg (by decide) i rest c2))]
  · simp only


/-- `parse_type` on an `R`-headed input with absent lifetime: the whole
production builds `Ref { lifetime: 0, type }`, allocates it, and memoizes it
at the entry offset. -/
theorem ty_R_eval (pd : PunyDecode) (fuel i : Nat) (rest : List Char) (ctx : Ctx)
    (h : rest.head? ≠ some 'L') :
    (grammar pd (fuel + 1)).ty ⟨i, 'R' :: rest⟩ ctx =
      (match (grammar pd fuel).ty ⟨i + 1, rest⟩ ctx with
       | (some (t, r2), c2) =>
         (some (RcType.mk c2.counter (Ty.ref 0 t), r2),
           Ctx.insertType { c2 with counter := c2.counter + 1 } i
             (RcType.mk c2.counter (Ty.ref 0 t)))
       | (none, c2) => (none, c2)) := by
  have hnp : ∀ cv : Ctx, (grammar pd fuel).path ⟨i, 'R' :: rest⟩ cv = (none, cv) := by
    intro cv
    refine path_clean_fail pd fuel i _ cv ?_
    intro c hc
    injection hc with hc2
    rw [← hc2]
    decide
  rw [ty_unfold]
  simp only
  unfold pinspectCtx por pmapRc
  rw [tyAlt_R_eval pd (grammar pd fuel) fuel i rest ctx h hnp]
  rcases hq : (grammar pd fuel).ty ⟨i + 1, rest⟩ ctx with ⟨o, c2⟩
  rcases o with _ | ⟨t, r2⟩
  · simp only
    rw [show tyBackRef ⟨i, 'R' :: rest⟩ c2 = (none, c2) from
      pmapOptCtx_none (preceded_none_left (tag1_cons_neg (by decide) i rest c2))]
  · rfl

/-- `parse_type` on a `Q`-headed input with absent lifetime: builds
`RefMut { lifetime: 0, type }`. -/
theorem ty_Q_eval (pd : PunyDecode) (fuel i : Nat) (rest : List Char) (ctx : Ctx)
    (h : rest.head? ≠ some 'L') :
    (grammar pd (fuel + 1)).ty ⟨i, 'Q' :: rest⟩ ctx =
      (match (grammar pd fuel).ty ⟨i + 1, rest⟩ ctx with
       | (some (t, r2), c2) =>
         (some (RcType.mk c2.counter (Ty.refMut 0 t), r2),
           Ctx.insertType { c2 with counter := c2.counter + 1 } i
             (RcType.mk c2.counter (Ty.refMut 0 t)))
       | (none, c2) => (none, c2)) := by
  have hnp : ∀ cv : Ctx, (grammar pd fuel).path ⟨i, 'Q' :: rest⟩ cv = (none, cv) := by
    intro cv
    refine path_clean_fail pd fuel i _ cv ?_
    intro c hc
    injection hc with hc2
    rw [← hc2]
    decide
  rw [ty_unfold]
  simp only
  unfold pinspectCtx por pmapRc
  rw [tyAlt_Q_eval pd (grammar pd fuel) fuel i rest ctx h hnp]
  rcases hq : (grammar pd fuel).ty ⟨i + 1, rest⟩ ctx with ⟨o, c2⟩
  rcases o with _ | ⟨t, r2⟩
  · simp only
    rw [show tyBackRef ⟨i, 'Q' :: rest⟩ c2 = (none, c2) from
      pmapOptCtx_none (preceded_none_left (tag1_cons_neg (by decide) i rest c2))]
  · rfl

/-- **C7.**  In the Ref (`R`) and RefMut (`Q`) type productions the lifetime
is optional; whenever it is absent (the next character is not `L`) the
lifetime index stored in the resulting `Type::Ref`/`Type::RefMut` node is
exactly 0 — `Option::unwrap_or_default`, with no +1 bump (unlike the
opt-u64 convention of disambiguators and binders). -/
theorem ref_lifetime_absent_is_zero :
    (∀ (pd : PunyDecode) (fuel i : Nat) (rest : List Char) (ctx : Ctx) (out : RcType)
      (rest2 : IndexedStr), rest.head? ≠ some 'L' →
      ((grammar pd (fuel + 1)).ty ⟨i, 'R' :: rest⟩ ctx).1 = some (out, rest2) →
      ∃ t, out.node = Ty.ref 0 t) ∧
    (∀ (pd : PunyDecode) (fuel i : Nat) (rest : List Char) (ctx : Ctx) (out : RcType)
      (rest2 : IndexedStr), rest.head? ≠ some 'L' →
      ((grammar pd (fuel + 1)).ty ⟨i, 'Q' :: rest⟩ ctx).1 = some (out, rest2) →
      ∃ t, out.node = Ty.refMut 0 t) := by
  constructor
  · intro pd fuel i rest ctx out rest2 h hs
    rw [ty_R_eval pd fuel i rest ctx h] at hs
    rcases hq : (grammar pd fuel).ty ⟨i + 1, rest⟩ ctx with ⟨o, c2⟩
    rw [hq] at hs
    rcases o with _ | ⟨t, r2⟩
    · simp at hs
    · simp at hs
      exact ⟨t, by rw [← hs.1]; rfl⟩
  · intro pd fuel i rest ctx out rest2 h hs
    rw [ty_Q_eval pd fuel i rest ctx h] at hs
    rcases hq : (grammar pd fuel).ty ⟨i + 1, rest⟩ ctx with ⟨o, c2⟩
    rw [hq] at hs
    rcases o with _ | ⟨t, r2⟩
    · simp at hs
    · simp at hs
      exact ⟨t, by rw [← hs.1]; rfl⟩

/-- witness for C7: `Rj` is `&usize` with lifetime 0, `Qj` is `&mut usize`
with lifetime 0. -/
theorem ref_lifetime_absent_is_zero_witness :
    (∃ t, (RcType.mk 1 (Ty.ref 0 (RcType.mk 0 (Ty.basic BasicType.usize)))).node =
      Ty.ref 0 t) ∧
    (∃ t, (RcType.mk 1 (Ty.refMut 0 (RcType.mk 0 (Ty.basic BasicType.usize)))).node =
      Ty.refMut 0 t) :=
  ⟨ref_lifetime_absent_is_zero.1 pdId 1 0 ['j'] Ctx.empty
      (RcType.mk 1 (Ty.ref 0 (RcType.mk 0 (Ty.basic BasicType.usize)))) ⟨2, []⟩
      (by simp) rfl,
   ref_lifetime_absent_is_zero.2 pdId 1 0 ['j'] Ctx.empty
      (RcType.mk 1 (Ty.refMut 0 (RcType.mk 0 (Ty.basic BasicType.usize)))) ⟨2, []⟩
      (by simp) rfl⟩


/-! ## C10: signed const-int range -/

theorem terminated_inv {α β : Type} {p : P α} {q : P β} {inp : IndexedStr} {ctx : Ctx}
    {out : α} {rest : IndexedStr} (h : (terminated p q inp ctx).1 = some (out, rest)) :
    ∃ r1, (p inp ctx).1 = some (out, r1) := by
  unfold terminated pmap pand at h
  rcases hp : p inp ctx with ⟨o, c⟩
  rw [hp] at h
  rcases o with _ | ⟨v, r⟩
  · simp at h
  · simp only at h
    rcases hqr : q r c with ⟨o2, c2⟩
    rw [hqr] at h
    rcases o2 with _ | ⟨w, r2⟩
    · simp at h
    · simp at h
      refine ⟨r, ?_⟩
      rw [← h.1]

theorem pmapOpt_inv {α β : Type} {p : P α} {f : α → Option β} {inp : IndexedStr}
    {ctx : Ctx} {out : β} {rest : IndexedStr}
    (h : (pmapOpt p f inp ctx).1 = some (out, rest)) :
    ∃ v, (p inp ctx).1 = some (v, rest) ∧ f v = some out := by
  unfold pmapOpt at h
  rcases hp : p inp ctx with ⟨o, c⟩
  rw [hp] at h
  rcases o with _ | ⟨v, r⟩
  · simp at h
  · simp only at h
    rcases hf : f v with _ | w
    · rw [hf] at h
      simp at h
    · rw [hf] at h
      simp at h
      refine ⟨v, ?_, ?_⟩
      · rw [← h.2]
      · rw [hf, h.1]

/-- the value parsed by the signed lower-hex const-int parser lies strictly
inside the two's-complement range: the magnitude is bounded by `T::MAX`
before negation, so `T::MIN` is unreachable. -/
theorem parseConstInt_signed_range (bits : Nat) (inp : IndexedStr) (ctx : Ctx)
    (v : Int) (rest : IndexedStr)
    (hs : ((parseConstInt true bits) inp ctx).1 = some (v, rest)) :
    -(2 ^ (bits - 1) : Int) < v ∧ v < 2 ^ (bits - 1) := by
  obtain ⟨r1, h1⟩ := terminated_inv hs
  obtain ⟨w, -, hf⟩ := pmapOpt_inv h1
  rcases w with ⟨isNeg, ds⟩
  simp only [if_true] at hf
  have hpow : (1 : Nat) ≤ 2 ^ (bits - 1) := Nat.one_le_two_pow
  have hp2 : (0 : Int) < 2 ^ (bits - 1) := by positivity
  by_cases he : ds.isEmpty
  · simp [he] at hf
  · rw [if_neg (by simpa using he)] at hf
    by_cases hle : hexVal ds ≤ 2 ^ (bits - 1) - 1
    · rw [if_pos hle] at hf
      have hNat : hexVal ds < 2 ^ (bits - 1) := by omega
      have hInt : ((hexVal ds : Nat) : Int) < 2 ^ (bits - 1) := by exact_mod_cast hNat
      have hnn : (0 : Int) ≤ ((hexVal ds : Nat) : Int) := by positivity
      rcases isNeg with _ | u
      · simp at hf
        exact ⟨by omega, by omega⟩
      · simp at hf
        exact ⟨by omega, by omega⟩
    · rw [if_neg hle] at hf
      simp at hf

/-- the `i8` const-int on `n80_` (magnitude 0x80 = 128 > i8::MAX) fails. -/
theorem parseConstInt_i8_n80 (i : Nat) (rest : List Char) (ctx : Ctx) :
    parseConstInt true 8 ⟨i, 'n' :: '8' :: '0' :: '_' :: rest⟩ ctx = (none, ctx) := by
  unfold parseConstInt terminated pmap pand pmapOpt popt lowerHexDigit0 takeWhileP
  simp only
  rw [tag1_cons_pos 'n' i ('8' :: '0' :: '_' :: rest) ctx]
  simp [List.takeWhile_cons, (by decide : isLowerHexDigit '8' = true),
    (by decide : isLowerHexDigit '0' = true), (by decide : isLowerHexDigit '_' = false),
    show hexVal ['8', '0'] = 128 from by decide,
    show (2 : Nat) ^ (8 - 1) - 1 = 127 from by norm_num,
    show ¬((128 : Nat) ≤ 127) from by norm_num]

/-- **C10.**  First conjunct: for every signed width, the lower-hex
const-int parser converts the magnitude into the target signed width before
the checked negation, so every produced value lies strictly between
`-2^(w-1)` and `2^(w-1)` — the most negative value `-2^(w-1)` can never be
produced.  Second conjunct: `parse_const` fails on `an80_` (the I8 constant
-128), although -128 is representable in `i8`. -/
theorem const_int_min_unreachable :
    (∀ (bits : Nat) (inp : IndexedStr) (ctx : Ctx) (v : Int) (rest : IndexedStr),
      ((parseConstInt true bits) inp ctx).1 = some (v, rest) →
      (-(2 ^ (bits - 1) : Int) < v ∧ v < 2 ^ (bits - 1)) ∧ v ≠ -(2 ^ (bits - 1) : Int)) ∧
    (∀ (pd : PunyDecode) (fuel i : Nat) (rest : List Char) (ctx : Ctx),
      (grammar pd fuel).const ⟨i, 'a' :: 'n' :: '8' :: '0' :: '_' :: rest⟩ ctx =
        (none, ctx)) := by
  constructor
  · intro bits inp ctx v rest hs
    have h := parseConstInt_signed_range bits inp ctx v rest hs
    exact ⟨h, by omega⟩
  · intro pd fuel i rest ctx
    cases fuel with
    | zero => rfl
    | succ fuel =>
      rw [const_unfold]
      simp only
      refine pinspectCtx_none ?_
      refine Eq.trans (por_none (pmapRc_none ?_)) (pmapOptCtx_none (preceded_none_left
        (tag1_cons_neg (by decide) i _ ctx)))
      unfold constAlt
      rw [por_none (pmap_none (Eq.trans
        (preceded_tag1_step (parseConstInt true 8) 'a' i _ ctx)
        (parseConstInt_i8_n80 (i + 1) rest ctx)))]
      rw [por_none (pmap_none (preceded_none_left (tag1_cons_neg (by decide) i _ ctx)))]
      rw [por_none (pmap_none (preceded_none_left (tag1_cons_neg (by decide) i _ ctx)))]
      rw [por_none (pmap_none (preceded_none_left (tag1_cons_neg (by decide) i _ ctx)))]
      rw [por_none (pmap_none (preceded_none_left (tag1_cons_neg (by decide) i _ ctx)))]
      rw [por_none (pmap_none (preceded_none_left (tag1_cons_neg (by decide) i _ ctx)))]
      rw [por_none (pmap_none (preceded_none_left (tag1_cons_neg (by decide) i _ ctx)))]
      rw [por_none (pmap_none (preceded_none_left (tag1_cons_neg (by decide) i _ ctx)))]
      rw [por_none (pmap_none (preceded_none_left (tag1_cons_neg (by decide) i _ ctx)))]
      rw [por_none (pmap_none (preceded_none_left (tag1_cons_neg (by decide) i _ ctx)))]
      rw [por_none (pmap_none (preceded_none_left (tag1_cons_neg (by decide) i _ ctx)))]
      rw [por_none (pmap_none (preceded_none_left (tag1_cons_neg (by decide) i _ ctx)))]
      rw [por_none (preceded_none_left (tag1_cons_neg (by decide) i _ ctx))]
      rw [por_none (preceded_none_left (tag1_cons_neg (by decide) i _ ctx))]
      rw [por_none (pmap_none (preceded_none_left (tag1_cons_neg (by decide) i _ ctx)))]
      rw [por_none (pmap_none (preceded_none_left (tag1_cons_neg (by decide) i _ ctx)))]
      rw [por_none (pmap_none (preceded_none_left (tag1_cons_neg (by decide) i _ ctx)))]
      rw [por_none (pmap_none (delimited_none_left (tag1_cons_neg (by decide) i _ ctx)))]
      rw [por_none (pmap_none (delimited_none_left (tag1_cons_neg (by decide) i _ ctx)))]
      rw [por_none (pmap_none (preceded_none_left (tag1_cons_neg (by decide) i _ ctx)))]
      exact pmap_none (tag1_cons_neg (by decide) i _ ctx)

/-- witness for C10: `7f_` parses as 127 with i8 range respected. -/
theorem const_int_min_unreachable_witness :
    ((-(2 ^ (8 - 1) : Int) < 127 ∧ (127 : Int) < 2 ^ (8 - 1)) ∧
      (127 : Int) ≠ -(2 ^ (8 - 1) : Int)) ∧
    (grammar pdId 1).const ⟨0, ['a', 'n', '8', '0', '_']⟩ Ctx.empty = (none, Ctx.empty) :=
  ⟨const_int_min_unreachable.1 8 ⟨0, ['7', 'f', '_']⟩ Ctx.empty 127 ⟨3, []⟩ (by decide),
   const_int_min_unreachable.2 pdId 1 0 [] Ctx.empty⟩


/-- **C5, counterexample.**  Parsing `_RNvC1a1fB4_` succeeds, but the
trailing `B4_` is **not** consumed as a back-reference: the suffix is
`B4_` and the symbol has no instantiating crate, so no path aliasing the
`a` identifier is produced from it. -/
theorem back_ref_B4_not_resolved :
    (parseMangled pdId "_RNvC1a1fB4_".toList).map
      (fun x => (x.2, x.1.instantiatingCrate.isSome)) =
      some (['B', '4', '_'], false) := rfl

/-- **C5, amended.**  First conjunct: `_RNvC1a1fB4_` parses successfully
with `B4_` left as the unconsumed suffix and no instantiating crate.
Second conjunct: the reason — `B4_` decodes to absolute offset 5 (base-62
`4` is 4, plus one; offsets are relative to the character after `_R`),
and the paths memo table only holds offsets 0 (the `Nv…` nested path) and
2 (the `C1a` crate root), so the back-reference lookup misses.  Third
conjunct: with the correct back-reference `B1_` (offset 2) the input
`_RNvC1a1fB1_` parses fully and the instantiating crate is
object-identical — the same shared node, allocation id 0 — to the
crate-root node inside the main path. -/
theorem back_ref_offset_five_misses :
    (parseMangled pdId "_RNvC1a1fB4_".toList).map
      (fun x => (x.2, x.1.instantiatingCrate.isSome)) =
      some (['B', '4', '_'], false) ∧
    (parseBackRef ⟨0, ['B', '4', '_']⟩ Ctx.empty).1 = some (5, ⟨3, []⟩) ∧
    (parseMangled pdId "_RNvC1a1fB1_".toList).map
      (fun x => (x.2, x.1.instantiatingCrate.map RcPath.rcId,
        Path.nestedParentId x.1.path.node)) =
      some ([], some 0, some 0) := ⟨rfl, by decide, rfl⟩


/-! ### basic facts about the predicates -/

theorem ctxBelow_mono {c : Ctx} {n m : Nat} (h : CtxBelow c n) (hnm : n ≤ m) :
    CtxBelow c m :=
  ⟨fun k hk => lt_of_lt_of_le (h.1 k hk) hnm,
   fun k hk => lt_of_lt_of_le (h.2.1 k hk) hnm,
   fun k hk => lt_of_lt_of_le (h.2.2 k hk) hnm⟩

theorem keysIn_nil {lo hi : Nat} : KeysIn [] lo hi := by
  intro k hk
  simp at hk

theorem boundedNew_refl (c : Ctx) (lp lt lc hi : Nat) :
    BoundedNew c c lp lt lc hi :=
  ⟨⟨[], rfl, keysIn_nil⟩, ⟨[], rfl, keysIn_nil⟩, ⟨[], rfl, keysIn_nil⟩⟩

theorem keysIn_mono {l : List Nat} {lo hi lo' hi' : Nat} (h : KeysIn l lo hi)
    (hlo : lo' ≤ lo) (hhi : hi ≤ hi') : KeysIn l lo' hi' :=
  fun k hk => ⟨le_trans hlo (h k hk).1, lt_of_lt_of_le (h k hk).2 hhi⟩

theorem boundedNew_mono {c c' : Ctx} {lp lt lc hi lp' lt' lc' hi' : Nat}
    (h : BoundedNew c c' lp lt lc hi) (hlp : lp' ≤ lp) (hlt : lt' ≤ lt)
    (hlc : lc' ≤ lc) (hhi : hi ≤ hi') : BoundedNew c c' lp' lt' lc' hi' := by
  obtain ⟨⟨l1, h1, k1⟩, ⟨l2, h2, k2⟩, ⟨l3, h3, k3⟩⟩ := h
  exact ⟨⟨l1, h1, keysIn_mono k1 hlp hhi⟩, ⟨l2, h2, keysIn_mono k2 hlt hhi⟩,
         ⟨l3, h3, keysIn_mono k3 hlc hhi⟩⟩

theorem keysIn_append {l1 l2 : List Nat} {lo hi : Nat} (h1 : KeysIn l1 lo hi)
    (h2 : KeysIn l2 lo hi) : KeysIn (l1 ++ l2) lo hi := by
  intro k hk
  rcases List.mem_append.mp hk with h | h
  · exact h1 k h
  · exact h2 k h

theorem boundedNew_trans {c1 c2 c3 : Ctx} {lp lt lc hi1 hi2 : Nat}
    (h1 : BoundedNew c1 c2 lp lt lc hi1) (h2 : BoundedNew c2 c3 lp lt lc hi2)
    (hh : hi1 ≤ hi2) : BoundedNew c1 c3 lp lt lc hi2 := by
  obtain ⟨⟨a1, ha1, ka1⟩, ⟨a2, ha2, ka2⟩, ⟨a3, ha3, ka3⟩⟩ := h1
  obtain ⟨⟨b1, hb1, kb1⟩, ⟨b2, hb2, kb2⟩, ⟨b3, hb3, kb3⟩⟩ := h2
  refine ⟨⟨b1 ++ a1, ?_, ?_⟩, ⟨b2 ++ a2, ?_, ?_⟩, ⟨b3 ++ a3, ?_, ?_⟩⟩
  · rw [hb1, ha1, List.append_assoc]
  · rw [List.map_append]
    exact keysIn_append kb1 (keysIn_mono ka1 le_rfl hh)
  · rw [hb2, ha2, List.append_assoc]
  · rw [List.map_append]
    exact keysIn_append kb2 (keysIn_mono ka2 le_rfl hh)
  · rw [hb3, ha3, List.append_assoc]
  · rw [List.map_append]
    exact keysIn_append kb3 (keysIn_mono ka3 le_rfl hh)

theorem ext_of_boundedNew {c c' : Ctx} {lp lt lc hi : Nat}
    (h : BoundedNew c c' lp lt lc hi) : Ext c c' :=
  ⟨⟨h.1.choose, h.1.choose_spec.1⟩, ⟨h.2.1.choose, h.2.1.choose_spec.1⟩,
   ⟨h.2.2.choose, h.2.2.choose_spec.1⟩⟩

theorem ctxBelow_of_boundedNew {c c' : Ctx} {n lp lt lc hi : Nat}
    (hb : CtxBelow c n) (h : BoundedNew c c' lp lt lc hi) (hn : n ≤ hi) :
    CtxBelow c' hi := by
  obtain ⟨⟨l1, h1, k1⟩, ⟨l2, h2, k2⟩, ⟨l3, h3, k3⟩⟩ := h
  refine ⟨?_, ?_, ?_⟩
  · intro k hk
    rw [keysP, h1, List.map_append] at hk
    rcases List.mem_append.mp hk with hm | hm
    · exact (k1 k hm).2
    · exact lt_of_lt_of_le (hb.1 k hm) hn
  · intro k hk
    rw [keysT, h2, List.map_append] at hk
    rcases List.mem_append.mp hk with hm | hm
    · exact (k2 k hm).2
    · exact lt_of_lt_of_le (hb.2.1 k hm) hn
  · intro k hk
    rw [keysC, h3, List.map_append] at hk
    rcases List.mem_append.mp hk with hm | hm
    · exact (k3 k hm).2
    · exact lt_of_lt_of_le (hb.2.2 k hm) hn

theorem ext_refl (c : Ctx) : Ext c c := ⟨⟨[], rfl⟩, ⟨[], rfl⟩, ⟨[], rfl⟩⟩

theorem ext_trans {c1 c2 c3 : Ctx} (h1 : Ext c1 c2) (h2 : Ext c2 c3) :
    Ext c1 c3 := by
  obtain ⟨⟨p1, hp1⟩, ⟨t1, ht1⟩, ⟨q1, hq1⟩⟩ := h1
  obtain ⟨⟨p2, hp2⟩, ⟨t2, ht2⟩, ⟨q2, hq2⟩⟩ := h2
  exact ⟨⟨p2 ++ p1, by rw [hp2, hp1, List.append_assoc]⟩,
         ⟨t2 ++ t1, by rw [ht2, ht1, List.append_assoc]⟩,
         ⟨q2 ++ q1, by rw [hq2, hq1, List.append_assoc]⟩⟩

theorem lookup_cons_ne {α : Type} (k k2 : Nat) (v2 : α) (l : List (Nat × α))
    (h : k ≠ k2) : ((k2, v2) :: l).lookup k = l.lookup k := by
  have hb : (k == k2) = false := beq_eq_false_iff_ne.mpr h
  simp [List.lookup, hb]

theorem mem_of_lookup {α : Type} :
    ∀ (l : List (Nat × α)) (k : Nat) (v : α), l.lookup k = some v →
      k ∈ l.map Prod.fst := by
  intro l
  induction l with
  | nil =>
    intro k v h
    simp [List.lookup] at h
  | cons e l2 ih =>
    rcases e with ⟨k2, v2⟩
    intro k v h
    by_cases hk2 : k = k2
    · simp [hk2]
    · rw [lookup_cons_ne k k2 v2 l2 hk2] at h
      simpa using Or.inr (ih k v h)

/-- on a duplicate-free extended table, an entry present before the
extension is still what `lookup` returns: later inserts never shadow it. -/
theorem lookup_stable {α : Type} (lnew l : List (Nat × α)) (k : Nat) (v : α)
    (hnd : ((lnew ++ l).map Prod.fst).Nodup) (h : l.lookup k = some v) :
    (lnew ++ l).lookup k = some v := by
  have hk : k ∈ l.map Prod.fst := mem_of_lookup l k v h
  induction lnew with
  | nil => exact h
  | cons e lnew ih =>
    rcases e with ⟨k1, v1⟩
    have hne : k ≠ k1 := by
      intro hkk
      rw [List.map_append] at hnd
      have hni : k1 ∉ (lnew.map Prod.fst ++ l.map Prod.fst) :=
        (List.nodup_cons.mp (by simpa using hnd)).1
      exact hni (List.mem_append_right _ (hkk ▸ hk))
    rw [List.cons_append, lookup_cons_ne k k1 v1 (lnew ++ l) hne]
    refine ih ?_
    rw [List.map_append] at hnd ⊢
    exact (List.nodup_cons.mp (by simpa using hnd)).2

/-! ### stepping lemmas: evaluate one combinator layer given the result of
its first component -/

theorem pmap_eval_succ {α β : Type} {p : P α} {f : α → β} {inp : IndexedStr}
    {ctx c : Ctx} {v : α} {rest : IndexedStr}
    (h : p inp ctx = (some (v, rest), c)) :
    pmap p f inp ctx = (some (f v, rest), c) := by
  unfold pmap
  rw [h]

theorem pmapOpt_eval_succ {α β : Type} {p : P α} {f : α → Option β}
    {inp : IndexedStr} {ctx c : Ctx} {v : α} {rest : IndexedStr}
    (h : p inp ctx = (some (v, rest), c)) :
    pmapOpt p f inp ctx =
      (match f v with
       | some w => (some (w, rest), c)
       | none => (none, c)) := by
  unfold pmapOpt
  rw [h]

theorem pmapOptCtx_eval_succ {α β : Type} {p : P α} {f : α → Ctx → Option β}
    {inp : IndexedStr} {ctx c : Ctx} {v : α} {rest : IndexedStr}
    (h : p inp ctx = (some (v, rest), c)) :
    pmapOptCtx p f inp ctx =
      (match f v c with
       | some w => (some (w, rest), c)
       | none => (none, c)) := by
  unfold pmapOptCtx
  rw [h]

theorem pinspectCtx_eval_succ {α : Type} {p : P α} {f : α → Ctx → Ctx}
    {inp : IndexedStr} {ctx c : Ctx} {v : α} {rest : IndexedStr}
    (h : p inp ctx = (some (v, rest), c)) :
    pinspectCtx p f inp ctx = (some (v, rest), f v c) := by
  unfold pinspectCtx
  rw [h]

theorem pmapRc_eval_succ {α β : Type} {mk : Nat → α → β} {p : P α}
    {inp : IndexedStr} {ctx c : Ctx} {v : α} {rest : IndexedStr}
    (h : p inp ctx = (some (v, rest), c)) :
    pmapRc mk p inp ctx =
      (some (mk c.counter v, rest), { c with counter := c.counter + 1 }) := by
  unfold pmapRc
  rw [h]

theorem por_eval_succ {α : Type} {p q : P α} {inp : IndexedStr} {ctx c : Ctx}
    {r : α × IndexedStr} (h : p inp ctx = (some r, c)) :
    por p q inp ctx = (some r, c) := by
  unfold por
  rw [h]

theorem popt_eval_succ {α : Type} {p : P α} {inp : IndexedStr} {ctx c : Ctx}
    {v : α} {rest : IndexedStr} (h : p inp ctx = (some (v, rest), c)) :
    popt p inp ctx = (some (some v, rest), c) := by
  unfold popt
  rw [h]

theorem popt_eval_fail {α : Type} {p : P α} {inp : IndexedStr} {ctx c : Ctx}
    (h : p inp ctx = (none, c)) :
    popt p inp ctx = (some (none, inp), c) := by
  unfold popt
  rw [h]

theorem pand_eval_succ {α β : Type} {p : P α} {q : P β} {inp : IndexedStr}
    {ctx c : Ctx} {v : α} {rest : IndexedStr}
    (h : p inp ctx = (some (v, rest), c)) :
    pand p q inp ctx =
      (match q rest c with
       | (some (w, rest2), c2) => (some ((v, w), rest2), c2)
       | (none, c2) => (none, c2)) := by
  unfold pand
  rw [h]

theorem pflatMap_eval_succ {α β : Type} {p : P α} {f : α → P β}
    {inp : IndexedStr} {ctx c : Ctx} {v : α} {rest : IndexedStr}
    (h : p inp ctx = (some (v, rest), c)) :
    pflatMap p f inp ctx = f v rest c := by
  unfold pflatMap
  rw [h]

theorem pmany0_eval_succ {α : Type} {p : P α} {fuel : Nat} {inp : IndexedStr}
    {ctx c : Ctx} {v : α} {rest : IndexedStr}
    (h : p inp ctx = (some (v, rest), c)) :
    pmany0 p (fuel + 1) inp ctx =
      (match pmany0 p fuel rest c with
       | (some (vs, rest2), c2) => (some (v :: vs, rest2), c2)
       | (none, c2) => (none, c2)) := by
  show (match p inp ctx with
        | (some (v, rest), c) =>
          match pmany0 p fuel rest c with
          | (some (vs, rest2), c2) => (some (v :: vs, rest2), c2)
          | (none, c2) => (none, c2)
        | (none, c) => (some ([], inp), c)) = _
  rw [h]

theorem pmany0_eval_fail {α : Type} {p : P α} {fuel : Nat} {inp : IndexedStr}
    {ctx c : Ctx} (h : p inp ctx = (none, c)) :
    pmany0 p (fuel + 1) inp ctx = (some ([], inp), c) := by
  show (match p inp ctx with
        | (some (v, rest), c) =>
          match pmany0 p fuel rest c with
          | (some (vs, rest2), c2) => (some (v :: vs, rest2), c2)
          | (none, c2) => (none, c2)
        | (none, c) => (some ([], inp), c)) = _
  rw [h]

/-- `many0` never fails. -/
theorem pmany0_ne_none {α : Type} (p : P α) :
    ∀ (fuel : Nat) (inp : IndexedStr) (ctx : Ctx),
      (pmany0 p fuel inp ctx).1 ≠ none := by
  intro fuel
  induction fuel with
  | zero =>
    intro inp ctx
    simp [pmany0]
  | succ fuel ih =>
    intro inp ctx
    rcases h : p inp ctx with ⟨o, c⟩
    rcases o with _ | ⟨v, rest⟩
    · rw [pmany0_eval_fail h]
      simp
    · rw [pmany0_eval_succ h]
      rcases h2 : pmany0 p fuel rest c with ⟨o2, c2⟩
      rcases o2 with _ | ⟨vs, rest2⟩
      · exact absurd (by rw [h2]) (ih rest c)
      · simp

/-- a clean element failure stops `many0` with the empty list. -/
theorem pmany0_stop_clean {α : Type} {p : P α} {inp : IndexedStr} {ctx : Ctx}
    (h : p inp ctx = (none, ctx)) (fuel : Nat) :
    pmany0 p fuel inp ctx = (some ([], inp), ctx) := by
  cases fuel with
  | zero => rfl
  | succ fuel => exact pmany0_eval_fail h

/-! ### context purity: the leaf parsers never touch the memo tables -/

theorem ctxPure_pfail {α : Type} : CtxPure (pfail (α := α)) := fun _ _ => rfl

theorem ctxPure_tag {lit : List Char} : CtxPure (tag lit) := by
  intro inp ctx
  unfold tag
  by_cases h : lit.isPrefixOf inp.data <;> simp [h]

theorem ctxPure_takeP {n : Nat} : CtxPure (takeP n) := by
  intro inp ctx
  unfold takeP
  by_cases h : n ≤ inp.data.length <;> simp [h]

theorem ctxPure_takeWhileP {pred : Char → Bool} : CtxPure (takeWhileP pred) :=
  fun _ _ => rfl

theorem ctxPure_digit1 : CtxPure digit1 := by
  intro inp ctx
  unfold digit1
  rcases h : takeWhileP isAsciiDigit inp ctx with ⟨o, c⟩
  have hc : c = ctx := by
    have h2 := @ctxPure_takeWhileP isAsciiDigit inp ctx
    rw [h] at h2
    exact h2
  rcases o with _ | ⟨ds, rest⟩
  · simp [hc]
  · by_cases he : ds.isEmpty <;> simp [he, hc]

theorem ctxPure_pmap {α β : Type} {p : P α} {f : α → β} (hp : CtxPure p) :
    CtxPure (pmap p f) := by
  intro inp ctx
  unfold pmap
  rcases h : p inp ctx with ⟨o, c⟩
  have hc : c = ctx := by have := hp inp ctx; rw [h] at this; exact this
  rcases o with _ | ⟨v, rest⟩ <;> simp [hc]

theorem ctxPure_pmapOpt {α β : Type} {p : P α} {f : α → Option β}
    (hp : CtxPure p) : CtxPure (pmapOpt p f) := by
  intro inp ctx
  unfold pmapOpt
  rcases h : p inp ctx with ⟨o, c⟩
  have hc : c = ctx := by have := hp inp ctx; rw [h] at this; exact this
  subst hc
  rcases o with _ | ⟨v, rest⟩
  · simp
  · rcases hf : f v with _ | w <;> simp [hf]

theorem ctxPure_pmapOptCtx {α β : Type} {p : P α} {f : α → Ctx → Option β}
    (hp : CtxPure p) : CtxPure (pmapOptCtx p f) := by
  intro inp ctx
  unfold pmapOptCtx
  rcases h : p inp ctx with ⟨o, c⟩
  have hc : c = ctx := by have := hp inp ctx; rw [h] at this; exact this
  subst hc
  rcases o with _ | ⟨v, rest⟩
  · simp
  · rcases hf : f v c with _ | w <;> simp [hf]

theorem ctxPure_por {α : Type} {p q : P α} (hp : CtxPure p) (hq : CtxPure q) :
    CtxPure (por p q) := by
  intro inp ctx
  unfold por
  rcases h : p inp ctx with ⟨o, c⟩
  have hc : c = ctx := by have := hp inp ctx; rw [h] at this; exact this
  rcases o with _ | r
  · rw [hc]; exact hq inp ctx
  · simp [hc]

theorem ctxPure_popt {α : Type} {p : P α} (hp : CtxPure p) : CtxPure (popt p) := by
  intro inp ctx
  unfold popt
  rcases h : p inp ctx with ⟨o, c⟩
  have hc : c = ctx := by have := hp inp ctx; rw [h] at this; exact this
  rcases o with _ | ⟨v, rest⟩ <;> simp [hc]

theorem ctxPure_pand {α β : Type} {p : P α} {q : P β} (hp : CtxPure p)
    (hq : CtxPure q) : CtxPure (pand p q) := by
  intro inp ctx
  rcases h : p inp ctx with ⟨o, c⟩
  have hc : c = ctx := by have h3 := hp inp ctx; rw [h] at h3; exact h3
  rcases o with _ | ⟨v, rest⟩
  · rw [pand_none_left h, hc]
  · rw [pand_eval_succ h]
    rcases h2 : q rest c with ⟨o2, c2⟩
    have hc2 : c2 = c := by have h3 := hq rest c; rw [h2] at h3; exact h3
    rcases o2 with _ | ⟨w, rest2⟩ <;> simp [hc2, hc]

theorem ctxPure_preceded {α β : Type} {p : P α} {q : P β} (hp : CtxPure p)
    (hq : CtxPure q) : CtxPure (preceded p q) :=
  ctxPure_pmap (ctxPure_pand hp hq)

theorem ctxPure_terminated {α β : Type} {p : P α} {q : P β} (hp : CtxPure p)
    (hq : CtxPure q) : CtxPure (terminated p q) :=
  ctxPure_pmap (ctxPure_pand hp hq)

theorem ctxPure_pflatMap {α β : Type} {p : P α} {f : α → P β} (hp : CtxPure p)
    (hf : ∀ v, CtxPure (f v)) : CtxPure (pflatMap p f) := by
  intro inp ctx
  unfold pflatMap
  rcases h : p inp ctx with ⟨o, c⟩
  have hc : c = ctx := by have := hp inp ctx; rw [h] at this; exact this
  rcases o with _ | ⟨v, rest⟩
  · simp [hc]
  · rw [hc]; exact hf v rest ctx

theorem ctxPure_alphanumeric0 : CtxPure alphanumeric0 := ctxPure_takeWhileP

theorem ctxPure_lowerHexDigit0 : CtxPure lowerHexDigit0 := ctxPure_takeWhileP

theorem ctxPure_parseBase62Number : CtxPure parseBase62Number :=
  ctxPure_pmapOpt (ctxPure_terminated ctxPure_alphanumeric0 ctxPure_tag)

theorem ctxPure_parseBackRef : CtxPure parseBackRef :=
  ctxPure_preceded ctxPure_tag ctxPure_parseBase62Number

theorem ctxPure_parseDecimalNumber {max : Nat} : CtxPure (parseDecimalNumber max) :=
  ctxPure_pmapOpt (ctxPure_por ctxPure_tag ctxPure_digit1)

theorem ctxPure_parseConstInt {signed : Bool} {bits : Nat} :
    CtxPure (parseConstInt signed bits) :=
  ctxPure_terminated
    (ctxPure_pmapOpt (ctxPure_pand (ctxPure_popt ctxPure_tag) ctxPure_lowerHexDigit0))
    ctxPure_tag

theorem ctxPure_parseConstStr : CtxPure parseConstStr :=
  ctxPure_pmapOpt (ctxPure_terminated ctxPure_lowerHexDigit0 ctxPure_tag)

theorem ctxPure_parseDisambiguator : CtxPure parseDisambiguator :=
  ctxPure_preceded ctxPure_tag ctxPure_parseBase62Number

theorem ctxPure_parseLifetime : CtxPure parseLifetime :=
  ctxPure_preceded ctxPure_tag ctxPure_parseBase62Number

theorem ctxPure_parseBinder : CtxPure parseBinder :=
  ctxPure_preceded ctxPure_tag ctxPure_parseBase62Number

theorem ctxPure_optU64 {p : P Nat} (hp : CtxPure p) : CtxPure (optU64 p) :=
  ctxPure_pmapOpt (ctxPure_popt hp)

theorem ctxPure_parseBasicType : CtxPure parseBasicType :=
  ctxPure_pmapOpt ctxPure_takeP

theorem ctxPure_parseUndisambiguatedIdentifier {pd : PunyDecode} :
    CtxPure (parseUndisambiguatedIdentifier pd) :=
  ctxPure_pflatMap
    (ctxPure_pand (ctxPure_pand (ctxPure_popt ctxPure_tag) ctxPure_parseDecimalNumber)
      (ctxPure_popt ctxPure_tag))
    (fun _ => ctxPure_pmapOpt ctxPure_takeP)

theorem ctxPure_parseIdentifier {pd : PunyDecode} : CtxPure (parseIdentifier pd) :=
  ctxPure_pmap (ctxPure_pand (ctxPure_optU64 ctxPure_parseDisambiguator)
    ctxPure_parseUndisambiguatedIdentifier)

theorem ctxPure_parseAbi {pd : PunyDecode} : CtxPure (parseAbi pd) :=
  ctxPure_por (ctxPure_pmap ctxPure_tag)
    (ctxPure_pmap ctxPure_parseUndisambiguatedIdentifier)

theorem ctxPure_pathBackRef : CtxPure pathBackRef :=
  ctxPure_pmapOptCtx ctxPure_parseBackRef

theorem ctxPure_tyBackRef : CtxPure tyBackRef :=
  ctxPure_pmapOptCtx ctxPure_parseBackRef

theorem ctxPure_constBackRef : CtxPure constBackRef :=
  ctxPure_pmapOptCtx ctxPure_parseBackRef

theorem extends_of_ctxPure {α : Type} {p : P α} (hp : CtxPure p) : Extends p := by
  intro inp ctx
  rw [hp inp ctx]
  exact ext_refl ctx

theorem ext_insertPath (c : Ctx) (k : Nat) (v : RcPath) :
    Ext c (c.insertPath k v) :=
  ⟨⟨[(k, v)], rfl⟩, ⟨[], rfl⟩, ⟨[], rfl⟩⟩

theorem ext_insertType (c : Ctx) (k : Nat) (v : RcType) :
    Ext c (c.insertType k v) :=
  ⟨⟨[], rfl⟩, ⟨[(k, v)], rfl⟩, ⟨[], rfl⟩⟩

theorem ext_insertConst (c : Ctx) (k : Nat) (v : RcConst) :
    Ext c (c.insertConst k v) :=
  ⟨⟨[], rfl⟩, ⟨[], rfl⟩, ⟨[(k, v)], rfl⟩⟩

theorem ext_counter (c : Ctx) (n : Nat) : Ext c { c with counter := n } :=
  ⟨⟨[], rfl⟩, ⟨[], rfl⟩, ⟨[], rfl⟩⟩

theorem extends_pmap {α β : Type} {p : P α} {f : α → β} (hp : Extends p) :
    Extends (pmap p f) := by
  intro inp ctx
  rcases h : p inp ctx with ⟨o, c⟩
  have he : Ext ctx c := by have h3 := hp inp ctx; rw [h] at h3; exact h3
  rcases o with _ | ⟨v, rest⟩
  · rw [pmap_none h]; exact he
  · rw [pmap_eval_succ h]; exact he

theorem extends_pmapOpt {α β : Type} {p : P α} {f : α → Option β}
    (hp : Extends p) : Extends (pmapOpt p f) := by
  intro inp ctx
  rcases h : p inp ctx with ⟨o, c⟩
  have he : Ext ctx c := by have h3 := hp inp ctx; rw [h] at h3; exact h3
  rcases o with _ | ⟨v, rest⟩
  · rw [pmapOpt_none h]; exact he
  · rw [pmapOpt_eval_succ h]
    rcases f v with _ | w
    · exact he
    · exact he

theorem extends_pmapOptCtx {α β : Type} {p : P α} {f : α → Ctx → Option β}
    (hp : Extends p) : Extends (pmapOptCtx p f) := by
  intro inp ctx
  rcases h : p inp ctx with ⟨o, c⟩
  have he : Ext ctx c := by have h3 := hp inp ctx; rw [h] at h3; exact h3
  rcases o with _ | ⟨v, rest⟩
  · rw [pmapOptCtx_none h]; exact he
  · rw [pmapOptCtx_eval_succ h]
    rcases f v c with _ | w
    · exact he
    · exact he

theorem extends_pmapRc {α β : Type} {mk : Nat → α → β} {p : P α}
    (hp : Extends p) : Extends (pmapRc mk p) := by
  intro inp ctx
  rcases h : p inp ctx with ⟨o, c⟩
  have he : Ext ctx c := by have h3 := hp inp ctx; rw [h] at h3; exact h3
  rcases o with _ | ⟨v, rest⟩
  · rw [pmapRc_none h]; exact he
  · rw [pmapRc_eval_succ h]
    exact ext_trans he (ext_counter c _)

theorem extends_por {α : Type} {p q : P α} (hp : Extends p) (hq : Extends q) :
    Extends (por p q) := by
  intro inp ctx
  rcases h : p inp ctx with ⟨o, c⟩
  have he : Ext ctx c := by have h3 := hp inp ctx; rw [h] at h3; exact h3
  rcases o with _ | r
  · rw [por_none h]
    exact ext_trans he (hq inp c)
  · rw [por_eval_succ h]; exact he

theorem extends_popt {α : Type} {p : P α} (hp : Extends p) :
    Extends (popt p) := by
  intro inp ctx
  rcases h : p inp ctx with ⟨o, c⟩
  have he : Ext ctx c := by have h3 := hp inp ctx; rw [h] at h3; exact h3
  rcases o with _ | ⟨v, rest⟩
  · rw [popt_eval_fail h]; exact he
  · rw [popt_eval_succ h]; exact he

theorem extends_pand {α β : Type} {p : P α} {q : P β} (hp : Extends p)
    (hq : Extends q) : Extends (pand p q) := by
  intro inp ctx
  rcases h : p inp ctx with ⟨o, c⟩
  have he : Ext ctx c := by have h3 := hp inp ctx; rw [h] at h3; exact h3
  rcases o with _ | ⟨v, rest⟩
  · rw [pand_none_left h]; exact he
  · rw [pand_eval_succ h]
    rcases h2 : q rest c with ⟨o2, c2⟩
    have he2 : Ext c c2 := by have h3 := hq rest c; rw [h2] at h3; exact h3
    rcases o2 with _ | ⟨w, rest2⟩
    · exact ext_trans he he2
    · exact ext_trans he he2

theorem extends_preceded {α β : Type} {p : P α} {q : P β} (hp : Extends p)
    (hq : Extends q) : Extends (preceded p q) :=
  extends_pmap (extends_pand hp hq)

theorem extends_terminated {α β : Type} {p : P α} {q : P β} (hp : Extends p)
    (hq : Extends q) : Extends (terminated p q) :=
  extends_pmap (extends_pand hp hq)

theorem extends_delimited {α β γ : Type} {p : P α} {q : P β} {r : P γ}
    (hp : Extends p) (hq : Extends q) (hr : Extends r) :
    Extends (delimited p q r) :=
  extends_preceded hp (extends_terminated hq hr)

theorem extends_pmany0 {α : Type} {p : P α} (hp : Extends p) :
    ∀ fuel, Extends (pmany0 p fuel) := by
  intro fuel
  induction fuel with
  | zero =>
    intro inp ctx
    exact ext_refl ctx
  | succ fuel ih =>
    intro inp ctx
    rcases h : p inp ctx with ⟨o, c⟩
    have he : Ext ctx c := by have h3 := hp inp ctx; rw [h] at h3; exact h3
    rcases o with _ | ⟨v, rest⟩
    · rw [pmany0_eval_fail h]; exact he
    · rw [pmany0_eval_succ h]
      rcases h2 : pmany0 p fuel rest c with ⟨o2, c2⟩
      have he2 : Ext c c2 := by have h3 := ih rest c; rw [h2] at h3; exact h3
      rcases o2 with _ | ⟨vs, rest2⟩
      · exact ext_trans he he2
      · exact ext_trans he he2

theorem extends_memo {α : Type} {p : P α} {ins : IndexedStr → α → Ctx → Ctx}
    (hp : Extends p) (hins : ∀ inp v c, Ext c (ins inp v c)) :
    Extends (fun inp ctx => pinspectCtx p (fun v c => ins inp v c) inp ctx) := by
  intro inp ctx
  show Ext ctx (pinspectCtx p (fun v c => ins inp v c) inp ctx).2
  rcases h : p inp ctx with ⟨o, c⟩
  have he : Ext ctx c := by have h3 := hp inp ctx; rw [h] at h3; exact h3
  rcases o with _ | ⟨v, rest⟩
  · rw [pinspectCtx_none h]
    exact he
  · rw [pinspectCtx_eval_succ h]
    exact ext_trans he (hins inp v c)

theorem extGrammar_failGrammar : ExtGrammar failGrammar :=
  ⟨extends_of_ctxPure ctxPure_pfail, extends_of_ctxPure ctxPure_pfail,
   extends_of_ctxPure ctxPure_pfail, extends_of_ctxPure ctxPure_pfail,
   extends_of_ctxPure ctxPure_pfail, extends_of_ctxPure ctxPure_pfail,
   extends_of_ctxPure ctxPure_pfail, extends_of_ctxPure ctxPure_pfail,
   extends_of_ctxPure ctxPure_pfail, extends_of_ctxPure ctxPure_pfail⟩

theorem extGrammar_mkGrammar (pd : PunyDecode) (g : Grammar) (fuel : Nat)
    (hg : ExtGrammar g) : ExtGrammar (mkGrammar pd g fuel) := by
  obtain ⟨hpath, himpl, hgen, hty, hfn, hdynB, hdynT, hdynA, hconst, hcf⟩ := hg
  have hid : Extends (parseIdentifier pd) := extends_of_ctxPure ctxPure_parseIdentifier
  have hbr : Extends parseBackRef := extends_of_ctxPure ctxPure_parseBackRef
  have htg : ∀ lit : List Char, Extends (tag lit) :=
    fun lit => extends_of_ctxPure ctxPure_tag
  refine ⟨?_, ?_, ?_, ?_, ?_, ?_, ?_, ?_, ?_, ?_⟩
  · exact extends_memo
      (extends_por
        (extends_pmapRc
          (extends_por (extends_pmap (extends_preceded (htg _) hid))
          (extends_por (extends_pmap (extends_preceded (htg _) (extends_pand himpl hty)))
          (extends_por (extends_pmap (extends_preceded (htg _) (extends_pand (extends_pand himpl hty) hpath)))
          (extends_por (extends_pmap (extends_preceded (htg _) (extends_pand hty hpath)))
          (extends_por (extends_pmap (extends_preceded (htg _) (extends_pand (extends_pand (extends_of_ctxPure ctxPure_takeP) hpath) hid)))
               (extends_pmap (extends_delimited (htg _) (extends_pand hpath (extends_pmany0 hgen fuel)) (htg _)))))))))
        (extends_pmapOptCtx hbr))
      (fun inp v c => ext_insertPath c inp.index v)
  · exact extends_pmap (extends_pand (extends_of_ctxPure (ctxPure_optU64 ctxPure_parseDisambiguator)) hpath)
  · exact extends_por (extends_pmap (extends_of_ctxPure ctxPure_parseLifetime))
      (extends_por (extends_pmap hty) (extends_pmap (extends_preceded (htg _) hconst)))
  · exact extends_memo
      (extends_por
        (extends_pmapRc
          (extends_por (extends_pmap (extends_of_ctxPure ctxPure_parseBasicType))
          (extends_por (extends_pmap hpath)
          (extends_por (extends_pmap (extends_preceded (htg _) (extends_pand hty hconst)))
          (extends_por (extends_pmap (extends_preceded (htg _) hty))
          (extends_por (extends_pmap (extends_delimited (htg _) (extends_pmany0 hty fuel) (htg _)))
          (extends_por (extends_pmap (extends_preceded (htg _) (extends_pand (extends_pmap (extends_popt (extends_of_ctxPure ctxPure_parseLifetime))) hty)))
          (extends_por (extends_pmap (extends_preceded (htg _) (extends_pand (extends_pmap (extends_popt (extends_of_ctxPure ctxPure_parseLifetime))) hty)))
          (extends_por (extends_pmap (extends_preceded (htg _) hty))
          (extends_por (extends_pmap (extends_preceded (htg _) hty))
          (extends_por (extends_pmap (extends_preceded (htg _) hfn))
               (extends_pmap (extends_preceded (htg _) (extends_pand hdynB (extends_of_ctxPure ctxPure_parseLifetime)))))))))))))))
        (extends_pmapOptCtx hbr))
      (fun inp v c => ext_insertType c inp.index v)
  · exact extends_pmap (extends_pand (extends_pand (extends_pand (extends_pand
      (extends_of_ctxPure (ctxPure_optU64 ctxPure_parseBinder))
      (extends_pmap (extends_popt (htg _))))
      (extends_popt (extends_preceded (htg _) (extends_of_ctxPure ctxPure_parseAbi))))
      (extends_terminated (extends_pmany0 hty fuel) (htg _))) hty)
  · exact extends_pmap (extends_pand (extends_of_ctxPure (ctxPure_optU64 ctxPure_parseBinder))
      (extends_terminated (extends_pmany0 hdynT fuel) (htg _)))
  · exact extends_pmap (extends_pand hpath (extends_pmany0 hdynA fuel))
  · exact extends_pmap (extends_preceded (htg _)
      (extends_pand (extends_of_ctxPure ctxPure_parseUndisambiguatedIdentifier) hty))
  · exact extends_memo
      (extends_por
        (extends_pmapRc
          (extends_por (extends_pmap (extends_preceded (htg _) (extends_of_ctxPure ctxPure_parseConstInt)))
          (extends_por (extends_pmap (extends_preceded (htg _) (extends_of_ctxPure ctxPure_parseConstInt)))
          (extends_por (extends_pmap (extends_preceded (htg _) (extends_of_ctxPure ctxPure_parseConstInt)))
          (extends_por (extends_pmap (extends_preceded (htg _) (extends_of_ctxPure ctxPure_parseConstInt)))
          (extends_por (extends_pmap (extends_preceded (htg _) (extends_of_ctxPure ctxPure_parseConstInt)))
          (extends_por (extends_pmap (extends_preceded (htg _) (extends_of_ctxPure ctxPure_parseConstInt)))
          (extends_por (extends_pmap (extends_preceded (htg _) (extends_of_ctxPure ctxPure_parseConstInt)))
          (extends_por (extends_pmap (extends_preceded (htg _) (extends_of_ctxPure ctxPure_parseConstInt)))
          (extends_por (extends_pmap (extends_preceded (htg _) (extends_of_ctxPure ctxPure_parseConstInt)))
          (extends_por (extends_pmap (extends_preceded (htg _) (extends_of_ctxPure ctxPure_parseConstInt)))
          (extends_por (extends_pmap (extends_preceded (htg _) (extends_of_ctxPure ctxPure_parseConstInt)))
          (extends_por (extends_pmap (extends_preceded (htg _) (extends_of_ctxPure ctxPure_parseConstInt)))
          (extends_por (extends_preceded (htg _) (extends_pmapOpt (extends_of_ctxPure ctxPure_parseConstInt)))
          (extends_por (extends_preceded (htg _) (extends_pmapOpt (extends_of_ctxPure ctxPure_parseConstInt)))
          (extends_por (extends_pmap (extends_preceded (htg _) (extends_of_ctxPure ctxPure_parseConstStr)))
          (extends_por (extends_pmap (extends_preceded (htg _) hconst))
          (extends_por (extends_pmap (extends_preceded (htg _) hconst))
          (extends_por (extends_pmap (extends_delimited (htg _) (extends_pmany0 hconst fuel) (htg _)))
          (extends_por (extends_pmap (extends_delimited (htg _) (extends_pmany0 hconst fuel) (htg _)))
          (extends_por (extends_pmap (extends_preceded (htg _) (extends_pand hpath hcf)))
               (extends_pmap (htg _)))))))))))))))))))))))
        (extends_pmapOptCtx hbr))
      (fun inp v c => ext_insertConst c inp.index v)
  · exact extends_por (extends_pmap (htg _))
      (extends_por (extends_pmap (extends_delimited (htg _) (extends_pmany0 hconst fuel) (htg _)))
        (extends_pmap (extends_delimited (htg _) (extends_pmany0 (extends_pand hid hconst) fuel) (htg _))))

theorem extGrammar_grammar (pd : PunyDecode) : ∀ fuel, ExtGrammar (grammar pd fuel)
  | 0 => extGrammar_failGrammar
  | fuel + 1 => extGrammar_mkGrammar pd (grammar pd fuel) fuel (extGrammar_grammar pd fuel)

theorem extends_parseSymbolInner (pd : PunyDecode) (fuel : Nat) :
    Extends (parseSymbolInner pd fuel) :=
  extends_pmap (extends_pand
    (extends_pand (extends_popt (extends_of_ctxPure ctxPure_parseDecimalNumber))
      (extGrammar_grammar pd fuel).1)
    (extends_popt (extGrammar_grammar pd fuel).1))

/-! ### resolution: a successful back-reference returns the table entry -/

theorem pathBackRef_resolves {inp : IndexedStr} {ctx : Ctx} {v : RcPath}
    {rest : IndexedStr} (h : (pathBackRef inp ctx).1 = some (v, rest)) :
    ∃ k, (parseBackRef inp ctx).1 = some (k, rest) ∧
      ctx.paths.lookup k = some v := by
  rcases hb : parseBackRef inp ctx with ⟨o, c⟩
  have hc : c = ctx := by
    have h3 := ctxPure_parseBackRef inp ctx
    rw [hb] at h3
    exact h3
  subst hc
  rcases o with _ | ⟨k, r⟩
  · rw [show pathBackRef inp c = (none, c) from pmapOptCtx_none hb] at h
    exact absurd h (by simp)
  · rw [show pathBackRef inp c = _ from pmapOptCtx_eval_succ hb] at h
    rcases hl : c.paths.lookup k with _ | w
    · rw [hl] at h
      exact absurd h (by simp)
    · rw [hl] at h
      simp only [Option.some.injEq, Prod.mk.injEq] at h
      exact ⟨k, by simp [h.2], by simp [hl, h.1]⟩

theorem tyBackRef_resolves {inp : IndexedStr} {ctx : Ctx} {v : RcType}
    {rest : IndexedStr} (h : (tyBackRef inp ctx).1 = some (v, rest)) :
    ∃ k, (parseBackRef inp ctx).1 = some (k, rest) ∧
      ctx.types.lookup k = some v := by
  rcases hb : parseBackRef inp ctx with ⟨o, c⟩
  have hc : c = ctx := by
    have h3 := ctxPure_parseBackRef inp ctx
    rw [hb] at h3
    exact h3
  subst hc
  rcases o with _ | ⟨k, r⟩
  · rw [show tyBackRef inp c = (none, c) from pmapOptCtx_none hb] at h
    exact absurd h (by simp)
  · rw [show tyBackRef inp c = _ from pmapOptCtx_eval_succ hb] at h
    rcases hl : c.types.lookup k with _ | w
    · rw [hl] at h
      exact absurd h (by simp)
    · rw [hl] at h
      simp only [Option.some.injEq, Prod.mk.injEq] at h
      exact ⟨k, by simp [h.2], by simp [hl, h.1]⟩

theorem constBackRef_resolves {inp : IndexedStr} {ctx : Ctx} {v : RcConst}
    {rest : IndexedStr} (h : (constBackRef inp ctx).1 = some (v, rest)) :
    ∃ k, (parseBackRef inp ctx).1 = some (k, rest) ∧
      ctx.consts.lookup k = some v := by
  rcases hb : parseBackRef inp ctx with ⟨o, c⟩
  have hc : c = ctx := by
    have h3 := ctxPure_parseBackRef inp ctx
    rw [hb] at h3
    exact h3
  subst hc
  rcases o with _ | ⟨k, r⟩
  · rw [show constBackRef inp c = (none, c) from pmapOptCtx_none hb] at h
    exact absurd h (by simp)
  · rw [show constBackRef inp c = _ from pmapOptCtx_eval_succ hb] at h
    rcases hl : c.consts.lookup k with _ | w
    · rw [hl] at h
      exact absurd h (by simp)
    · rw [hl] at h
      simp only [Option.some.injEq, Prod.mk.injEq] at h
      exact ⟨k, by simp [h.2], by simp [hl, h.1]⟩

/-! ### dirty-failure analysis: a failure that mutated the tables reveals
itself in the head byte -/

theorem cleanOn_nil {α : Type} (p : P α) : CleanOn p [] := by
  intro inp ctx c _ hc
  simp at hc

theorem cleanOn_mono {α : Type} {p : P α} {hs hs' : List Char}
    (hsub : ∀ c ∈ hs', c ∈ hs) (h : CleanOn p hs) : CleanOn p hs' :=
  fun inp ctx c hc hm => h inp ctx c hc (hsub c hm)

theorem dirtyOn_of_ctxPure {α : Type} {p : P α} (hp : CtxPure p)
    (hs : List Char) : DirtyOn p hs := by
  intro inp ctx ctx' h
  left
  have h3 := hp inp ctx
  rw [h] at h3
  exact h3

theorem dirtyOn_mono {α : Type} {p : P α} {hs hs' : List Char}
    (hsub : ∀ c ∈ hs, c ∈ hs') (h : DirtyOn p hs) : DirtyOn p hs' := by
  intro inp ctx ctx' hf
  rcases h inp ctx ctx' hf with hc | ⟨c, hc, hm⟩
  · exact Or.inl hc
  · exact Or.inr ⟨c, hc, hsub c hm⟩

theorem dirtyOn_pmap {α β : Type} {p : P α} {f : α → β} {hs : List Char}
    (hp : DirtyOn p hs) : DirtyOn (pmap p f) hs := by
  intro inp ctx ctx' h
  rcases h1 : p inp ctx with ⟨o, c⟩
  rcases o with _ | ⟨v, rest⟩
  · rw [pmap_none h1] at h
    have hc : c = ctx' := congrArg Prod.snd h
    exact hc ▸ hp inp ctx c h1
  · rw [pmap_eval_succ h1] at h
    exact absurd (congrArg Prod.fst h) (by simp)

theorem dirtyOn_pmapRc {α β : Type} {mk : Nat → α → β} {p : P α}
    {hs : List Char} (hp : DirtyOn p hs) : DirtyOn (pmapRc mk p) hs := by
  intro inp ctx ctx' h
  rcases h1 : p inp ctx with ⟨o, c⟩
  rcases o with _ | ⟨v, rest⟩
  · rw [pmapRc_none h1] at h
    have hc : c = ctx' := congrArg Prod.snd h
    exact hc ▸ hp inp ctx c h1
  · rw [pmapRc_eval_succ h1] at h
    exact absurd (congrArg Prod.fst h) (by simp)

theorem dirtyOn_preceded_tag1 {α : Type} (c : Char) (body : P α) :
    DirtyOn (preceded (tag [c]) body) [c] := by
  intro inp ctx ctx' h
  obtain ⟨i, l⟩ := inp
  cases l with
  | nil =>
    rw [preceded_none_left (tag1_nil c i ctx)] at h
    exact Or.inl (congrArg Prod.snd h).symm
  | cons d tl =>
    by_cases hdc : c = d
    · subst hdc
      exact Or.inr ⟨c, rfl, by simp⟩
    · rw [preceded_none_left (tag1_cons_neg hdc i tl ctx)] at h
      exact Or.inl (congrArg Prod.snd h).symm

theorem dirtyOn_por {α : Type} {p q : P α} {hsp hsq : List Char}
    (hp : DirtyOn p hsp) (hq : DirtyOn q hsq) (hqc : CleanOn q hsp) :
    DirtyOn (por p q) (hsp ++ hsq) := by
  intro inp ctx ctx' h
  rcases h1 : p inp ctx with ⟨o, c⟩
  rcases o with _ | r
  · rw [por_none h1] at h
    rcases hp inp ctx c h1 with hc | ⟨ch, hch, hm⟩
    · rw [hc] at h
      rcases hq inp ctx ctx' h with hc2 | ⟨ch, hch, hm⟩
      · exact Or.inl hc2
      · exact Or.inr ⟨ch, hch, List.mem_append_right _ hm⟩
    · rw [hqc inp c ch hch hm] at h
      have hc : c = ctx' := congrArg Prod.snd h
      exact Or.inr ⟨ch, hch, List.mem_append_left _ hm⟩
  · rw [por_eval_succ h1] at h
    exact absurd (congrArg Prod.fst h) (by simp)

/-- a sequence whose first component is pure and clean-fails outside `S`
dirty-fails only on `S`-headed inputs. -/
theorem dirtyOn_pand_pure_left {α β : Type} {p : P α} {q : P β} {S : List Char}
    (hpure : CtxPure p)
    (hpf : ∀ (i : Nat) (l : List Char) (ctx2 : Ctx), HeadNotIn S l →
      p ⟨i, l⟩ ctx2 = (none, ctx2)) :
    DirtyOn (pand p q) S := by
  intro inp ctx ctx' h
  rcases h1 : p inp ctx with ⟨o, c⟩
  have hc : c = ctx := by
    have h3 := hpure inp ctx
    rw [h1] at h3
    exact h3
  subst hc
  rcases o with _ | ⟨v, rest⟩
  · rw [pand_none_left h1] at h
    exact Or.inl (congrArg Prod.snd h).symm
  · right
    by_cases hH : HeadNotIn S inp.data
    · obtain ⟨i, l⟩ := inp
      rw [hpf i l c hH] at h1
      exact absurd (congrArg Prod.fst h1) (by simp)
    · unfold HeadNotIn at hH
      push_neg at hH
      obtain ⟨ch, hch, hm⟩ := hH
      exact ⟨ch, hch, hm⟩

/-- a sequence whose second component never fails dirty-fails exactly where
its first component does. -/
theorem dirtyOn_pand_total_right {α β : Type} {p : P α} {q : P β}
    {hs : List Char} (hp : DirtyOn p hs)
    (hq : ∀ inp ctx, (q inp ctx).1 ≠ none) : DirtyOn (pand p q) hs := by
  intro inp ctx ctx' h
  rcases h1 : p inp ctx with ⟨o, c⟩
  rcases o with _ | ⟨v, rest⟩
  · rw [pand_none_left h1] at h
    have hc : c = ctx' := congrArg Prod.snd h
    exact hc ▸ hp inp ctx c h1
  · rw [pand_eval_succ h1] at h
    rcases h2 : q rest c with ⟨o2, c2⟩
    rcases o2 with _ | ⟨w, rest2⟩
    · exact absurd (by rw [h2]) (hq rest c)
    · rw [h2] at h
      exact absurd (congrArg Prod.fst h) (by simp)

/-- failure of a memoizing production passes the inner failure through. -/
theorem dirtyOn_memo {α : Type} {p : P α} {ins : IndexedStr → α → Ctx → Ctx}
    {hs : List Char} (hp : DirtyOn p hs) :
    DirtyOn (fun inp ctx => pinspectCtx p (fun v c => ins inp v c) inp ctx) hs := by
  intro inp ctx ctx' h
  simp only at h
  rcases h1 : p inp ctx with ⟨o, c⟩
  rcases o with _ | ⟨v, rest⟩
  · rw [pinspectCtx_none h1] at h
    have hc : c = ctx' := congrArg Prod.snd h
    exact hc ▸ hp inp ctx c h1
  · rw [pinspectCtx_eval_succ h1] at h
    exact absurd (congrArg Prod.fst h) (by simp)

/-! ### clean-failure lemmas for branch heads -/

theorem cleanOn_por {α : Type} {p q : P α} {hs : List Char} (h1 : CleanOn p hs)
    (h2 : CleanOn q hs) : CleanOn (por p q) hs := by
  intro inp ctx c hc hm
  rw [por_none (h1 inp ctx c hc hm)]
  exact h2 inp ctx c hc hm

theorem cleanOn_pmap {α β : Type} {p : P α} {f : α → β} {hs : List Char}
    (h : CleanOn p hs) : CleanOn (pmap p f) hs :=
  fun inp ctx c hc hm => pmap_none (h inp ctx c hc hm)

theorem cleanOn_pmapOptCtx {α β : Type} {p : P α} {f : α → Ctx → Option β}
    {hs : List Char} (h : CleanOn p hs) : CleanOn (pmapOptCtx p f) hs :=
  fun inp ctx c hc hm => pmapOptCtx_none (h inp ctx c hc hm)

theorem cleanOn_pmapRc {α β : Type} {mk : Nat → α → β} {p : P α}
    {hs : List Char} (h : CleanOn p hs) : CleanOn (pmapRc mk p) hs :=
  fun inp ctx c hc hm => pmapRc_none (h inp ctx c hc hm)

theorem cleanOn_pand_left {α β : Type} {p : P α} {q : P β} {hs : List Char}
    (h : CleanOn p hs) : CleanOn (pand p q) hs :=
  fun inp ctx c hc hm => pand_none_left (h inp ctx c hc hm)

theorem cleanOn_tag1 {c : Char} {hs : List Char} (hc : c ∉ hs) :
    CleanOn (tag [c]) hs := by
  intro inp ctx ch hch hm
  obtain ⟨i, l⟩ := inp
  refine tag1_fail ?_ i ctx
  intro hh
  rw [hch] at hh
  have : ch = c := by injection hh
  exact hc (this ▸ hm)

theorem cleanOn_preceded_tag1 {α : Type} {c : Char} {body : P α}
    {hs : List Char} (hc : c ∉ hs) : CleanOn (preceded (tag [c]) body) hs :=
  fun inp ctx ch hch hm => preceded_none_left (cleanOn_tag1 hc inp ctx ch hch hm)

theorem cleanOn_backRefShape {β : Type} {f : Nat → Ctx → Option β}
    {hs : List Char} (hB : 'B' ∉ hs) :
    CleanOn (pmapOptCtx parseBackRef f) hs :=
  cleanOn_pmapOptCtx
    (fun inp ctx ch hch hm => preceded_none_left
      (cleanOn_tag1 hB inp ctx ch hch hm))

theorem cleanOn_pfail {α : Type} (hs : List Char) : CleanOn (pfail (α := α)) hs :=
  fun _ _ _ _ _ => rfl

theorem cleanOn_grammar_path (pd : PunyDecode) (fuel : Nat) {hs : List Char}
    (hdisj : ∀ c ∈ hs, c ∉ pathHeads) : CleanOn (grammar pd fuel).path hs := by
  intro inp ctx ch hch hm
  obtain ⟨i, l⟩ := inp
  refine path_clean_fail pd fuel i l ctx ?_
  intro c' hc'
  rw [hch] at hc'
  have : c' = ch := by injection hc' with h2; exact h2.symm
  exact this ▸ hdisj ch hm

theorem cleanOn_grammar_ty (pd : PunyDecode) (fuel : Nat) {hs : List Char}
    (hdisj : ∀ c ∈ hs, c ∉ tyHeads) : CleanOn (grammar pd fuel).ty hs := by
  intro inp ctx ch hch hm
  obtain ⟨i, l⟩ := inp
  refine ty_clean_fail pd fuel i l ctx ?_
  intro c' hc'
  rw [hch] at hc'
  have : c' = ch := by injection hc' with h2; exact h2.symm
  exact this ▸ hdisj ch hm

theorem cleanOn_grammar_const (pd : PunyDecode) (fuel : Nat) {hs : List Char}
    (hdisj : ∀ c ∈ hs, c ∉ constHeads) : CleanOn (grammar pd fuel).const hs := by
  intro inp ctx ch hch hm
  obtain ⟨i, l⟩ := inp
  refine const_clean_fail pd fuel i l ctx ?_
  intro c' hc'
  rw [hch] at hc'
  have : c' = ch := by injection hc' with h2; exact h2.symm
  exact this ▸ hdisj ch hm

theorem cleanOn_grammar_dynTrait (pd : PunyDecode) (fuel : Nat) {hs : List Char}
    (hdisj : ∀ c ∈ hs, c ∉ pathHeads) : CleanOn (grammar pd fuel).dynTrait hs := by
  cases fuel with
  | zero => exact cleanOn_pfail hs
  | succ fuel =>
    exact cleanOn_pmap (cleanOn_pand_left (cleanOn_grammar_path pd fuel hdisj))

/-! ### identifier heads -/

theorem pflatMap_none {α β : Type} {p : P α} {f : α → P β} {inp : IndexedStr}
    {ctx c2 : Ctx} (h : p inp ctx = (none, c2)) :
    pflatMap p f inp ctx = (none, c2) := by
  unfold pflatMap
  rw [h]

theorem digit1_fail {i : Nat} {l : List Char} (ctx : Ctx)
    (h : ∀ c, l.head? = some c → isAsciiDigit c = false) :
    digit1 ⟨i, l⟩ ctx = (none, ctx) := by
  unfold digit1 takeWhileP
  cases l with
  | nil => simp
  | cons d tl =>
    have hd : isAsciiDigit d = false := h d rfl
    simp [List.takeWhile_cons, hd]

theorem parseDecimalNumber_fail {max i : Nat} {l : List Char} (ctx : Ctx)
    (h : ∀ c, l.head? = some c → isAsciiDigit c = false) :
    parseDecimalNumber max ⟨i, l⟩ ctx = (none, ctx) := by
  unfold parseDecimalNumber
  refine pmapOpt_none ?_
  refine Eq.trans (por_none (tag1_fail ?_ i ctx)) (digit1_fail ctx h)
  intro hh
  have h2 := h '0' hh
  exact absurd h2 (by decide)

/-- a decimal digit is one of the ten listed bytes. -/
theorem mem_pairDirty_of_digit {c : Char} (h : isAsciiDigit c = true) :
    c ∈ pairDirty := by
  have h1 : 48 ≤ c.toNat ∧ c.toNat ≤ 57 := by
    unfold isAsciiDigit at h
    simp only [Bool.and_eq_true, decide_eq_true_eq] at h
    exact ⟨h.1, h.2⟩
  have hof := Char.ofNat_toNat c
  obtain ⟨h1a, h1b⟩ := h1
  have hcases : c.toNat = 48 ∨ c.toNat = 49 ∨ c.toNat = 50 ∨ c.toNat = 51 ∨
      c.toNat = 52 ∨ c.toNat = 53 ∨ c.toNat = 54 ∨ c.toNat = 55 ∨
      c.toNat = 56 ∨ c.toNat = 57 := by omega
  rcases hcases with h2 | h2 | h2 | h2 | h2 | h2 | h2 | h2 | h2 | h2 <;>
    (rw [h2] at hof; rw [← hof]; decide)

/-- the identifier production starts with a disambiguator (`s`), a punycode
flag (`u`) or a decimal length; on every other head byte it fails cleanly. -/
theorem parseIdentifier_clean_fail (pd : PunyDecode) (i : Nat) (l : List Char)
    (ctx : Ctx) (h : HeadNotIn pairDirty l) :
    parseIdentifier pd ⟨i, l⟩ ctx = (none, ctx) := by
  have hdig : ∀ c, l.head? = some c → isAsciiDigit c = false := by
    intro c hc
    by_cases hd : isAsciiDigit c
    · exact absurd (mem_pairDirty_of_digit hd) (h c hc)
    · simpa using hd
  have hdis : parseDisambiguator ⟨i, l⟩ ctx = (none, ctx) :=
    preceded_none_left (tag1_fail (fun hh => h 's' hh (by decide)) i ctx)
  have hopt : optU64 parseDisambiguator ⟨i, l⟩ ctx = (some (0, ⟨i, l⟩), ctx) := by
    unfold optU64
    rw [pmapOpt_eval_succ (popt_eval_fail hdis)]
  have hu : popt (tag ['u']) ⟨i, l⟩ ctx = (some (none, ⟨i, l⟩), ctx) :=
    popt_eval_fail (tag1_fail (fun hh => h 'u' hh (by decide)) i ctx)
  have hund : parseUndisambiguatedIdentifier pd ⟨i, l⟩ ctx = (none, ctx) := by
    unfold parseUndisambiguatedIdentifier
    refine pflatMap_none ?_
    refine pand_none_left ?_
    rw [pand_eval_succ hu, parseDecimalNumber_fail ctx hdig]
  unfold parseIdentifier
  refine pmap_none ?_
  rw [pand_eval_succ hopt, hund]

/-! ### dirty sets of the grammar productions -/

theorem cleanOn_pathBackRef {hs : List Char} (hB : 'B' ∉ hs) :
    CleanOn pathBackRef hs := cleanOn_backRefShape hB

theorem cleanOn_tyBackRef {hs : List Char} (hB : 'B' ∉ hs) :
    CleanOn tyBackRef hs := cleanOn_backRefShape hB

theorem cleanOn_constBackRef {hs : List Char} (hB : 'B' ∉ hs) :
    CleanOn constBackRef hs := cleanOn_backRefShape hB

theorem dirtyOn_delimited_tag1 {α β : Type} (c : Char) (body : P α) (r : P β) :
    DirtyOn (delimited (tag [c]) body r) [c] :=
  dirtyOn_preceded_tag1 c (terminated body r)

theorem cleanOn_delimited_tag1 {α β : Type} {c : Char} {body : P α} {r : P β}
    {hs : List Char} (hc : c ∉ hs) : CleanOn (delimited (tag [c]) body r) hs :=
  cleanOn_preceded_tag1 hc

theorem dirtyOn_pathAlt (pd : PunyDecode) (fuel : Nat) :
    DirtyOn (pathAlt pd (grammar pd fuel) fuel) (['C'] ++ (['M'] ++ (['X'] ++ (['Y'] ++ (['N'] ++ ['I']))))) :=
  (dirtyOn_por (dirtyOn_pmap (dirtyOn_preceded_tag1 'C' _)) (dirtyOn_por (dirtyOn_pmap (dirtyOn_preceded_tag1 'M' _)) (dirtyOn_por (dirtyOn_pmap (dirtyOn_preceded_tag1 'X' _)) (dirtyOn_por (dirtyOn_pmap (dirtyOn_preceded_tag1 'Y' _)) (dirtyOn_por (dirtyOn_pmap (dirtyOn_preceded_tag1 'N' _)) (dirtyOn_pmap (dirtyOn_preceded_tag1 'I' _)) (cleanOn_pmap (cleanOn_preceded_tag1 (by decide)))) (cleanOn_por (cleanOn_pmap (cleanOn_preceded_tag1 (by decide))) (cleanOn_pmap (cleanOn_preceded_tag1 (by decide))))) (cleanOn_por (cleanOn_pmap (cleanOn_preceded_tag1 (by decide))) (cleanOn_por (cleanOn_pmap (cleanOn_preceded_tag1 (by decide))) (cleanOn_pmap (cleanOn_preceded_tag1 (by decide)))))) (cleanOn_por (cleanOn_pmap (cleanOn_preceded_tag1 (by decide))) (cleanOn_por (cleanOn_pmap (cleanOn_preceded_tag1 (by decide))) (cleanOn_por (cleanOn_pmap (cleanOn_preceded_tag1 (by decide))) (cleanOn_pmap (cleanOn_preceded_tag1 (by decide))))))) (cleanOn_por (cleanOn_pmap (cleanOn_preceded_tag1 (by decide))) (cleanOn_por (cleanOn_pmap (cleanOn_preceded_tag1 (by decide))) (cleanOn_por (cleanOn_pmap (cleanOn_preceded_tag1 (by decide))) (cleanOn_por (cleanOn_pmap (cleanOn_preceded_tag1 (by decide))) (cleanOn_pmap (cleanOn_preceded_tag1 (by decide))))))))

theorem dirtyOn_grammar_path (pd : PunyDecode) :
    ∀ fuel, DirtyOn (grammar pd fuel).path pathDirty := by
  intro fuel
  cases fuel with
  | zero => exact dirtyOn_of_ctxPure ctxPure_pfail pathDirty
  | succ fuel =>
    rw [path_unfold pd fuel]
    have halt := dirtyOn_pathAlt pd fuel
    refine dirtyOn_memo (dirtyOn_mono (by decide) (dirtyOn_por (dirtyOn_pmapRc halt)
      (dirtyOn_of_ctxPure ctxPure_pathBackRef []) (cleanOn_pathBackRef (by decide))))
theorem dirtyOn_tyAlt (pd : PunyDecode) (fuel : Nat) :
    DirtyOn (tyAlt pd (grammar pd fuel) fuel) ([] ++ (pathDirty ++ (['A'] ++ (['S'] ++ (['T'] ++ (['R'] ++ (['Q'] ++ (['P'] ++ (['O'] ++ (['F'] ++ ['D'])))))))))) :=
  (dirtyOn_por (dirtyOn_of_ctxPure (ctxPure_pmap ctxPure_parseBasicType) []) (dirtyOn_por (dirtyOn_pmap (dirtyOn_grammar_path pd fuel)) (dirtyOn_por (dirtyOn_pmap (dirtyOn_preceded_tag1 'A' _)) (dirtyOn_por (dirtyOn_pmap (dirtyOn_preceded_tag1 'S' _)) (dirtyOn_por (dirtyOn_pmap (dirtyOn_preceded_tag1 'T' _)) (dirtyOn_por (dirtyOn_pmap (dirtyOn_preceded_tag1 'R' _)) (dirtyOn_por (dirtyOn_pmap (dirtyOn_preceded_tag1 'Q' _)) (dirtyOn_por (dirtyOn_pmap (dirtyOn_preceded_tag1 'P' _)) (dirtyOn_por (dirtyOn_pmap (dirtyOn_preceded_tag1 'O' _)) (dirtyOn_por (dirtyOn_pmap (dirtyOn_preceded_tag1 'F' _)) (dirtyOn_pmap (dirtyOn_preceded_tag1 'D' _)) (cleanOn_pmap (cleanOn_preceded_tag1 (by decide)))) (cleanOn_por (cleanOn_pmap (cleanOn_preceded_tag1 (by decide))) (cleanOn_pmap (cleanOn_preceded_tag1 (by decide))))) (cleanOn_por (cleanOn_pmap (cleanOn_preceded_tag1 (by decide))) (cleanOn_por (cleanOn_pmap (cleanOn_preceded_tag1 (by decide))) (cleanOn_pmap (cleanOn_preceded_tag1 (by decide)))))) (cleanOn_por (cleanOn_pmap (cleanOn_preceded_tag1 (by decide))) (cleanOn_por (cleanOn_pmap (cleanOn_preceded_tag1 (by decide))) (cleanOn_por (cleanOn_pmap (cleanOn_preceded_tag1 (by decide))) (cleanOn_pmap (cleanOn_preceded_tag1 (by decide))))))) (cleanOn_por (cleanOn_pmap (cleanOn_preceded_tag1 (by decide))) (cleanOn_por (cleanOn_pmap (cleanOn_preceded_tag1 (by decide))) (cleanOn_por (cleanOn_pmap (cleanOn_preceded_tag1 (by decide))) (cleanOn_por (cleanOn_pmap (cleanOn_preceded_tag1 (by decide))) (cleanOn_pmap (cleanOn_preceded_tag1 (by decide)))))))) (cleanOn_por (cleanOn_pmap (cleanOn_preceded_tag1 (by decide))) (cleanOn_por (cleanOn_pmap (cleanOn_preceded_tag1 (by decide))) (cleanOn_por (cleanOn_pmap (cleanOn_preceded_tag1 (by decide))) (cleanOn_por (cleanOn_pmap (cleanOn_preceded_tag1 (by decide))) (cleanOn_por (cleanOn_pmap (cleanOn_preceded_tag1 (by decide))) (cleanOn_pmap (cleanOn_preceded_tag1 (by decide))))))))) (cleanOn_por (cleanOn_pmap (cleanOn_preceded_tag1 (by decide))) (cleanOn_por (cleanOn_pmap (cleanOn_preceded_tag1 (by decide))) (cleanOn_por (cleanOn_pmap (cleanOn_preceded_tag1 (by decide))) (cleanOn_por (cleanOn_pmap (cleanOn_preceded_tag1 (by decide))) (cleanOn_por (cleanOn_pmap (cleanOn_preceded_tag1 (by decide))) (cleanOn_por (cleanOn_pmap (cleanOn_preceded_tag1 (by decide))) (cleanOn_pmap (cleanOn_preceded_tag1 (by decide)))))))))) (cleanOn_por (cleanOn_pmap (cleanOn_preceded_tag1 (by decide))) (cleanOn_por (cleanOn_pmap (cleanOn_preceded_tag1 (by decide))) (cleanOn_por (cleanOn_pmap (cleanOn_preceded_tag1 (by decide))) (cleanOn_por (cleanOn_pmap (cleanOn_preceded_tag1 (by decide))) (cleanOn_por (cleanOn_pmap (cleanOn_preceded_tag1 (by decide))) (cleanOn_por (cleanOn_pmap (cleanOn_preceded_tag1 (by decide))) (cleanOn_por (cleanOn_pmap (cleanOn_preceded_tag1 (by decide))) (cleanOn_pmap (cleanOn_preceded_tag1 (by decide))))))))))) (cleanOn_por (cleanOn_pmap (cleanOn_preceded_tag1 (by decide))) (cleanOn_por (cleanOn_pmap (cleanOn_preceded_tag1 (by decide))) (cleanOn_por (cleanOn_pmap (cleanOn_preceded_tag1 (by decide))) (cleanOn_por (cleanOn_pmap (cleanOn_preceded_tag1 (by decide))) (cleanOn_por (cleanOn_pmap (cleanOn_preceded_tag1 (by decide))) (cleanOn_por (cleanOn_pmap (cleanOn_preceded_tag1 (by decide))) (cleanOn_por (cleanOn_pmap (cleanOn_preceded_tag1 (by decide))) (cleanOn_por (cleanOn_pmap (cleanOn_preceded_tag1 (by decide))) (cleanOn_pmap (cleanOn_preceded_tag1 (by decide)))))))))))) (cleanOn_nil _))

theorem dirtyOn_grammar_ty (pd : PunyDecode) :
    ∀ fuel, DirtyOn (grammar pd fuel).ty tyDirty := by
  intro fuel
  cases fuel with
  | zero => exact dirtyOn_of_ctxPure ctxPure_pfail tyDirty
  | succ fuel =>
    rw [ty_unfold pd fuel]
    have halt := dirtyOn_tyAlt pd fuel
    refine dirtyOn_memo (dirtyOn_mono (by decide) (dirtyOn_por (dirtyOn_pmapRc halt)
      (dirtyOn_of_ctxPure ctxPure_tyBackRef []) (cleanOn_tyBackRef (by decide))))
theorem dirtyOn_constAlt (pd : PunyDecode) (fuel : Nat) :
    DirtyOn (constAlt pd (grammar pd fuel) fuel) (['a'] ++ (['h'] ++ (['i'] ++ (['j'] ++ (['l'] ++ (['m'] ++ (['n'] ++ (['o'] ++ (['s'] ++ (['t'] ++ (['x'] ++ (['y'] ++ (['b'] ++ (['c'] ++ (['e'] ++ (['R'] ++ (['Q'] ++ (['A'] ++ (['T'] ++ (['V'] ++ [])))))))))))))))))))) :=
  (dirtyOn_por (dirtyOn_pmap (dirtyOn_preceded_tag1 'a' _)) (dirtyOn_por (dirtyOn_pmap (dirtyOn_preceded_tag1 'h' _)) (dirtyOn_por (dirtyOn_pmap (dirtyOn_preceded_tag1 'i' _)) (dirtyOn_por (dirtyOn_pmap (dirtyOn_preceded_tag1 'j' _)) (dirtyOn_por (dirtyOn_pmap (dirtyOn_preceded_tag1 'l' _)) (dirtyOn_por (dirtyOn_pmap (dirtyOn_preceded_tag1 'm' _)) (dirtyOn_por (dirtyOn_pmap (dirtyOn_preceded_tag1 'n' _)) (dirtyOn_por (dirtyOn_pmap (dirtyOn_preceded_tag1 'o' _)) (dirtyOn_por (dirtyOn_pmap (dirtyOn_preceded_tag1 's' _)) (dirtyOn_por (dirtyOn_pmap (dirtyOn_preceded_tag1 't' _)) (dirtyOn_por (dirtyOn_pmap (dirtyOn_preceded_tag1 'x' _)) (dirtyOn_por (dirtyOn_pmap (dirtyOn_preceded_tag1 'y' _)) (dirtyOn_por (dirtyOn_preceded_tag1 'b' _) (dirtyOn_por (dirtyOn_preceded_tag1 'c' _) (dirtyOn_por (dirtyOn_pmap (dirtyOn_preceded_tag1 'e' _)) (dirtyOn_por (dirtyOn_pmap (dirtyOn_preceded_tag1 'R' _)) (dirtyOn_por (dirtyOn_pmap (dirtyOn_preceded_tag1 'Q' _)) (dirtyOn_por (dirtyOn_pmap (dirtyOn_preceded_tag1 'A' _)) (dirtyOn_por (dirtyOn_pmap (dirtyOn_preceded_tag1 'T' _)) (dirtyOn_por (dirtyOn_pmap (dirtyOn_preceded_tag1 'V' _)) (dirtyOn_of_ctxPure (ctxPure_pmap ctxPure_tag) []) (cleanOn_pmap (cleanOn_tag1 (by decide)))) (cleanOn_por (cleanOn_pmap (cleanOn_preceded_tag1 (by decide))) (cleanOn_pmap (cleanOn_tag1 (by decide))))) (cleanOn_por (cleanOn_pmap (cleanOn_preceded_tag1 (by decide))) (cleanOn_por (cleanOn_pmap (cleanOn_preceded_tag1 (by decide))) (cleanOn_pmap (cleanOn_tag1 (by decide)))))) (cleanOn_por (cleanOn_pmap (cleanOn_preceded_tag1 (by decide))) (cleanOn_por (cleanOn_pmap (cleanOn_preceded_tag1 (by decide))) (cleanOn_por (cleanOn_pmap (cleanOn_preceded_tag1 (by decide))) (cleanOn_pmap (cleanOn_tag1 (by decide))))))) (cleanOn_por (cleanOn_pmap (cleanOn_preceded_tag1 (by decide))) (cleanOn_por (cleanOn_pmap (cleanOn_preceded_tag1 (by decide))) (cleanOn_por (cleanOn_pmap (cleanOn_preceded_tag1 (by decide))) (cleanOn_por (cleanOn_pmap (cleanOn_preceded_tag1 (by decide))) (cleanOn_pmap (cleanOn_tag1 (by decide)))))))) (cleanOn_por (cleanOn_pmap (cleanOn_preceded_tag1 (by decide))) (cleanOn_por (cleanOn_pmap (cleanOn_preceded_tag1 (by decide))) (cleanOn_por (cleanOn_pmap (cleanOn_preceded_tag1 (by decide))) (cleanOn_por (cleanOn_pmap (cleanOn_preceded_tag1 (by decide))) (cleanOn_por (cleanOn_pmap (cleanOn_preceded_tag1 (by decide))) (cleanOn_pmap (cleanOn_tag1 (by decide))))))))) (cleanOn_por (cleanOn_pmap (cleanOn_preceded_tag1 (by decide))) (cleanOn_por (cleanOn_pmap (cleanOn_preceded_tag1 (by decide))) (cleanOn_por (cleanOn_pmap (cleanOn_preceded_tag1 (by decide))) (cleanOn_por (cleanOn_pmap (cleanOn_preceded_tag1 (by decide))) (cleanOn_por (cleanOn_pmap (cleanOn_preceded_tag1 (by decide))) (cleanOn_por (cleanOn_pmap (cleanOn_preceded_tag1 (by decide))) (cleanOn_pmap (cleanOn_tag1 (by decide)))))))))) (cleanOn_por (cleanOn_preceded_tag1 (by decide)) (cleanOn_por (cleanOn_pmap (cleanOn_preceded_tag1 (by decide))) (cleanOn_por (cleanOn_pmap (cleanOn_preceded_tag1 (by decide))) (cleanOn_por (cleanOn_pmap (cleanOn_preceded_tag1 (by decide))) (cleanOn_por (cleanOn_pmap (cleanOn_preceded_tag1 (by decide))) (cleanOn_por (cleanOn_pmap (cleanOn_preceded_tag1 (by decide))) (cleanOn_por (cleanOn_pmap (cleanOn_preceded_tag1 (by decide))) (cleanOn_pmap (cleanOn_tag1 (by decide))))))))))) (cleanOn_por (cleanOn_preceded_tag1 (by decide)) (cleanOn_por (cleanOn_preceded_tag1 (by decide)) (cleanOn_por (cleanOn_pmap (cleanOn_preceded_tag1 (by decide))) (cleanOn_por (cleanOn_pmap (cleanOn_preceded_tag1 (by decide))) (cleanOn_por (cleanOn_pmap (cleanOn_preceded_tag1 (by decide))) (cleanOn_por (cleanOn_pmap (cleanOn_preceded_tag1 (by decide))) (cleanOn_por (cleanOn_pmap (cleanOn_preceded_tag1 (by decide))) (cleanOn_por (cleanOn_pmap (cleanOn_preceded_tag1 (by decide))) (cleanOn_pmap (cleanOn_tag1 (by decide)))))))))))) (cleanOn_por (cleanOn_pmap (cleanOn_preceded_tag1 (by decide))) (cleanOn_por (cleanOn_preceded_tag1 (by decide)) (cleanOn_por (cleanOn_preceded_tag1 (by decide)) (cleanOn_por (cleanOn_pmap (cleanOn_preceded_tag1 (by decide))) (cleanOn_por (cleanOn_pmap (cleanOn_preceded_tag1 (by decide))) (cleanOn_por (cleanOn_pmap (cleanOn_preceded_tag1 (by decide))) (cleanOn_por (cleanOn_pmap (cleanOn_preceded_tag1 (by decide))) (cleanOn_por (cleanOn_pmap (cleanOn_preceded_tag1 (by decide))) (cleanOn_por (cleanOn_pmap (cleanOn_preceded_tag1 (by decide))) (cleanOn_pmap (cleanOn_tag1 (by decide))))))))))))) (cleanOn_por (cleanOn_pmap (cleanOn_preceded_tag1 (by decide))) (cleanOn_por (cleanOn_pmap (cleanOn_preceded_tag1 (by decide))) (cleanOn_por (cleanOn_preceded_tag1 (by decide)) (cleanOn_por (cleanOn_preceded_tag1 (by decide)) (cleanOn_por (cleanOn_pmap (cleanOn_preceded_tag1 (by decide))) (cleanOn_por (cleanOn_pmap (cleanOn_preceded_tag1 (by decide))) (cleanOn_por (cleanOn_pmap (cleanOn_preceded_tag1 (by decide))) (cleanOn_por (cleanOn_pmap (cleanOn_preceded_tag1 (by decide))) (cleanOn_por (cleanOn_pmap (cleanOn_preceded_tag1 (by decide))) (cleanOn_por (cleanOn_pmap (cleanOn_preceded_tag1 (by decide))) (cleanOn_pmap (cleanOn_tag1 (by decide)))))))))))))) (cleanOn_por (cleanOn_pmap (cleanOn_preceded_tag1 (by decide))) (cleanOn_por (cleanOn_pmap (cleanOn_preceded_tag1 (by decide))) (cleanOn_por (cleanOn_pmap (cleanOn_preceded_tag1 (by decide))) (cleanOn_por (cleanOn_preceded_tag1 (by decide)) (cleanOn_por (cleanOn_preceded_tag1 (by decide)) (cleanOn_por (cleanOn_pmap (cleanOn_preceded_tag1 (by decide))) (cleanOn_por (cleanOn_pmap (cleanOn_preceded_tag1 (by decide))) (cleanOn_por (cleanOn_pmap (cleanOn_preceded_tag1 (by decide))) (cleanOn_por (cleanOn_pmap (cleanOn_preceded_tag1 (by decide))) (cleanOn_por (cleanOn_pmap (cleanOn_preceded_tag1 (by decide))) (cleanOn_por (cleanOn_pmap (cleanOn_preceded_tag1 (by decide))) (cleanOn_pmap (cleanOn_tag1 (by decide))))))))))))))) (cleanOn_por (cleanOn_pmap (cleanOn_preceded_tag1 (by decide))) (cleanOn_por (cleanOn_pmap (cleanOn_preceded_tag1 (by decide))) (cleanOn_por (cleanOn_pmap (cleanOn_preceded_tag1 (by decide))) (cleanOn_por (cleanOn_pmap (cleanOn_preceded_tag1 (by decide))) (cleanOn_por (cleanOn_preceded_tag1 (by decide)) (cleanOn_por (cleanOn_preceded_tag1 (by decide)) (cleanOn_por (cleanOn_pmap (cleanOn_preceded_tag1 (by decide))) (cleanOn_por (cleanOn_pmap (cleanOn_preceded_tag1 (by decide))) (cleanOn_por (cleanOn_pmap (cleanOn_preceded_tag1 (by decide))) (cleanOn_por (cleanOn_pmap (cleanOn_preceded_tag1 (by decide))) (cleanOn_por (cleanOn_pmap (cleanOn_preceded_tag1 (by decide))) (cleanOn_por (cleanOn_pmap (cleanOn_preceded_tag1 (by decide))) (cleanOn_pmap (cleanOn_tag1 (by decide)))))))))))))))) (cleanOn_por (cleanOn_pmap (cleanOn_preceded_tag1 (by decide))) (cleanOn_por (cleanOn_pmap (cleanOn_preceded_tag1 (by decide))) (cleanOn_por (cleanOn_pmap (cleanOn_preceded_tag1 (by decide))) (cleanOn_por (cleanOn_pmap (cleanOn_preceded_tag1 (by decide))) (cleanOn_por (cleanOn_pmap (cleanOn_preceded_tag1 (by decide))) (cleanOn_por (cleanOn_preceded_tag1 (by decide)) (cleanOn_por (cleanOn_preceded_tag1 (by decide)) (cleanOn_por (cleanOn_pmap (cleanOn_preceded_tag1 (by decide))) (cleanOn_por (cleanOn_pmap (cleanOn_preceded_tag1 (by decide))) (cleanOn_por (cleanOn_pmap (cleanOn_preceded_tag1 (by decide))) (cleanOn_por (cleanOn_pmap (cleanOn_preceded_tag1 (by decide))) (cleanOn_por (cleanOn_pmap (cleanOn_preceded_tag1 (by decide))) (cleanOn_por (cleanOn_pmap (cleanOn_preceded_tag1 (by decide))) (cleanOn_pmap (cleanOn_tag1 (by decide))))))))))))))))) (cleanOn_por (cleanOn_pmap (cleanOn_preceded_tag1 (by decide))) (cleanOn_por (cleanOn_pmap (cleanOn_preceded_tag1 (by decide))) (cleanOn_por (cleanOn_pmap (cleanOn_preceded_tag1 (by decide))) (cleanOn_por (cleanOn_pmap (cleanOn_preceded_tag1 (by decide))) (cleanOn_por (cleanOn_pmap (cleanOn_preceded_tag1 (by decide))) (cleanOn_por (cleanOn_pmap (cleanOn_preceded_tag1 (by decide))) (cleanOn_por (cleanOn_preceded_tag1 (by decide)) (cleanOn_por (cleanOn_preceded_tag1 (by decide)) (cleanOn_por (cleanOn_pmap (cleanOn_preceded_tag1 (by decide))) (cleanOn_por (cleanOn_pmap (cleanOn_preceded_tag1 (by decide))) (cleanOn_por (cleanOn_pmap (cleanOn_preceded_tag1 (by decide))) (cleanOn_por (cleanOn_pmap (cleanOn_preceded_tag1 (by decide))) (cleanOn_por (cleanOn_pmap (cleanOn_preceded_tag1 (by decide))) (cleanOn_por (cleanOn_pmap (cleanOn_preceded_tag1 (by decide))) (cleanOn_pmap (cleanOn_tag1 (by decide)))))))))))))))))) (cleanOn_por (cleanOn_pmap (cleanOn_preceded_tag1 (by decide))) (cleanOn_por (cleanOn_pmap (cleanOn_preceded_tag1 (by decide))) (cleanOn_por (cleanOn_pmap (cleanOn_preceded_tag1 (by decide))) (cleanOn_por (cleanOn_pmap (cleanOn_preceded_tag1 (by decide))) (cleanOn_por (cleanOn_pmap (cleanOn_preceded_tag1 (by decide))) (cleanOn_por (cleanOn_pmap (cleanOn_preceded_tag1 (by decide))) (cleanOn_por (cleanOn_pmap (cleanOn_preceded_tag1 (by decide))) (cleanOn_por (cleanOn_preceded_tag1 (by decide)) (cleanOn_por (cleanOn_preceded_tag1 (by decide)) (cleanOn_por (cleanOn_pmap (cleanOn_preceded_tag1 (by decide))) (cleanOn_por (cleanOn_pmap (cleanOn_preceded_tag1 (by decide))) (cleanOn_por (cleanOn_pmap (cleanOn_preceded_tag1 (by decide))) (cleanOn_por (cleanOn_pmap (cleanOn_preceded_tag1 (by decide))) (cleanOn_por (cleanOn_pmap (cleanOn_preceded_tag1 (by decide))) (cleanOn_por (cleanOn_pmap (cleanOn_preceded_tag1 (by decide))) (cleanOn_pmap (cleanOn_tag1 (by decide))))))))))))))))))) (cleanOn_por (cleanOn_pmap (cleanOn_preceded_tag1 (by decide))) (cleanOn_por (cleanOn_pmap (cleanOn_preceded_tag1 (by decide))) (cleanOn_por (cleanOn_pmap (cleanOn_preceded_tag1 (by decide))) (cleanOn_por (cleanOn_pmap (cleanOn_preceded_tag1 (by decide))) (cleanOn_por (cleanOn_pmap (cleanOn_preceded_tag1 (by decide))) (cleanOn_por (cleanOn_pmap (cleanOn_preceded_tag1 (by decide))) (cleanOn_por (cleanOn_pmap (cleanOn_preceded_tag1 (by decide))) (cleanOn_por (cleanOn_pmap (cleanOn_preceded_tag1 (by decide))) (cleanOn_por (cleanOn_preceded_tag1 (by decide)) (cleanOn_por (cleanOn_preceded_tag1 (by decide)) (cleanOn_por (cleanOn_pmap (cleanOn_preceded_tag1 (by decide))) (cleanOn_por (cleanOn_pmap (cleanOn_preceded_tag1 (by decide))) (cleanOn_por (cleanOn_pmap (cleanOn_preceded_tag1 (by decide))) (cleanOn_por (cleanOn_pmap (cleanOn_preceded_tag1 (by decide))) (cleanOn_por (cleanOn_pmap (cleanOn_preceded_tag1 (by decide))) (cleanOn_por (cleanOn_pmap (cleanOn_preceded_tag1 (by decide))) (cleanOn_pmap (cleanOn_tag1 (by decide)))))))))))))))))))) (cleanOn_por (cleanOn_pmap (cleanOn_preceded_tag1 (by decide))) (cleanOn_por (cleanOn_pmap (cleanOn_preceded_tag1 (by decide))) (cleanOn_por (cleanOn_pmap (cleanOn_preceded_tag1 (by decide))) (cleanOn_por (cleanOn_pmap (cleanOn_preceded_tag1 (by decide))) (cleanOn_por (cleanOn_pmap (cleanOn_preceded_tag1 (by decide))) (cleanOn_por (cleanOn_pmap (cleanOn_preceded_tag1 (by decide))) (cleanOn_por (cleanOn_pmap (cleanOn_preceded_tag1 (by decide))) (cleanOn_por (cleanOn_pmap (cleanOn_preceded_tag1 (by decide))) (cleanOn_por (cleanOn_pmap (cleanOn_preceded_tag1 (by decide))) (cleanOn_por (cleanOn_preceded_tag1 (by decide)) (cleanOn_por (cleanOn_preceded_tag1 (by decide)) (cleanOn_por (cleanOn_pmap (cleanOn_preceded_tag1 (by decide))) (cleanOn_por (cleanOn_pmap (cleanOn_preceded_tag1 (by decide))) (cleanOn_por (cleanOn_pmap (cleanOn_preceded_tag1 (by decide))) (cleanOn_por (cleanOn_pmap (cleanOn_preceded_tag1 (by decide))) (cleanOn_por (cleanOn_pmap (cleanOn_preceded_tag1 (by decide))) (cleanOn_por (cleanOn_pmap (cleanOn_preceded_tag1 (by decide))) (cleanOn_pmap (cleanOn_tag1 (by decide))))))))))))))))))))) (cleanOn_por (cleanOn_pmap (cleanOn_preceded_tag1 (by decide))) (cleanOn_por (cleanOn_pmap (cleanOn_preceded_tag1 (by decide))) (cleanOn_por (cleanOn_pmap (cleanOn_preceded_tag1 (by decide))) (cleanOn_por (cleanOn_pmap (cleanOn_preceded_tag1 (by decide))) (cleanOn_por (cleanOn_pmap (cleanOn_preceded_tag1 (by decide))) (cleanOn_por (cleanOn_pmap (cleanOn_preceded_tag1 (by decide))) (cleanOn_por (cleanOn_pmap (cleanOn_preceded_tag1 (by decide))) (cleanOn_por (cleanOn_pmap (cleanOn_preceded_tag1 (by decide))) (cleanOn_por (cleanOn_pmap (cleanOn_preceded_tag1 (by decide))) (cleanOn_por (cleanOn_pmap (cleanOn_preceded_tag1 (by decide))) (cleanOn_por (cleanOn_preceded_tag1 (by decide)) (cleanOn_por (cleanOn_preceded_tag1 (by decide)) (cleanOn_por (cleanOn_pmap (cleanOn_preceded_tag1 (by decide))) (cleanOn_por (cleanOn_pmap (cleanOn_preceded_tag1 (by decide))) (cleanOn_por (cleanOn_pmap (cleanOn_preceded_tag1 (by decide))) (cleanOn_por (cleanOn_pmap (cleanOn_preceded_tag1 (by decide))) (cleanOn_por (cleanOn_pmap (cleanOn_preceded_tag1 (by decide))) (cleanOn_por (cleanOn_pmap (cleanOn_preceded_tag1 (by decide))) (cleanOn_pmap (cleanOn_tag1 (by decide)))))))))))))))))))))) (cleanOn_por (cleanOn_pmap (cleanOn_preceded_tag1 (by decide))) (cleanOn_por (cleanOn_pmap (cleanOn_preceded_tag1 (by decide))) (cleanOn_por (cleanOn_pmap (cleanOn_preceded_tag1 (by decide))) (cleanOn_por (cleanOn_pmap (cleanOn_preceded_tag1 (by decide))) (cleanOn_por (cleanOn_pmap (cleanOn_preceded_tag1 (by decide))) (cleanOn_por (cleanOn_pmap (cleanOn_preceded_tag1 (by decide))) (cleanOn_por (cleanOn_pmap (cleanOn_preceded_tag1 (by decide))) (cleanOn_por (cleanOn_pmap (cleanOn_preceded_tag1 (by decide))) (cleanOn_por (cleanOn_pmap (cleanOn_preceded_tag1 (by decide))) (cleanOn_por (cleanOn_pmap (cleanOn_preceded_tag1 (by decide))) (cleanOn_por (cleanOn_pmap (cleanOn_preceded_tag1 (by decide))) (cleanOn_por (cleanOn_preceded_tag1 (by decide)) (cleanOn_por (cleanOn_preceded_tag1 (by decide)) (cleanOn_por (cleanOn_pmap (cleanOn_preceded_tag1 (by decide))) (cleanOn_por (cleanOn_pmap (cleanOn_preceded_tag1 (by decide))) (cleanOn_por (cleanOn_pmap (cleanOn_preceded_tag1 (by decide))) (cleanOn_por (cleanOn_pmap (cleanOn_preceded_tag1 (by decide))) (cleanOn_por (cleanOn_pmap (cleanOn_preceded_tag1 (by decide))) (cleanOn_por (cleanOn_pmap (cleanOn_preceded_tag1 (by decide))) (cleanOn_pmap (cleanOn_tag1 (by decide)))))))))))))))))))))))

theorem dirtyOn_grammar_const (pd : PunyDecode) :
    ∀ fuel, DirtyOn (grammar pd fuel).const constDirty := by
  intro fuel
  cases fuel with
  | zero => exact dirtyOn_of_ctxPure ctxPure_pfail constDirty
  | succ fuel =>
    rw [const_unfold pd fuel]
    have halt := dirtyOn_constAlt pd fuel
    refine dirtyOn_memo (dirtyOn_mono (by decide) (dirtyOn_por (dirtyOn_pmapRc halt)
      (dirtyOn_of_ctxPure ctxPure_constBackRef []) (cleanOn_constBackRef (by decide))))
theorem dirtyOn_grammar_genericArg (pd : PunyDecode) :
    ∀ fuel, DirtyOn (grammar pd fuel).genericArg gaDirty := by
  intro fuel
  cases fuel with
  | zero => exact dirtyOn_of_ctxPure ctxPure_pfail gaDirty
  | succ fuel =>
    refine dirtyOn_mono ?_
      (dirtyOn_por (dirtyOn_of_ctxPure (ctxPure_pmap ctxPure_parseLifetime) [])
        (dirtyOn_por (dirtyOn_pmap (dirtyOn_grammar_ty pd fuel))
          (dirtyOn_pmap (dirtyOn_preceded_tag1 'K' _))
          (cleanOn_pmap (cleanOn_preceded_tag1 (by decide))))
        (cleanOn_nil _))
    decide

theorem dirtyOn_grammar_dynTrait (pd : PunyDecode) :
    ∀ fuel, DirtyOn (grammar pd fuel).dynTrait pathDirty := by
  intro fuel
  cases fuel with
  | zero => exact dirtyOn_of_ctxPure ctxPure_pfail pathDirty
  | succ fuel =>
    exact dirtyOn_pmap (dirtyOn_pand_total_right (dirtyOn_grammar_path pd fuel)
      (pmany0_ne_none _ fuel))

theorem dirtyOn_grammar_binding (pd : PunyDecode) :
    ∀ fuel, DirtyOn (grammar pd fuel).dynTraitAssocBinding ['p'] := by
  intro fuel
  cases fuel with
  | zero => exact dirtyOn_of_ctxPure ctxPure_pfail ['p']
  | succ fuel =>
    exact dirtyOn_pmap (dirtyOn_preceded_tag1 'p' _)

theorem dirtyOn_pair (pd : PunyDecode) (q : P RcConst) :
    DirtyOn (pand (parseIdentifier pd) q) pairDirty :=
  dirtyOn_pand_pure_left ctxPure_parseIdentifier
    (fun i l ctx2 h => parseIdentifier_clean_fail pd i l ctx2 h)

/-! ### the three memoizing productions consume input on success -/

theorem consumesPos_pfail {α : Type} : ConsumesPos (pfail (α := α)) := by
  intro inp ctx out rest h
  simp [pfail] at h

theorem consumesPos_pmap {α β : Type} {p : P α} {f : α → β}
    (hp : ConsumesPos p) : ConsumesPos (pmap p f) := by
  intro inp ctx out rest h
  rcases h1 : p inp ctx with ⟨o, c⟩
  rcases o with _ | ⟨v, r⟩
  · rw [pmap_none h1] at h
    simp at h
  · rw [pmap_eval_succ h1] at h
    simp only [Option.some.injEq, Prod.mk.injEq] at h
    exact h.2 ▸ hp inp ctx v r (by rw [h1])

theorem consumesPos_pmapOpt {α β : Type} {p : P α} {f : α → Option β}
    (hp : ConsumesPos p) : ConsumesPos (pmapOpt p f) := by
  intro inp ctx out rest h
  rcases h1 : p inp ctx with ⟨o, c⟩
  rcases o with _ | ⟨v, r⟩
  · rw [pmapOpt_none h1] at h
    simp at h
  · rw [pmapOpt_eval_succ h1] at h
    rcases hf : f v with _ | w
    · rw [hf] at h
      simp at h
    · rw [hf] at h
      simp only [Option.some.injEq, Prod.mk.injEq] at h
      exact h.2 ▸ hp inp ctx v r (by rw [h1])

theorem consumesPos_pmapOptCtx {α β : Type} {p : P α} {f : α → Ctx → Option β}
    (hp : ConsumesPos p) : ConsumesPos (pmapOptCtx p f) := by
  intro inp ctx out rest h
  rcases h1 : p inp ctx with ⟨o, c⟩
  rcases o with _ | ⟨v, r⟩
  · rw [pmapOptCtx_none h1] at h
    simp at h
  · rw [pmapOptCtx_eval_succ h1] at h
    rcases hf : f v c with _ | w
    · rw [hf] at h
      simp at h
    · rw [hf] at h
      simp only [Option.some.injEq, Prod.mk.injEq] at h
      exact h.2 ▸ hp inp ctx v r (by rw [h1])

theorem consumesPos_pmapRc {α β : Type} {mk : Nat → α → β} {p : P α}
    (hp : ConsumesPos p) : ConsumesPos (pmapRc mk p) := by
  intro inp ctx out rest h
  rcases h1 : p inp ctx with ⟨o, c⟩
  rcases o with _ | ⟨v, r⟩
  · rw [pmapRc_none h1] at h
    simp at h
  · rw [pmapRc_eval_succ h1] at h
    simp only [Option.some.injEq, Prod.mk.injEq] at h
    exact h.2 ▸ hp inp ctx v r (by rw [h1])

theorem consumesPos_por {α : Type} {p q : P α} (hp : ConsumesPos p)
    (hq : ConsumesPos q) : ConsumesPos (por p q) := by
  intro inp ctx out rest h
  rcases h1 : p inp ctx with ⟨o, c⟩
  rcases o with _ | ⟨v, r⟩
  · rw [por_none h1] at h
    exact hq inp c out rest h
  · rw [por_eval_succ h1] at h
    simp only [Option.some.injEq, Prod.mk.injEq] at h
    have h2 : (p inp ctx).1 = some (v, r) := by rw [h1]
    rcases h with ⟨h3, h4⟩
    exact h4 ▸ hp inp ctx v r h2

theorem consumesPos_memo {α : Type} {p : P α} {ins : IndexedStr → α → Ctx → Ctx}
    (hp : ConsumesPos p) :
    ConsumesPos (fun inp ctx => pinspectCtx p (fun v c => ins inp v c) inp ctx) := by
  intro inp ctx out rest h
  simp only at h
  rcases h1 : p inp ctx with ⟨o, c⟩
  rcases o with _ | ⟨v, r⟩
  · rw [pinspectCtx_none h1] at h
    simp at h
  · rw [pinspectCtx_eval_succ h1] at h
    simp only [Option.some.injEq, Prod.mk.injEq] at h
    exact h.2 ▸ hp inp ctx v r (by rw [h1])

theorem consumesPos_preceded_tag1 {α : Type} {c : Char} {body : P α}
    (hA : Advances body) : ConsumesPos (preceded (tag [c]) body) := by
  intro inp ctx out rest h
  obtain ⟨i, l⟩ := inp
  cases l with
  | nil =>
    rw [preceded_none_left (tag1_nil c i ctx)] at h
    simp at h
  | cons d tl =>
    by_cases hdc : c = d
    · subst hdc
      rw [preceded_tag1_step body c i tl ctx] at h
      obtain ⟨k, _, hidx, _⟩ := hA ⟨i + 1, tl⟩ ctx out rest h
      have hidx2 : rest.index = i + 1 + k := hidx
      show i < rest.index
      omega
    · rw [preceded_none_left (tag1_cons_neg hdc i tl ctx)] at h
      simp at h

theorem consumesPos_tag1 {c : Char} : ConsumesPos (tag [c]) := by
  intro inp ctx out rest h
  obtain ⟨i, l⟩ := inp
  cases l with
  | nil =>
    rw [tag1_nil c i ctx] at h
    simp at h
  | cons d tl =>
    by_cases hdc : c = d
    · subst hdc
      rw [tag1_cons_pos c i tl ctx] at h
      simp only [Option.some.injEq, Prod.mk.injEq] at h
      rw [← h.2]
      simp
    · rw [tag1_cons_neg hdc i tl ctx] at h
      simp at h

theorem consumesPos_parseBasicType : ConsumesPos parseBasicType := by
  intro inp ctx out rest h
  obtain ⟨i, l⟩ := inp
  cases l with
  | nil =>
    have h1 : takeP 1 ⟨i, ([] : List Char)⟩ ctx = (none, ctx) := by
      unfold takeP
      rw [if_neg (by simp)]
    rw [show parseBasicType ⟨i, ([] : List Char)⟩ ctx = (none, ctx) from
      pmapOpt_none h1] at h
    simp at h
  | cons d tl =>
    have h1 : takeP 1 ⟨i, d :: tl⟩ ctx = (some ([d], ⟨i + 1, tl⟩), ctx) := by
      unfold takeP
      rw [if_pos (by simp)]
      simp
    rw [show parseBasicType ⟨i, d :: tl⟩ ctx = _ from pmapOpt_eval_succ h1] at h
    simp only at h
    rcases hbt : basicTypeOfChar d with _ | w
    · rw [hbt] at h
      simp at h
    · rw [hbt] at h
      simp only [Option.some.injEq, Prod.mk.injEq] at h
      rw [← h.2]
      exact Nat.lt_succ_self i

theorem cpGrammar_grammar (pd : PunyDecode) : ∀ fuel, CPGrammar (grammar pd fuel)
  | 0 => ⟨consumesPos_pfail, consumesPos_pfail, consumesPos_pfail⟩
  | fuel + 1 => by
    obtain ⟨hp, ht, hc⟩ := cpGrammar_grammar pd fuel
    obtain ⟨hpathA, himplA, hgenA, htyA, hfnA, hdynBA, hdynTA, hdynAA, hconstA, hcfA⟩ :=
      advGrammar_grammar pd fuel
    have hbr : ConsumesPos pathBackRef :=
      consumesPos_pmapOptCtx (consumesPos_preceded_tag1 advances_parseBase62Number)
    have hbrT : ConsumesPos tyBackRef :=
      consumesPos_pmapOptCtx (consumesPos_preceded_tag1 advances_parseBase62Number)
    have hbrC : ConsumesPos constBackRef :=
      consumesPos_pmapOptCtx (consumesPos_preceded_tag1 advances_parseBase62Number)
    refine ⟨?_, ?_, ?_⟩
    · rw [path_unfold pd fuel]
      exact consumesPos_memo (consumesPos_por (consumesPos_pmapRc (consumesPos_por (consumesPos_pmap (consumesPos_preceded_tag1 advances_parseIdentifier)) (consumesPos_por (consumesPos_pmap (consumesPos_preceded_tag1 (advances_pand himplA htyA))) (consumesPos_por (consumesPos_pmap (consumesPos_preceded_tag1 (advances_pand (advances_pand himplA htyA) hpathA))) (consumesPos_por (consumesPos_pmap (consumesPos_preceded_tag1 (advances_pand htyA hpathA))) (consumesPos_por (consumesPos_pmap (consumesPos_preceded_tag1 (advances_pand (advances_pand advances_takeP hpathA) advances_parseIdentifier))) (consumesPos_pmap (consumesPos_preceded_tag1 (advances_terminated (advances_pand hpathA (advances_pmany0 hgenA fuel)) advances_tag))))))))) hbr)
    · rw [ty_unfold pd fuel]
      exact consumesPos_memo (consumesPos_por (consumesPos_pmapRc (consumesPos_por (consumesPos_pmap consumesPos_parseBasicType) (consumesPos_por (consumesPos_pmap hp) (consumesPos_por (consumesPos_pmap (consumesPos_preceded_tag1 (advances_pand htyA hconstA))) (consumesPos_por (consumesPos_pmap (consumesPos_preceded_tag1 htyA)) (consumesPos_por (consumesPos_pmap (consumesPos_preceded_tag1 (advances_terminated (advances_pmany0 htyA fuel) advances_tag))) (consumesPos_por (consumesPos_pmap (consumesPos_preceded_tag1 (advances_pand (advances_pmap (advances_popt advances_parseLifetime)) htyA))) (consumesPos_por (consumesPos_pmap (consumesPos_preceded_tag1 (advances_pand (advances_pmap (advances_popt advances_parseLifetime)) htyA))) (consumesPos_por (consumesPos_pmap (consumesPos_preceded_tag1 htyA)) (consumesPos_por (consumesPos_pmap (consumesPos_preceded_tag1 htyA)) (consumesPos_por (consumesPos_pmap (consumesPos_preceded_tag1 hfnA)) (consumesPos_pmap (consumesPos_preceded_tag1 (advances_pand hdynBA advances_parseLifetime)))))))))))))) hbrT)
    · rw [const_unfold pd fuel]
      exact consumesPos_memo (consumesPos_por (consumesPos_pmapRc (consumesPos_por (consumesPos_pmap (consumesPos_preceded_tag1 advances_parseConstInt)) (consumesPos_por (consumesPos_pmap (consumesPos_preceded_tag1 advances_parseConstInt)) (consumesPos_por (consumesPos_pmap (consumesPos_preceded_tag1 advances_parseConstInt)) (consumesPos_por (consumesPos_pmap (consumesPos_preceded_tag1 advances_parseConstInt)) (consumesPos_por (consumesPos_pmap (consumesPos_preceded_tag1 advances_parseConstInt)) (consumesPos_por (consumesPos_pmap (consumesPos_preceded_tag1 advances_parseConstInt)) (consumesPos_por (consumesPos_pmap (consumesPos_preceded_tag1 advances_parseConstInt)) (consumesPos_por (consumesPos_pmap (consumesPos_preceded_tag1 advances_parseConstInt)) (consumesPos_por (consumesPos_pmap (consumesPos_preceded_tag1 advances_parseConstInt)) (consumesPos_por (consumesPos_pmap (consumesPos_preceded_tag1 advances_parseConstInt)) (consumesPos_por (consumesPos_pmap (consumesPos_preceded_tag1 advances_parseConstInt)) (consumesPos_por (consumesPos_pmap (consumesPos_preceded_tag1 advances_parseConstInt)) (consumesPos_por (consumesPos_preceded_tag1 (advances_pmapOpt advances_parseConstInt)) (consumesPos_por (consumesPos_preceded_tag1 (advances_pmapOpt advances_parseConstInt)) (consumesPos_por (consumesPos_pmap (consumesPos_preceded_tag1 advances_parseConstStr)) (consumesPos_por (consumesPos_pmap (consumesPos_preceded_tag1 hconstA)) (consumesPos_por (consumesPos_pmap (consumesPos_preceded_tag1 hconstA)) (consumesPos_por (consumesPos_pmap (consumesPos_preceded_tag1 (advances_terminated (advances_pmany0 hconstA fuel) advances_tag))) (consumesPos_por (consumesPos_pmap (consumesPos_preceded_tag1 (advances_terminated (advances_pmany0 hconstA fuel) advances_tag))) (consumesPos_por (consumesPos_pmap (consumesPos_preceded_tag1 (advances_pand hpathA hcfA))) (consumesPos_pmap consumesPos_tag1)))))))))))))))))))))) hbrC)

/-! ### the key-discipline invariant: combinator lemmas -/

theorem keyInv_of_ctxPure {α : Type} {p : P α} (hp : CtxPure p) (dS : List Char)
    (bp bt bc : Nat) : KeyInv p dS bp bt bc := by
  intro inp ctx hb hn
  constructor
  · intro out rest ctx' h
    have hc : (p inp ctx).2 = ctx := hp inp ctx
    rw [h] at hc
    constructor
    · rw [show ctx' = ctx from hc]
      exact hn
    · left
      rw [show ctx' = ctx from hc]
      exact boundedNew_refl ctx _ _ _ _
  · intro ctx' h
    have hc : (p inp ctx).2 = ctx := hp inp ctx
    rw [h] at hc
    rw [show ctx' = ctx from hc]
    exact hn

theorem keyInv_mono {α : Type} {p : P α} {dS dS' : List Char}
    {bp bt bc bp' bt' bc' : Nat} (h : KeyInv p dS bp bt bc)
    (hsub : ∀ c ∈ dS, c ∈ dS') (hbp : bp' ≤ bp) (hbt : bt' ≤ bt)
    (hbc : bc' ≤ bc) : KeyInv p dS' bp' bt' bc' := by
  intro inp ctx hb hn
  obtain ⟨hsucc, hfail⟩ := h inp ctx hb hn
  constructor
  · intro out rest ctx' hr
    obtain ⟨hn1, hb1⟩ := hsucc out rest ctx' hr
    refine ⟨hn1, ?_⟩
    rcases hb1 with hbd | ⟨ch, hch, hm⟩
    · exact Or.inl (boundedNew_mono hbd (Nat.add_le_add_left hbp _)
        (Nat.add_le_add_left hbt _) (Nat.add_le_add_left hbc _) le_rfl)
    · exact Or.inr ⟨ch, hch, hsub ch hm⟩
  · exact hfail

theorem keyInv_pmap {α β : Type} {p : P α} {f : α → β} {dS : List Char}
    {bp bt bc : Nat} (hp : KeyInv p dS bp bt bc) :
    KeyInv (pmap p f) dS bp bt bc := by
  intro inp ctx hb hn
  obtain ⟨hsucc, hfail⟩ := hp inp ctx hb hn
  constructor
  · intro out rest ctx' h
    rcases h1 : p inp ctx with ⟨o, c⟩
    rcases o with _ | ⟨v, r⟩
    · rw [pmap_none h1] at h
      exact absurd (congrArg Prod.fst h) (by simp)
    · rw [pmap_eval_succ h1] at h
      have h2 : c = ctx' := congrArg Prod.snd h
      have h3 := congrArg Prod.fst h
      simp only [Option.some.injEq, Prod.mk.injEq] at h3
      obtain ⟨hn1, hb1⟩ := hsucc v r c h1
      refine ⟨h2 ▸ hn1, ?_⟩
      rcases hb1 with hbd | ⟨ch, hch, hm⟩
      · exact Or.inl (h3.2 ▸ h2 ▸ hbd)
      · exact Or.inr (h3.2 ▸ ⟨ch, hch, hm⟩)
  · intro ctx' h
    rcases h1 : p inp ctx with ⟨o, c⟩
    rcases o with _ | ⟨v, r⟩
    · rw [pmap_none h1] at h
      have h2 : c = ctx' := congrArg Prod.snd h
      exact h2 ▸ hfail c h1
    · rw [pmap_eval_succ h1] at h
      exact absurd (congrArg Prod.fst h) (by simp)

theorem keyInv_pmapOpt {α β : Type} {p : P α} {f : α → Option β} {dS : List Char}
    {bp bt bc : Nat} (hp : KeyInv p dS bp bt bc) :
    KeyInv (pmapOpt p f) dS bp bt bc := by
  intro inp ctx hb hn
  obtain ⟨hsucc, hfail⟩ := hp inp ctx hb hn
  constructor
  · intro out rest ctx' h
    rcases h1 : p inp ctx with ⟨o, c⟩
    rcases o with _ | ⟨v, r⟩
    · rw [pmapOpt_none h1] at h
      exact absurd (congrArg Prod.fst h) (by simp)
    · rw [pmapOpt_eval_succ h1] at h
      rcases hf : f v with _ | w
      · rw [hf] at h
        exact absurd (congrArg Prod.fst h) (by simp)
      · rw [hf] at h
        have h2 : c = ctx' := congrArg Prod.snd h
        have h3 := congrArg Prod.fst h
        simp only [Option.some.injEq, Prod.mk.injEq] at h3
        obtain ⟨hn1, hb1⟩ := hsucc v r c h1
        refine ⟨h2 ▸ hn1, ?_⟩
        rcases hb1 with hbd | ⟨ch, hch, hm⟩
        · exact Or.inl (h3.2 ▸ h2 ▸ hbd)
        · exact Or.inr (h3.2 ▸ ⟨ch, hch, hm⟩)
  · intro ctx' h
    rcases h1 : p inp ctx with ⟨o, c⟩
    rcases o with _ | ⟨v, r⟩
    · rw [pmapOpt_none h1] at h
      have h2 : c = ctx' := congrArg Prod.snd h
      exact h2 ▸ hfail c h1
    · rw [pmapOpt_eval_succ h1] at h
      rcases hf : f v with _ | w
      · rw [hf] at h
        have h2 : c = ctx' := congrArg Prod.snd h
        exact h2 ▸ (hsucc v r c h1).1
      · rw [hf] at h
        exact absurd (congrArg Prod.fst h) (by simp)

theorem keyInv_pmapOptCtx {α β : Type} {p : P α} {f : α → Ctx → Option β}
    {dS : List Char} {bp bt bc : Nat} (hp : KeyInv p dS bp bt bc) :
    KeyInv (pmapOptCtx p f) dS bp bt bc := by
  intro inp ctx hb hn
  obtain ⟨hsucc, hfail⟩ := hp inp ctx hb hn
  constructor
  · intro out rest ctx' h
    rcases h1 : p inp ctx with ⟨o, c⟩
    rcases o with _ | ⟨v, r⟩
    · rw [pmapOptCtx_none h1] at h
      exact absurd (congrArg Prod.fst h) (by simp)
    · rw [pmapOptCtx_eval_succ h1] at h
      rcases hf : f v c with _ | w
      · rw [hf] at h
        exact absurd (congrArg Prod.fst h) (by simp)
      · rw [hf] at h
        have h2 : c = ctx' := congrArg Prod.snd h
        have h3 := congrArg Prod.fst h
        simp only [Option.some.injEq, Prod.mk.injEq] at h3
        obtain ⟨hn1, hb1⟩ := hsucc v r c h1
        refine ⟨h2 ▸ hn1, ?_⟩
        rcases hb1 with hbd | ⟨ch, hch, hm⟩
        · exact Or.inl (h3.2 ▸ h2 ▸ hbd)
        · exact Or.inr (h3.2 ▸ ⟨ch, hch, hm⟩)
  · intro ctx' h
    rcases h1 : p inp ctx with ⟨o, c⟩
    rcases o with _ | ⟨v, r⟩
    · rw [pmapOptCtx_none h1] at h
      have h2 : c = ctx' := congrArg Prod.snd h
      exact h2 ▸ hfail c h1
    · rw [pmapOptCtx_eval_succ h1] at h
      rcases hf : f v c with _ | w
      · rw [hf] at h
        have h2 : c = ctx' := congrArg Prod.snd h
        exact h2 ▸ (hsucc v r c h1).1
      · rw [hf] at h
        exact absurd (congrArg Prod.fst h) (by simp)

theorem keyInv_pmapRc {α β : Type} {mk : Nat → α → β} {p : P α} {dS : List Char}
    {bp bt bc : Nat} (hp : KeyInv p dS bp bt bc) :
    KeyInv (pmapRc mk p) dS bp bt bc := by
  intro inp ctx hb hn
  obtain ⟨hsucc, hfail⟩ := hp inp ctx hb hn
  constructor
  · intro out rest ctx' h
    rcases h1 : p inp ctx with ⟨o, c⟩
    rcases o with _ | ⟨v, r⟩
    · rw [pmapRc_none h1] at h
      exact absurd (congrArg Prod.fst h) (by simp)
    · rw [pmapRc_eval_succ h1] at h
      have h2 : ({ c with counter := c.counter + 1 } : Ctx) = ctx' :=
        congrArg Prod.snd h
      have h3 := congrArg Prod.fst h
      simp only [Option.some.injEq, Prod.mk.injEq] at h3
      obtain ⟨hn1, hb1⟩ := hsucc v r c h1
      refine ⟨h2 ▸ (show NodupAll { c with counter := c.counter + 1 } from hn1), ?_⟩
      rcases hb1 with hbd | ⟨ch, hch, hm⟩
      · exact Or.inl (h3.2 ▸ h2 ▸
          (show BoundedNew ctx { c with counter := c.counter + 1 } _ _ _ r.index from hbd))
      · exact Or.inr (h3.2 ▸ ⟨ch, hch, hm⟩)
  · intro ctx' h
    rcases h1 : p inp ctx with ⟨o, c⟩
    rcases o with _ | ⟨v, r⟩
    · rw [pmapRc_none h1] at h
      have h2 : c = ctx' := congrArg Prod.snd h
      exact h2 ▸ hfail c h1
    · rw [pmapRc_eval_succ h1] at h
      exact absurd (congrArg Prod.fst h) (by simp)

theorem index_le_of_advances {α : Type} {p : P α} (hA : Advances p)
    {inp : IndexedStr} {ctx c : Ctx} {v : α} {r : IndexedStr}
    (h : p inp ctx = (some (v, r), c)) : inp.index ≤ r.index := by
  obtain ⟨k, _, hidx, _⟩ := hA inp ctx v r (by rw [h])
  omega

theorem keyInv_por {α : Type} {p q : P α} {dSp dSq hsp : List Char}
    {bp bt bc : Nat} (hp : KeyInv p dSp bp bt bc) (hq : KeyInv q dSq bp bt bc)
    (hdp : DirtyOn p hsp) (hqc : CleanOn q hsp) :
    KeyInv (por p q) (dSp ++ dSq) bp bt bc := by
  intro inp ctx hb hn
  obtain ⟨hpsucc, hpfail⟩ := hp inp ctx hb hn
  constructor
  · intro out rest ctx' h
    rcases h1 : p inp ctx with ⟨o, c⟩
    rcases o with _ | ⟨v, r⟩
    · rw [por_none h1] at h
      rcases hdp inp ctx c h1 with hcc | ⟨ch, hch, hm⟩
      · rw [hcc] at h
        obtain ⟨hn1, hb1⟩ := (hq inp ctx hb hn).1 out rest ctx' h
        refine ⟨hn1, ?_⟩
        rcases hb1 with hbd | ⟨ch2, hch2, hm2⟩
        · exact Or.inl hbd
        · exact Or.inr ⟨ch2, hch2, List.mem_append_right _ hm2⟩
      · rw [hqc inp c ch hch hm] at h
        exact absurd (congrArg Prod.fst h) (by simp)
    · rw [por_eval_succ h1] at h
      have h2 : c = ctx' := congrArg Prod.snd h
      have h3 := congrArg Prod.fst h
      simp only [Option.some.injEq, Prod.mk.injEq] at h3
      obtain ⟨hn1, hb1⟩ := hpsucc v r c h1
      refine ⟨h2 ▸ hn1, ?_⟩
      rcases hb1 with hbd | ⟨ch, hch, hm⟩
      · exact Or.inl (h3.2 ▸ h2 ▸ hbd)
      · exact Or.inr (h3.2 ▸ ⟨ch, hch, List.mem_append_left _ hm⟩)
  · intro ctx' h
    rcases h1 : p inp ctx with ⟨o, c⟩
    rcases o with _ | ⟨v, r⟩
    · rw [por_none h1] at h
      have hnf : NodupAll c := hpfail c h1
      rcases hdp inp ctx c h1 with hcc | ⟨ch, hch, hm⟩
      · rw [hcc] at h
        exact (hq inp ctx hb hn).2 ctx' h
      · rw [hqc inp c ch hch hm] at h
        have h2 : c = ctx' := congrArg Prod.snd h
        exact h2 ▸ hnf
    · rw [por_eval_succ h1] at h
      exact absurd (congrArg Prod.fst h) (by simp)

theorem keyInv_popt {α : Type} {p : P α} {dS hs : List Char} {bp bt bc : Nat}
    (hp : KeyInv p dS bp bt bc) (hdp : DirtyOn p hs) :
    KeyInv (popt p) (dS ++ hs) bp bt bc := by
  intro inp ctx hb hn
  obtain ⟨hpsucc, hpfail⟩ := hp inp ctx hb hn
  constructor
  · intro out rest ctx' h
    rcases h1 : p inp ctx with ⟨o, c⟩
    rcases o with _ | ⟨v, r⟩
    · rw [popt_eval_fail h1] at h
      have h2 : c = ctx' := congrArg Prod.snd h
      have h3 := congrArg Prod.fst h
      simp only [Option.some.injEq, Prod.mk.injEq] at h3
      have hnf := hpfail c h1
      refine ⟨h2 ▸ hnf, ?_⟩
      rcases hdp inp ctx c h1 with hcc | ⟨ch, hch, hm⟩
      · left
        rw [← h2, hcc, ← h3.2]
        exact boundedNew_refl ctx _ _ _ _
      · exact Or.inr (h3.2 ▸ ⟨ch, hch, List.mem_append_right _ hm⟩)
    · rw [popt_eval_succ h1] at h
      have h2 : c = ctx' := congrArg Prod.snd h
      have h3 := congrArg Prod.fst h
      simp only [Option.some.injEq, Prod.mk.injEq] at h3
      obtain ⟨hn1, hb1⟩ := hpsucc v r c h1
      refine ⟨h2 ▸ hn1, ?_⟩
      rcases hb1 with hbd | ⟨ch, hch, hm⟩
      · exact Or.inl (h3.2 ▸ h2 ▸ hbd)
      · exact Or.inr (h3.2 ▸ ⟨ch, hch, List.mem_append_left _ hm⟩)
  · intro ctx' h
    rcases h1 : p inp ctx with ⟨o, c⟩
    rcases o with _ | ⟨v, r⟩
    · rw [popt_eval_fail h1] at h
      exact absurd (congrArg Prod.fst h) (by simp)
    · rw [popt_eval_succ h1] at h
      exact absurd (congrArg Prod.fst h) (by simp)

theorem keyInv_pand {α β : Type} {p : P α} {q : P β} {dSp dSq : List Char}
    {bp bt bc : Nat} (hp : KeyInv p dSp bp bt bc) (hAp : Advances p)
    (hq : KeyInv q dSq bp bt bc) (hAq : Advances q) (hqc : CleanOn q dSp) :
    KeyInv (pand p q) dSq bp bt bc := by
  intro inp ctx hb hn
  obtain ⟨hpsucc, hpfail⟩ := hp inp ctx hb hn
  constructor
  · intro out rest ctx' h
    rcases h1 : p inp ctx with ⟨o, c⟩
    rcases o with _ | ⟨v, r⟩
    · rw [pand_none_left h1] at h
      exact absurd (congrArg Prod.fst h) (by simp)
    · rw [pand_eval_succ h1] at h
      obtain ⟨hn1, hb1⟩ := hpsucc v r c h1
      have hir : inp.index ≤ r.index := index_le_of_advances hAp h1
      rcases h2 : q r c with ⟨o2, c2⟩
      rw [h2] at h
      rcases o2 with _ | ⟨w, r2⟩
      · exact absurd (congrArg Prod.fst h) (by simp)
      · have h3 : c2 = ctx' := congrArg Prod.snd h
        have h4 := congrArg Prod.fst h
        simp only [Option.some.injEq, Prod.mk.injEq] at h4
        rcases hb1 with hbd1 | ⟨ch, hch, hm⟩
        · have hb2 : CtxBelow c r.index := ctxBelow_of_boundedNew hb hbd1 hir
          obtain ⟨hn2, hbq⟩ := (hq r c hb2 hn1).1 w r2 c2 h2
          refine ⟨h3 ▸ hn2, ?_⟩
          rcases hbq with hbd2 | ⟨ch2, hch2, hm2⟩
          · left
            have hrr : r.index ≤ r2.index := index_le_of_advances hAq h2
            have hbd3 := boundedNew_mono hbd2 (Nat.add_le_add_right hir bp)
              (Nat.add_le_add_right hir bt) (Nat.add_le_add_right hir bc) le_rfl
            exact h4.2 ▸ h3 ▸ boundedNew_trans hbd1 hbd3 hrr
          · exact Or.inr (h4.2 ▸ ⟨ch2, hch2, hm2⟩)
        · have h5 := hqc r c ch hch hm
          rw [h2] at h5
          exact absurd (congrArg Prod.fst h5) (by simp)
  · intro ctx' h
    rcases h1 : p inp ctx with ⟨o, c⟩
    rcases o with _ | ⟨v, r⟩
    · rw [pand_none_left h1] at h
      have h2 : c = ctx' := congrArg Prod.snd h
      exact h2 ▸ hpfail c h1
    · rw [pand_eval_succ h1] at h
      obtain ⟨hn1, hb1⟩ := hpsucc v r c h1
      have hir : inp.index ≤ r.index := index_le_of_advances hAp h1
      rcases h2 : q r c with ⟨o2, c2⟩
      rw [h2] at h
      rcases o2 with _ | ⟨w, r2⟩
      · have h3 : c2 = ctx' := congrArg Prod.snd h
        rcases hb1 with hbd1 | ⟨ch, hch, hm⟩
        · have hb2 : CtxBelow c r.index := ctxBelow_of_boundedNew hb hbd1 hir
          exact h3 ▸ (hq r c hb2 hn1).2 c2 h2
        · have h5 := hqc r c ch hch hm
          rw [h2] at h5
          have h6 : c2 = c := congrArg Prod.snd h5
          exact h3 ▸ h6 ▸ hn1
      · exact absurd (congrArg Prod.fst h) (by simp)

theorem keyInv_preceded_tag1 {α : Type} {c : Char} {body : P α} {dS : List Char}
    (hbody : KeyInv body dS 0 0 0) :
    KeyInv (preceded (tag [c]) body) dS 1 1 1 := by
  intro inp ctx hb hn
  obtain ⟨i, l⟩ := inp
  constructor
  · intro out rest ctx' h
    cases l with
    | nil =>
      rw [preceded_none_left (tag1_nil c i ctx)] at h
      exact absurd (congrArg Prod.fst h) (by simp)
    | cons d tl =>
      by_cases hdc : c = d
      · subst hdc
        rw [preceded_tag1_step body c i tl ctx] at h
        have hb2 : CtxBelow ctx (i + 1) :=
          ctxBelow_mono (show CtxBelow ctx i from hb) (Nat.le_succ i)
        obtain ⟨hn1, hb1⟩ := (hbody ⟨i + 1, tl⟩ ctx hb2 hn).1 out rest ctx' h
        refine ⟨hn1, ?_⟩
        rcases hb1 with hbd | pol
        · exact Or.inl (boundedNew_mono hbd le_rfl le_rfl le_rfl le_rfl)
        · exact Or.inr pol
      · rw [preceded_none_left (tag1_cons_neg hdc i tl ctx)] at h
        exact absurd (congrArg Prod.fst h) (by simp)
  · intro ctx' h
    cases l with
    | nil =>
      rw [preceded_none_left (tag1_nil c i ctx)] at h
      have h2 : ctx = ctx' := congrArg Prod.snd h
      exact h2 ▸ hn
    | cons d tl =>
      by_cases hdc : c = d
      · subst hdc
        rw [preceded_tag1_step body c i tl ctx] at h
        have hb2 : CtxBelow ctx (i + 1) :=
          ctxBelow_mono (show CtxBelow ctx i from hb) (Nat.le_succ i)
        exact (hbody ⟨i + 1, tl⟩ ctx hb2 hn).2 ctx' h
      · rw [preceded_none_left (tag1_cons_neg hdc i tl ctx)] at h
        have h2 : ctx = ctx' := congrArg Prod.snd h
        exact h2 ▸ hn

theorem keyInv_terminated_tag1 {α : Type} {p : P α} {c : Char} {dS : List Char}
    {bp bt bc : Nat} (hp : KeyInv p dS bp bt bc) (hAp : Advances p)
    (hcE : c ∉ dS) : KeyInv (terminated p (tag [c])) [] bp bt bc :=
  keyInv_pmap (keyInv_pand hp hAp (keyInv_of_ctxPure ctxPure_tag [] bp bt bc)
    advances_tag (cleanOn_tag1 hcE))

theorem keyInv_pmany0 {α : Type} {q : P α} {dS hs : List Char} {bp bt bc : Nat}
    (hq : KeyInv q dS bp bt bc) (hAq : Advances q) (hdq : DirtyOn q hs)
    (hqc : CleanOn q dS) : ∀ fuel, KeyInv (pmany0 q fuel) (dS ++ hs) bp bt bc := by
  intro fuel
  induction fuel with
  | zero =>
    intro inp ctx hb hn
    constructor
    · intro out rest ctx' h
      have h0 : pmany0 q 0 inp ctx = (some ([], inp), ctx) := rfl
      rw [h0] at h
      have h2 : ctx = ctx' := congrArg Prod.snd h
      have h3 := congrArg Prod.fst h
      simp only [Option.some.injEq, Prod.mk.injEq] at h3
      refine ⟨h2 ▸ hn, Or.inl ?_⟩
      rw [← h2, ← h3.2]
      exact boundedNew_refl ctx _ _ _ _
    · intro ctx' h
      have h0 : pmany0 q 0 inp ctx = (some ([], inp), ctx) := rfl
      rw [h0] at h
      exact absurd (congrArg Prod.fst h) (by simp)
  | succ fuel ih =>
    intro inp ctx hb hn
    obtain ⟨hqsucc, hqfail⟩ := hq inp ctx hb hn
    constructor
    · intro out rest ctx' h
      rcases h1 : q inp ctx with ⟨o, c⟩
      rcases o with _ | ⟨v, r⟩
      · rw [pmany0_eval_fail h1] at h
        have h2 : c = ctx' := congrArg Prod.snd h
        have h3 := congrArg Prod.fst h
        simp only [Option.some.injEq, Prod.mk.injEq] at h3
        have hnf := hqfail c h1
        refine ⟨h2 ▸ hnf, ?_⟩
        rcases hdq inp ctx c h1 with hcc | ⟨ch, hch, hm⟩
        · left
          rw [← h2, hcc, ← h3.2]
          exact boundedNew_refl ctx _ _ _ _
        · exact Or.inr (h3.2 ▸ ⟨ch, hch, List.mem_append_right _ hm⟩)
      · rw [pmany0_eval_succ h1] at h
        obtain ⟨hn1, hb1⟩ := hqsucc v r c h1
        have hir : inp.index ≤ r.index := index_le_of_advances hAq h1
        rcases h2 : pmany0 q fuel r c with ⟨o2, c2⟩
        rw [h2] at h
        rcases o2 with _ | ⟨vs, r2⟩
        · exact absurd (congrArg Prod.fst h) (by simp)
        · have h3 : c2 = ctx' := congrArg Prod.snd h
          have h4 := congrArg Prod.fst h
          simp only [Option.some.injEq, Prod.mk.injEq] at h4
          rcases hb1 with hbd1 | ⟨ch, hch, hm⟩
          · have hb2 : CtxBelow c r.index := ctxBelow_of_boundedNew hb hbd1 hir
            obtain ⟨hn2, hbq⟩ := (ih r c hb2 hn1).1 vs r2 c2 h2
            refine ⟨h3 ▸ hn2, ?_⟩
            rcases hbq with hbd2 | ⟨ch2, hch2, hm2⟩
            · left
              have hrr : r.index ≤ r2.index :=
                index_le_of_advances (advances_pmany0 hAq fuel) h2
              have hbd3 := boundedNew_mono hbd2 (Nat.add_le_add_right hir bp)
                (Nat.add_le_add_right hir bt) (Nat.add_le_add_right hir bc) le_rfl
              exact h4.2 ▸ h3 ▸ boundedNew_trans hbd1 hbd3 hrr
            · exact Or.inr (h4.2 ▸ ⟨ch2, hch2, hm2⟩)
          · have hstop := pmany0_stop_clean (hqc r c ch hch hm) fuel
            have hcomb := hstop.symm.trans h2
            have h5 : c = c2 := congrArg Prod.snd hcomb
            have h6 := congrArg Prod.fst hcomb
            simp only [Option.some.injEq, Prod.mk.injEq] at h6
            refine ⟨h3 ▸ h5 ▸ hn1, ?_⟩
            right
            exact h4.2 ▸ h6.2 ▸ ⟨ch, hch, List.mem_append_left _ hm⟩
    · intro ctx' h
      rcases h1 : q inp ctx with ⟨o, c⟩
      rcases o with _ | ⟨v, r⟩
      · rw [pmany0_eval_fail h1] at h
        exact absurd (congrArg Prod.fst h) (by simp)
      · rw [pmany0_eval_succ h1] at h
        rcases h2 : pmany0 q fuel r c with ⟨o2, c2⟩
        rw [h2] at h
        rcases o2 with _ | ⟨vs, r2⟩
        · exact absurd (by rw [h2]) (pmany0_ne_none q fuel r c)
        · exact absurd (congrArg Prod.fst h) (by simp)

theorem keyInv_memoPath {p : P RcPath} (hp : KeyInv p [] 1 1 1)
    (hcp : ConsumesPos p) :
    KeyInv (fun inp ctx => pinspectCtx p (fun v c => c.insertPath inp.index v) inp ctx)
      [] 0 1 1 := by
  intro inp ctx hb hn
  obtain ⟨hpsucc, hpfail⟩ := hp inp ctx hb hn
  constructor
  · intro out rest ctx' h
    simp only at h
    rcases h1 : p inp ctx with ⟨o, c⟩
    rcases o with _ | ⟨v, r⟩
    · rw [pinspectCtx_none h1] at h
      exact absurd (congrArg Prod.fst h) (by simp)
    · rw [pinspectCtx_eval_succ h1] at h
      have h2 : c.insertPath inp.index v = ctx' := congrArg Prod.snd h
      have h3 := congrArg Prod.fst h
      simp only [Option.some.injEq, Prod.mk.injEq] at h3
      obtain ⟨hn1, hb1⟩ := hpsucc v r c h1
      have hbd : BoundedNew ctx c (inp.index + 1) (inp.index + 1)
          (inp.index + 1) r.index := by
        rcases hb1 with hbd | ⟨ch, hch, hm⟩
        · exact hbd
        · simp at hm
      obtain ⟨⟨l1, hl1, k1⟩, ⟨l2, hl2, k2⟩, ⟨l3, hl3, k3⟩⟩ := hbd
      have hir : inp.index < r.index := hcp inp ctx v r (by rw [h1])
      have hnotmem : inp.index ∉ c.paths.map Prod.fst := by
        intro hmem
        rw [hl1, List.map_append] at hmem
        rcases List.mem_append.mp hmem with hm2 | hm2
        · have h4 := (k1 inp.index hm2).1
          omega
        · have h4 := hb.1 inp.index hm2
          omega
      constructor
      · rw [← h2]
        refine ⟨?_, hn1.2.1, hn1.2.2⟩
        show (inp.index :: c.paths.map Prod.fst).Nodup
        exact List.nodup_cons.mpr ⟨hnotmem, hn1.1⟩
      · left
        rw [← h2, ← h3.2]
        refine ⟨⟨(inp.index, v) :: l1, ?_, ?_⟩, ⟨l2, hl2, k2⟩, ⟨l3, hl3, k3⟩⟩
        · show (inp.index, v) :: c.paths = ((inp.index, v) :: l1) ++ ctx.paths
          rw [hl1, List.cons_append]
        · intro k hk
          simp only [List.map_cons, List.mem_cons] at hk
          rcases hk with hk1 | hk2
          · subst hk1
            exact ⟨by omega, hir⟩
          · have h5 := k1 k hk2
            exact ⟨by omega, h5.2⟩
  · intro ctx' h
    simp only at h
    rcases h1 : p inp ctx with ⟨o, c⟩
    rcases o with _ | ⟨v, r⟩
    · rw [pinspectCtx_none h1] at h
      have h2 : c = ctx' := congrArg Prod.snd h
      exact h2 ▸ hpfail c h1
    · rw [pinspectCtx_eval_succ h1] at h
      exact absurd (congrArg Prod.fst h) (by simp)

theorem keyInv_memoType {p : P RcType} (hp : KeyInv p [] 0 1 1)
    (hcp : ConsumesPos p) :
    KeyInv (fun inp ctx => pinspectCtx p (fun v c => c.insertType inp.index v) inp ctx)
      [] 0 0 1 := by
  intro inp ctx hb hn
  obtain ⟨hpsucc, hpfail⟩ := hp inp ctx hb hn
  constructor
  · intro out rest ctx' h
    simp only at h
    rcases h1 : p inp ctx with ⟨o, c⟩
    rcases o with _ | ⟨v, r⟩
    · rw [pinspectCtx_none h1] at h
      exact absurd (congrArg Prod.fst h) (by simp)
    · rw [pinspectCtx_eval_succ h1] at h
      have h2 : c.insertType inp.index v = ctx' := congrArg Prod.snd h
      have h3 := congrArg Prod.fst h
      simp only [Option.some.injEq, Prod.mk.injEq] at h3
      obtain ⟨hn1, hb1⟩ := hpsucc v r c h1
      have hbd : BoundedNew ctx c (inp.index + 0) (inp.index + 1)
          (inp.index + 1) r.index := by
        rcases hb1 with hbd | ⟨ch, hch, hm⟩
        · exact hbd
        · simp at hm
      obtain ⟨⟨l1, hl1, k1⟩, ⟨l2, hl2, k2⟩, ⟨l3, hl3, k3⟩⟩ := hbd
      have hir : inp.index < r.index := hcp inp ctx v r (by rw [h1])
      have hnotmem : inp.index ∉ c.types.map Prod.fst := by
        intro hmem
        rw [hl2, List.map_append] at hmem
        rcases List.mem_append.mp hmem with hm2 | hm2
        · have h4 := (k2 inp.index hm2).1
          omega
        · have h4 := hb.2.1 inp.index hm2
          omega
      constructor
      · rw [← h2]
        refine ⟨hn1.1, ?_, hn1.2.2⟩
        show (inp.index :: c.types.map Prod.fst).Nodup
        exact List.nodup_cons.mpr ⟨hnotmem, hn1.2.1⟩
      · left
        rw [← h2, ← h3.2]
        refine ⟨⟨l1, hl1, k1⟩, ⟨(inp.index, v) :: l2, ?_, ?_⟩, ⟨l3, hl3, k3⟩⟩
        · show (inp.index, v) :: c.types = ((inp.index, v) :: l2) ++ ctx.types
          rw [hl2, List.cons_append]
        · intro k hk
          simp only [List.map_cons, List.mem_cons] at hk
          rcases hk with hk1 | hk2
          · subst hk1
            exact ⟨by omega, hir⟩
          · have h5 := k2 k hk2
            exact ⟨by omega, h5.2⟩
  · intro ctx' h
    simp only at h
    rcases h1 : p inp ctx with ⟨o, c⟩
    rcases o with _ | ⟨v, r⟩
    · rw [pinspectCtx_none h1] at h
      have h2 : c = ctx' := congrArg Prod.snd h
      exact h2 ▸ hpfail c h1
    · rw [pinspectCtx_eval_succ h1] at h
      exact absurd (congrArg Prod.fst h) (by simp)

theorem keyInv_memoConst {p : P RcConst} (hp : KeyInv p [] 1 1 1)
    (hcp : ConsumesPos p) :
    KeyInv (fun inp ctx => pinspectCtx p (fun v c => c.insertConst inp.index v) inp ctx)
      [] 1 1 0 := by
  intro inp ctx hb hn
  obtain ⟨hpsucc, hpfail⟩ := hp inp ctx hb hn
  constructor
  · intro out rest ctx' h
    simp only at h
    rcases h1 : p inp ctx with ⟨o, c⟩
    rcases o with _ | ⟨v, r⟩
    · rw [pinspectCtx_none h1] at h
      exact absurd (congrArg Prod.fst h) (by simp)
    · rw [pinspectCtx_eval_succ h1] at h
      have h2 : c.insertConst inp.index v = ctx' := congrArg Prod.snd h
      have h3 := congrArg Prod.fst h
      simp only [Option.some.injEq, Prod.mk.injEq] at h3
      obtain ⟨hn1, hb1⟩ := hpsucc v r c h1
      have hbd : BoundedNew ctx c (inp.index + 1) (inp.index + 1)
          (inp.index + 1) r.index := by
        rcases hb1 with hbd | ⟨ch, hch, hm⟩
        · exact hbd
        · simp at hm
      obtain ⟨⟨l1, hl1, k1⟩, ⟨l2, hl2, k2⟩, ⟨l3, hl3, k3⟩⟩ := hbd
      have hir : inp.index < r.index := hcp inp ctx v r (by rw [h1])
      have hnotmem : inp.index ∉ c.consts.map Prod.fst := by
        intro hmem
        rw [hl3, List.map_append] at hmem
        rcases List.mem_append.mp hmem with hm2 | hm2
        · have h4 := (k3 inp.index hm2).1
          omega
        · have h4 := hb.2.2 inp.index hm2
          omega
      constructor
      · rw [← h2]
        refine ⟨hn1.1, hn1.2.1, ?_⟩
        show (inp.index :: c.consts.map Prod.fst).Nodup
        exact List.nodup_cons.mpr ⟨hnotmem, hn1.2.2⟩
      · left
        rw [← h2, ← h3.2]
        refine ⟨⟨l1, hl1, k1⟩, ⟨l2, hl2, k2⟩, ⟨(inp.index, v) :: l3, ?_, ?_⟩⟩
        · show (inp.index, v) :: c.consts = ((inp.index, v) :: l3) ++ ctx.consts
          rw [hl3, List.cons_append]
        · intro k hk
          simp only [List.map_cons, List.mem_cons] at hk
          rcases hk with hk1 | hk2
          · subst hk1
            exact ⟨by omega, hir⟩
          · have h5 := k3 k hk2
            exact ⟨by omega, h5.2⟩
  · intro ctx' h
    simp only at h
    rcases h1 : p inp ctx with ⟨o, c⟩
    rcases o with _ | ⟨v, r⟩
    · rw [pinspectCtx_none h1] at h
      have h2 : c = ctx' := congrArg Prod.snd h
      exact h2 ▸ hpfail c h1
    · rw [pinspectCtx_eval_succ h1] at h
      exact absurd (congrArg Prod.fst h) (by simp)

theorem consumesPos_pathBackRef : ConsumesPos pathBackRef :=
  consumesPos_pmapOptCtx (consumesPos_preceded_tag1 advances_parseBase62Number)

theorem consumesPos_tyBackRef : ConsumesPos tyBackRef :=
  consumesPos_pmapOptCtx (consumesPos_preceded_tag1 advances_parseBase62Number)

theorem consumesPos_constBackRef : ConsumesPos constBackRef :=
  consumesPos_pmapOptCtx (consumesPos_preceded_tag1 advances_parseBase62Number)

theorem consumesPos_pathAlt (pd : PunyDecode) (fuel : Nat) :
    ConsumesPos (pathAlt pd (grammar pd fuel) fuel) := by
  obtain ⟨hpathA, himplA, hgenA, htyA, hfnA, hdynBA, hdynTA, hdynAA, hconstA, hcfA⟩ :=
    advGrammar_grammar pd fuel
  exact (consumesPos_por (consumesPos_pmap (consumesPos_preceded_tag1 advances_parseIdentifier)) (consumesPos_por (consumesPos_pmap (consumesPos_preceded_tag1 (advances_pand himplA htyA))) (consumesPos_por (consumesPos_pmap (consumesPos_preceded_tag1 (advances_pand (advances_pand himplA htyA) hpathA))) (consumesPos_por (consumesPos_pmap (consumesPos_preceded_tag1 (advances_pand htyA hpathA))) (consumesPos_por (consumesPos_pmap (consumesPos_preceded_tag1 (advances_pand (advances_pand advances_takeP hpathA) advances_parseIdentifier))) (consumesPos_pmap (consumesPos_preceded_tag1 (advances_terminated (advances_pand hpathA (advances_pmany0 hgenA fuel)) advances_tag))))))))

theorem consumesPos_tyAlt (pd : PunyDecode) (fuel : Nat) :
    ConsumesPos (tyAlt pd (grammar pd fuel) fuel) := by
  obtain ⟨hpathA, himplA, hgenA, htyA, hfnA, hdynBA, hdynTA, hdynAA, hconstA, hcfA⟩ :=
    advGrammar_grammar pd fuel
  exact (consumesPos_por (consumesPos_pmap consumesPos_parseBasicType) (consumesPos_por (consumesPos_pmap (cpGrammar_grammar pd fuel).1) (consumesPos_por (consumesPos_pmap (consumesPos_preceded_tag1 (advances_pand htyA hconstA))) (consumesPos_por (consumesPos_pmap (consumesPos_preceded_tag1 htyA)) (consumesPos_por (consumesPos_pmap (consumesPos_preceded_tag1 (advances_terminated (advances_pmany0 htyA fuel) advances_tag))) (consumesPos_por (consumesPos_pmap (consumesPos_preceded_tag1 (advances_pand (advances_pmap (advances_popt advances_parseLifetime)) htyA))) (consumesPos_por (consumesPos_pmap (consumesPos_preceded_tag1 (advances_pand (advances_pmap (advances_popt advances_parseLifetime)) htyA))) (consumesPos_por (consumesPos_pmap (consumesPos_preceded_tag1 htyA)) (consumesPos_por (consumesPos_pmap (consumesPos_preceded_tag1 htyA)) (consumesPos_por (consumesPos_pmap (consumesPos_preceded_tag1 hfnA)) (consumesPos_pmap (consumesPos_preceded_tag1 (advances_pand hdynBA advances_parseLifetime)))))))))))))

theorem consumesPos_constAlt (pd : PunyDecode) (fuel : Nat) :
    ConsumesPos (constAlt pd (grammar pd fuel) fuel) := by
  obtain ⟨hpathA, himplA, hgenA, htyA, hfnA, hdynBA, hdynTA, hdynAA, hconstA, hcfA⟩ :=
    advGrammar_grammar pd fuel
  exact (consumesPos_por (consumesPos_pmap (consumesPos_preceded_tag1 advances_parseConstInt)) (consumesPos_por (consumesPos_pmap (consumesPos_preceded_tag1 advances_parseConstInt)) (consumesPos_por (consumesPos_pmap (consumesPos_preceded_tag1 advances_parseConstInt)) (consumesPos_por (consumesPos_pmap (consumesPos_preceded_tag1 advances_parseConstInt)) (consumesPos_por (consumesPos_pmap (consumesPos_preceded_tag1 advances_parseConstInt)) (consumesPos_por (consumesPos_pmap (consumesPos_preceded_tag1 advances_parseConstInt)) (consumesPos_por (consumesPos_pmap (consumesPos_preceded_tag1 advances_parseConstInt)) (consumesPos_por (consumesPos_pmap (consumesPos_preceded_tag1 advances_parseConstInt)) (consumesPos_por (consumesPos_pmap (consumesPos_preceded_tag1 advances_parseConstInt)) (consumesPos_por (consumesPos_pmap (consumesPos_preceded_tag1 advances_parseConstInt)) (consumesPos_por (consumesPos_pmap (consumesPos_preceded_tag1 advances_parseConstInt)) (consumesPos_por (consumesPos_pmap (consumesPos_preceded_tag1 advances_parseConstInt)) (consumesPos_por (consumesPos_preceded_tag1 (advances_pmapOpt advances_parseConstInt)) (consumesPos_por (consumesPos_preceded_tag1 (advances_pmapOpt advances_parseConstInt)) (consumesPos_por (consumesPos_pmap (consumesPos_preceded_tag1 advances_parseConstStr)) (consumesPos_por (consumesPos_pmap (consumesPos_preceded_tag1 hconstA)) (consumesPos_por (consumesPos_pmap (consumesPos_preceded_tag1 hconstA)) (consumesPos_por (consumesPos_pmap (consumesPos_preceded_tag1 (advances_terminated (advances_pmany0 hconstA fuel) advances_tag))) (consumesPos_por (consumesPos_pmap (consumesPos_preceded_tag1 (advances_terminated (advances_pmany0 hconstA fuel) advances_tag))) (consumesPos_por (consumesPos_pmap (consumesPos_preceded_tag1 (advances_pand hpathA hcfA))) (consumesPos_pmap consumesPos_tag1)))))))))))))))))))))

theorem keyInvGrammar_grammar (pd : PunyDecode) :
    ∀ fuel, KeyInvGrammar (grammar pd fuel)
  | 0 =>
    ⟨keyInv_of_ctxPure ctxPure_pfail _ _ _ _, keyInv_of_ctxPure ctxPure_pfail _ _ _ _,
     keyInv_of_ctxPure ctxPure_pfail _ _ _ _, keyInv_of_ctxPure ctxPure_pfail _ _ _ _,
     keyInv_of_ctxPure ctxPure_pfail _ _ _ _, keyInv_of_ctxPure ctxPure_pfail _ _ _ _,
     keyInv_of_ctxPure ctxPure_pfail _ _ _ _, keyInv_of_ctxPure ctxPure_pfail _ _ _ _,
     keyInv_of_ctxPure ctxPure_pfail _ _ _ _, keyInv_of_ctxPure ctxPure_pfail _ _ _ _⟩
  | fuel + 1 => by
    obtain ⟨ihp, ihimpl, ihga, ihty, ihfn, ihdb, ihdt, ihbind, ihconst, ihcf⟩ :=
      keyInvGrammar_grammar pd fuel
    obtain ⟨hAp, hAimpl, hAga, hAty, hAfn, hAdb, hAdt, hAbind, hAconst, hAcf⟩ :=
      advGrammar_grammar pd fuel
    have p000 : KeyInv (grammar pd fuel).path [] 0 0 0 :=
      keyInv_mono ihp (by simp) (by omega) (by omega) (by omega)
    have t000 : KeyInv (grammar pd fuel).ty [] 0 0 0 :=
      keyInv_mono ihty (by simp) (by omega) (by omega) (by omega)
    have c000 : KeyInv (grammar pd fuel).const [] 0 0 0 :=
      keyInv_mono ihconst (by simp) (by omega) (by omega) (by omega)
    have impl000 : KeyInv (grammar pd fuel).implPath [] 0 0 0 :=
      keyInv_mono ihimpl (by simp) (by omega) (by omega) (by omega)
    have ga000 : KeyInv (grammar pd fuel).genericArg [] 0 0 0 :=
      keyInv_mono ihga (by simp) (by omega) (by omega) (by omega)
    have fn000 : KeyInv (grammar pd fuel).fnSig [] 0 0 0 :=
      keyInv_mono ihfn (by simp) (by omega) (by omega) (by omega)
    have db000 : KeyInv (grammar pd fuel).dynBounds [] 0 0 0 :=
      keyInv_mono ihdb (by simp) (by omega) (by omega) (by omega)
    have cf000 : KeyInv (grammar pd fuel).constFields [] 0 0 0 :=
      keyInv_mono ihcf (by simp) (by omega) (by omega) (by omega)
    refine ⟨?_, ?_, ?_, ?_, ?_, ?_, ?_, ?_, ?_, ?_⟩
    · -- path
      rw [path_unfold pd fuel]
      have hbC : KeyInv (pmap (preceded (tag ['C']) (parseIdentifier pd)) Path.crateRoot) [] 1 1 1 :=
        keyInv_pmap (keyInv_preceded_tag1
          (keyInv_of_ctxPure ctxPure_parseIdentifier [] 0 0 0))
      have hbM : KeyInv (pmap (preceded (tag ['M']) (pand (grammar pd fuel).implPath (grammar pd fuel).ty)) (fun x => Path.inherentImpl x.1 x.2)) [] 1 1 1 :=
        keyInv_pmap (keyInv_preceded_tag1
          (keyInv_pand impl000 hAimpl t000 hAty (cleanOn_nil _)))
      have hbX : KeyInv (pmap (preceded (tag ['X']) (pand (pand (grammar pd fuel).implPath (grammar pd fuel).ty) (grammar pd fuel).path)) (fun x => Path.traitImpl x.1.1 x.1.2 x.2)) [] 1 1 1 :=
        keyInv_pmap (keyInv_preceded_tag1
          (keyInv_pand (keyInv_pand impl000 hAimpl t000 hAty (cleanOn_nil _))
            (advances_pand hAimpl hAty) p000 hAp (cleanOn_nil _)))
      have hbY : KeyInv (pmap (preceded (tag ['Y']) (pand (grammar pd fuel).ty (grammar pd fuel).path)) (fun x => Path.traitDefinition x.1 x.2)) [] 1 1 1 :=
        keyInv_pmap (keyInv_preceded_tag1
          (keyInv_pand t000 hAty p000 hAp (cleanOn_nil _)))
      have hbN : KeyInv (pmap (preceded (tag ['N']) (pand (pand (takeP 1) (grammar pd fuel).path) (parseIdentifier pd))) (fun x => Path.nested (x.1.1.headD ' ') x.1.2 x.2)) [] 1 1 1 :=
        keyInv_pmap (keyInv_preceded_tag1
          (keyInv_pand (keyInv_pand (keyInv_of_ctxPure ctxPure_takeP [] 0 0 0)
              advances_takeP p000 hAp (cleanOn_nil _))
            (advances_pand advances_takeP hAp)
            (keyInv_of_ctxPure ctxPure_parseIdentifier [] 0 0 0)
            advances_parseIdentifier (cleanOn_nil _)))
      have hbI : KeyInv (pmap (delimited (tag ['I']) (pand (grammar pd fuel).path (pmany0 (grammar pd fuel).genericArg fuel)) (tag ['E'])) (fun x => Path.generic x.1 x.2)) [] 1 1 1 :=
        keyInv_pmap (keyInv_preceded_tag1
          (keyInv_terminated_tag1
            (keyInv_pand p000 hAp
              (keyInv_pmany0 ga000 hAga (dirtyOn_grammar_genericArg pd fuel)
                (cleanOn_nil _) fuel)
              (advances_pmany0 hAga fuel) (cleanOn_nil _))
            (advances_pand hAp (advances_pmany0 hAga fuel)) (by decide)))
      have halt := (keyInv_por hbC (keyInv_por hbM (keyInv_por hbX (keyInv_por hbY (keyInv_por hbN hbI (dirtyOn_pmap (dirtyOn_preceded_tag1 'N' _)) (cleanOn_pmap (cleanOn_preceded_tag1 (by decide)))) (dirtyOn_pmap (dirtyOn_preceded_tag1 'Y' _)) (cleanOn_por (cleanOn_pmap (cleanOn_preceded_tag1 (by decide))) (cleanOn_pmap (cleanOn_preceded_tag1 (by decide))))) (dirtyOn_pmap (dirtyOn_preceded_tag1 'X' _)) (cleanOn_por (cleanOn_pmap (cleanOn_preceded_tag1 (by decide))) (cleanOn_por (cleanOn_pmap (cleanOn_preceded_tag1 (by decide))) (cleanOn_pmap (cleanOn_preceded_tag1 (by decide)))))) (dirtyOn_pmap (dirtyOn_preceded_tag1 'M' _)) (cleanOn_por (cleanOn_pmap (cleanOn_preceded_tag1 (by decide))) (cleanOn_por (cleanOn_pmap (cleanOn_preceded_tag1 (by decide))) (cleanOn_por (cleanOn_pmap (cleanOn_preceded_tag1 (by decide))) (cleanOn_pmap (cleanOn_preceded_tag1 (by decide))))))) (dirtyOn_pmap (dirtyOn_preceded_tag1 'C' _)) (cleanOn_por (cleanOn_pmap (cleanOn_preceded_tag1 (by decide))) (cleanOn_por (cleanOn_pmap (cleanOn_preceded_tag1 (by decide))) (cleanOn_por (cleanOn_pmap (cleanOn_preceded_tag1 (by decide))) (cleanOn_por (cleanOn_pmap (cleanOn_preceded_tag1 (by decide))) (cleanOn_pmap (cleanOn_preceded_tag1 (by decide))))))))
      exact keyInv_memoPath
        (keyInv_mono (keyInv_por (keyInv_pmapRc halt)
          (keyInv_of_ctxPure ctxPure_pathBackRef [] 1 1 1)
          (dirtyOn_pmapRc (dirtyOn_pathAlt pd fuel))
          (cleanOn_pathBackRef (by decide))) (by simp) le_rfl le_rfl le_rfl)
        (consumesPos_por (consumesPos_pmapRc (consumesPos_pathAlt pd fuel))
          consumesPos_pathBackRef)
    · -- implPath
      rw [show (grammar pd (fuel + 1)).implPath =
        pmap (pand (optU64 parseDisambiguator) (grammar pd fuel).path)
          (fun x => ImplPath.mk x.1 x.2) from rfl]
      exact keyInv_pmap (keyInv_pand
        (keyInv_of_ctxPure (ctxPure_optU64 ctxPure_parseDisambiguator) [] 0 1 1)
        (advances_optU64 advances_parseDisambiguator) ihp hAp (cleanOn_nil _))
    · -- genericArg
      rw [show (grammar pd (fuel + 1)).genericArg =
        por (pmap parseLifetime GenericArg.lifetime)
          (por (pmap (grammar pd fuel).ty GenericArg.ty)
            (pmap (preceded (tag ['K']) (grammar pd fuel).const) GenericArg.const))
        from rfl]
      have gb1 : KeyInv (pmap parseLifetime GenericArg.lifetime) [] 0 0 1 :=
        keyInv_of_ctxPure (ctxPure_pmap ctxPure_parseLifetime) [] 0 0 1
      have gb2 : KeyInv (pmap (grammar pd fuel).ty GenericArg.ty) [] 0 0 1 :=
        keyInv_pmap ihty
      have gb3 : KeyInv (pmap (preceded (tag ['K']) (grammar pd fuel).const)
          GenericArg.const) [] 0 0 1 :=
        keyInv_mono (keyInv_pmap (keyInv_preceded_tag1 c000)) (by simp) (by omega)
          (by omega) (by omega)
      refine keyInv_mono (keyInv_por gb1
        (keyInv_por gb2 gb3
          (dirtyOn_pmap (dirtyOn_grammar_ty pd fuel))
          (cleanOn_pmap (cleanOn_preceded_tag1 (by decide))))
        (dirtyOn_of_ctxPure (ctxPure_pmap ctxPure_parseLifetime) [])
        (cleanOn_nil _)) (by simp) le_rfl le_rfl le_rfl
    · -- ty
      rw [ty_unfold pd fuel]
      have tbBasic : KeyInv (pmap parseBasicType Ty.basic) [] 0 1 1 :=
        keyInv_of_ctxPure (ctxPure_pmap ctxPure_parseBasicType) ([] : List Char) 0 1 1
      have tbPath : KeyInv (pmap (grammar pd fuel).path Ty.named) [] 0 1 1 :=
        keyInv_pmap ihp
      have tbA : KeyInv (pmap (preceded (tag ['A']) (pand (grammar pd fuel).ty (grammar pd fuel).const)) (fun x => Ty.array x.1 x.2)) [] 0 1 1 :=
        keyInv_mono (keyInv_pmap (keyInv_preceded_tag1
        (keyInv_pand t000 hAty c000 hAconst (cleanOn_nil _)))) (by simp) (by omega) (by omega) (by omega)
      have tbS : KeyInv (pmap (preceded (tag ['S']) (grammar pd fuel).ty) Ty.slice) [] 0 1 1 :=
        keyInv_mono (keyInv_pmap (keyInv_preceded_tag1 t000)) (by simp) (by omega) (by omega) (by omega)
      have tbT : KeyInv (pmap (delimited (tag ['T']) (pmany0 (grammar pd fuel).ty fuel) (tag ['E'])) Ty.tuple) [] 0 1 1 :=
        keyInv_mono (keyInv_pmap (keyInv_preceded_tag1
        (keyInv_terminated_tag1
          (keyInv_pmany0 t000 hAty (dirtyOn_grammar_ty pd fuel) (cleanOn_nil _) fuel)
          (advances_pmany0 hAty fuel) (by decide)))) (by simp) (by omega) (by omega) (by omega)
      have tbR : KeyInv (pmap (preceded (tag ['R']) (pand (pmap (popt parseLifetime) (fun o => o.getD 0)) (grammar pd fuel).ty)) (fun x => Ty.ref x.1 x.2)) [] 0 1 1 :=
        keyInv_mono (keyInv_pmap (keyInv_preceded_tag1
        (keyInv_pand
          (keyInv_of_ctxPure (ctxPure_pmap (ctxPure_popt ctxPure_parseLifetime)) [] 0 0 0)
          (advances_pmap (advances_popt advances_parseLifetime)) t000 hAty
          (cleanOn_nil _)))) (by simp) (by omega) (by omega) (by omega)
      have tbQ : KeyInv (pmap (preceded (tag ['Q']) (pand (pmap (popt parseLifetime) (fun o => o.getD 0)) (grammar pd fuel).ty)) (fun x => Ty.refMut x.1 x.2)) [] 0 1 1 :=
        keyInv_mono (keyInv_pmap (keyInv_preceded_tag1
        (keyInv_pand
          (keyInv_of_ctxPure (ctxPure_pmap (ctxPure_popt ctxPure_parseLifetime)) [] 0 0 0)
          (advances_pmap (advances_popt advances_parseLifetime)) t000 hAty
          (cleanOn_nil _)))) (by simp) (by omega) (by omega) (by omega)
      have tbP : KeyInv (pmap (preceded (tag ['P']) (grammar pd fuel).ty) Ty.ptrConst) [] 0 1 1 :=
        keyInv_mono (keyInv_pmap (keyInv_preceded_tag1 t000)) (by simp) (by omega) (by omega) (by omega)
      have tbO : KeyInv (pmap (preceded (tag ['O']) (grammar pd fuel).ty) Ty.ptrMut) [] 0 1 1 :=
        keyInv_mono (keyInv_pmap (keyInv_preceded_tag1 t000)) (by simp) (by omega) (by omega) (by omega)
      have tbF : KeyInv (pmap (preceded (tag ['F']) (grammar pd fuel).fnSig) Ty.fn) [] 0 1 1 :=
        keyInv_mono (keyInv_pmap (keyInv_preceded_tag1 fn000)) (by simp) (by omega) (by omega) (by omega)
      have tbD : KeyInv (pmap (preceded (tag ['D']) (pand (grammar pd fuel).dynBounds parseLifetime)) (fun x => Ty.dynTrait x.1 x.2)) [] 0 1 1 :=
        keyInv_mono (keyInv_pmap (keyInv_preceded_tag1
        (keyInv_pand db000 hAdb
          (keyInv_of_ctxPure ctxPure_parseLifetime [] 0 0 0)
          advances_parseLifetime (cleanOn_nil _)))) (by simp) (by omega) (by omega) (by omega)
      have halt := (keyInv_por tbBasic (keyInv_por tbPath (keyInv_por tbA (keyInv_por tbS (keyInv_por tbT (keyInv_por tbR (keyInv_por tbQ (keyInv_por tbP (keyInv_por tbO (keyInv_por tbF tbD (dirtyOn_pmap (dirtyOn_preceded_tag1 'F' _)) (cleanOn_pmap (cleanOn_preceded_tag1 (by decide)))) (dirtyOn_pmap (dirtyOn_preceded_tag1 'O' _)) (cleanOn_por (cleanOn_pmap (cleanOn_preceded_tag1 (by decide))) (cleanOn_pmap (cleanOn_preceded_tag1 (by decide))))) (dirtyOn_pmap (dirtyOn_preceded_tag1 'P' _)) (cleanOn_por (cleanOn_pmap (cleanOn_preceded_tag1 (by decide))) (cleanOn_por (cleanOn_pmap (cleanOn_preceded_tag1 (by decide))) (cleanOn_pmap (cleanOn_preceded_tag1 (by decide)))))) (dirtyOn_pmap (dirtyOn_preceded_tag1 'Q' _)) (cleanOn_por (cleanOn_pmap (cleanOn_preceded_tag1 (by decide))) (cleanOn_por (cleanOn_pmap (cleanOn_preceded_tag1 (by decide))) (cleanOn_por (cleanOn_pmap (cleanOn_preceded_tag1 (by decide))) (cleanOn_pmap (cleanOn_preceded_tag1 (by decide))))))) (dirtyOn_pmap (dirtyOn_preceded_tag1 'R' _)) (cleanOn_por (cleanOn_pmap (cleanOn_preceded_tag1 (by decide))) (cleanOn_por (cleanOn_pmap (cleanOn_preceded_tag1 (by decide))) (cleanOn_por (cleanOn_pmap (cleanOn_preceded_tag1 (by decide))) (cleanOn_por (cleanOn_pmap (cleanOn_preceded_tag1 (by decide))) (cleanOn_pmap (cleanOn_preceded_tag1 (by decide)))))))) (dirtyOn_pmap (dirtyOn_preceded_tag1 'T' _)) (cleanOn_por (cleanOn_pmap (cleanOn_preceded_tag1 (by decide))) (cleanOn_por (cleanOn_pmap (cleanOn_preceded_tag1 (by decide))) (cleanOn_por (cleanOn_pmap (cleanOn_preceded_tag1 (by decide))) (cleanOn_por (cleanOn_pmap (cleanOn_preceded_tag1 (by decide))) (cleanOn_por (cleanOn_pmap (cleanOn_preceded_tag1 (by decide))) (cleanOn_pmap (cleanOn_preceded_tag1 (by decide))))))))) (dirtyOn_pmap (dirtyOn_preceded_tag1 'S' _)) (cleanOn_por (cleanOn_pmap (cleanOn_preceded_tag1 (by decide))) (cleanOn_por (cleanOn_pmap (cleanOn_preceded_tag1 (by decide))) (cleanOn_por (cleanOn_pmap (cleanOn_preceded_tag1 (by decide))) (cleanOn_por (cleanOn_pmap (cleanOn_preceded_tag1 (by decide))) (cleanOn_por (cleanOn_pmap (cleanOn_preceded_tag1 (by decide))) (cleanOn_por (cleanOn_pmap (cleanOn_preceded_tag1 (by decide))) (cleanOn_pmap (cleanOn_preceded_tag1 (by decide)))))))))) (dirtyOn_pmap (dirtyOn_preceded_tag1 'A' _)) (cleanOn_por (cleanOn_pmap (cleanOn_preceded_tag1 (by decide))) (cleanOn_por (cleanOn_pmap (cleanOn_preceded_tag1 (by decide))) (cleanOn_por (cleanOn_pmap (cleanOn_preceded_tag1 (by decide))) (cleanOn_por (cleanOn_pmap (cleanOn_preceded_tag1 (by decide))) (cleanOn_por (cleanOn_pmap (cleanOn_preceded_tag1 (by decide))) (cleanOn_por (cleanOn_pmap (cleanOn_preceded_tag1 (by decide))) (cleanOn_por (cleanOn_pmap (cleanOn_preceded_tag1 (by decide))) (cleanOn_pmap (cleanOn_preceded_tag1 (by decide))))))))))) (dirtyOn_pmap (dirtyOn_grammar_path pd fuel)) (cleanOn_por (cleanOn_pmap (cleanOn_preceded_tag1 (by decide))) (cleanOn_por (cleanOn_pmap (cleanOn_preceded_tag1 (by decide))) (cleanOn_por (cleanOn_pmap (cleanOn_preceded_tag1 (by decide))) (cleanOn_por (cleanOn_pmap (cleanOn_preceded_tag1 (by decide))) (cleanOn_por (cleanOn_pmap (cleanOn_preceded_tag1 (by decide))) (cleanOn_por (cleanOn_pmap (cleanOn_preceded_tag1 (by decide))) (cleanOn_por (cleanOn_pmap (cleanOn_preceded_tag1 (by decide))) (cleanOn_por (cleanOn_pmap (cleanOn_preceded_tag1 (by decide))) (cleanOn_pmap (cleanOn_preceded_tag1 (by decide)))))))))))) (dirtyOn_of_ctxPure (ctxPure_pmap ctxPure_parseBasicType) []) (cleanOn_nil _))
      exact keyInv_memoType
        (keyInv_mono (keyInv_por (keyInv_pmapRc halt)
          (keyInv_of_ctxPure ctxPure_tyBackRef [] 0 1 1)
          (dirtyOn_pmapRc (dirtyOn_tyAlt pd fuel))
          (cleanOn_tyBackRef (by decide))) (by simp) le_rfl le_rfl le_rfl)
        (consumesPos_por (consumesPos_pmapRc (consumesPos_tyAlt pd fuel))
          consumesPos_tyBackRef)
    · -- fnSig
      rw [show (grammar pd (fuel + 1)).fnSig =
        pmap (pand (pand (pand (pand (optU64 parseBinder)
                                     (pmap (popt (tag ['U'])) Option.isSome))
                               (popt (preceded (tag ['K']) (parseAbi pd))))
                         (terminated (pmany0 (grammar pd fuel).ty fuel) (tag ['E'])))
                   (grammar pd fuel).ty)
          (fun x => FnSig.mk x.1.1.1.1 x.1.1.1.2 x.1.1.2 x.1.2 x.2) from rfl]
      have habc : KeyInv (pand (pand (optU64 parseBinder)
          (pmap (popt (tag ['U'])) Option.isSome))
          (popt (preceded (tag ['K']) (parseAbi pd)))) [] 0 0 1 :=
        keyInv_of_ctxPure (ctxPure_pand
          (ctxPure_pand (ctxPure_optU64 ctxPure_parseBinder)
            (ctxPure_pmap (ctxPure_popt ctxPure_tag)))
          (ctxPure_popt (ctxPure_preceded ctxPure_tag ctxPure_parseAbi))) [] 0 0 1
      have habcA : Advances (pand (pand (optU64 parseBinder)
          (pmap (popt (tag ['U'])) Option.isSome))
          (popt (preceded (tag ['K']) (parseAbi pd)))) :=
        advances_pand (advances_pand (advances_optU64 advances_parseBinder)
          (advances_pmap (advances_popt advances_tag)))
          (advances_popt (advances_preceded advances_tag advances_parseAbi))
      have hterm : KeyInv (terminated (pmany0 (grammar pd fuel).ty fuel) (tag ['E']))
          [] 0 0 1 :=
        keyInv_terminated_tag1
          (keyInv_pmany0 ihty hAty (dirtyOn_grammar_ty pd fuel) (cleanOn_nil _) fuel)
          (advances_pmany0 hAty fuel) (by decide)
      exact keyInv_pmap (keyInv_pand
        (keyInv_pand habc habcA hterm
          (advances_terminated (advances_pmany0 hAty fuel) advances_tag)
          (cleanOn_nil _))
        (advances_pand habcA
          (advances_terminated (advances_pmany0 hAty fuel) advances_tag))
        ihty hAty (cleanOn_nil _))
    · -- dynBounds
      rw [show (grammar pd (fuel + 1)).dynBounds =
        pmap (pand (optU64 parseBinder)
          (terminated (pmany0 (grammar pd fuel).dynTrait fuel) (tag ['E'])))
          (fun x => DynBounds.mk x.1 x.2) from rfl]
      exact keyInv_pmap (keyInv_pand
        (keyInv_of_ctxPure (ctxPure_optU64 ctxPure_parseBinder) [] 0 1 1)
        (advances_optU64 advances_parseBinder)
        (keyInv_terminated_tag1
          (keyInv_pmany0 ihdt hAdt (dirtyOn_grammar_dynTrait pd fuel)
            (cleanOn_grammar_dynTrait pd fuel (by decide)) fuel)
          (advances_pmany0 hAdt fuel) (by decide))
        (advances_terminated (advances_pmany0 hAdt fuel) advances_tag)
        (cleanOn_nil _))
    · -- dynTrait
      rw [show (grammar pd (fuel + 1)).dynTrait =
        pmap (pand (grammar pd fuel).path
          (pmany0 (grammar pd fuel).dynTraitAssocBinding fuel))
          (fun x => DynTrait.mk x.1 x.2) from rfl]
      refine keyInv_mono (keyInv_pmap (keyInv_pand ihp hAp
        (keyInv_pmany0 (keyInv_mono ihbind (by simp) (by omega) (by omega) (by omega)) hAbind
          (dirtyOn_grammar_binding pd fuel) (cleanOn_nil _) fuel)
        (advances_pmany0 hAbind fuel) (cleanOn_nil _))) (by simp) le_rfl le_rfl le_rfl
    · -- dynTraitAssocBinding
      rw [show (grammar pd (fuel + 1)).dynTraitAssocBinding =
        pmap (preceded (tag ['p'])
          (pand (parseUndisambiguatedIdentifier pd) (grammar pd fuel).ty))
          (fun x => DynTraitAssocBinding.mk x.1 x.2) from rfl]
      exact keyInv_pmap (keyInv_preceded_tag1
        (keyInv_pand
          (keyInv_of_ctxPure ctxPure_parseUndisambiguatedIdentifier [] 0 0 0)
          advances_parseUndisambiguatedIdentifier t000 hAty (cleanOn_nil _)))
    · -- const
      rw [const_unfold pd fuel]
      have cba : KeyInv (pmap (preceded (tag ['a']) (parseConstInt true 8)) Const.i8) [] 1 1 1 :=
        keyInv_pmap (keyInv_preceded_tag1 (keyInv_of_ctxPure ctxPure_parseConstInt [] 0 0 0))
      have cbh : KeyInv (pmap (preceded (tag ['h']) (parseConstInt false 8)) Const.u8) [] 1 1 1 :=
        keyInv_pmap (keyInv_preceded_tag1 (keyInv_of_ctxPure ctxPure_parseConstInt [] 0 0 0))
      have cbi : KeyInv (pmap (preceded (tag ['i']) (parseConstInt true 64)) Const.isize) [] 1 1 1 :=
        keyInv_pmap (keyInv_preceded_tag1 (keyInv_of_ctxPure ctxPure_parseConstInt [] 0 0 0))
      have cbj : KeyInv (pmap (preceded (tag ['j']) (parseConstInt false 64)) Const.usize) [] 1 1 1 :=
        keyInv_pmap (keyInv_preceded_tag1 (keyInv_of_ctxPure ctxPure_parseConstInt [] 0 0 0))
      have cbl : KeyInv (pmap (preceded (tag ['l']) (parseConstInt true 32)) Const.i32) [] 1 1 1 :=
        keyInv_pmap (keyInv_preceded_tag1 (keyInv_of_ctxPure ctxPure_parseConstInt [] 0 0 0))
      have cbm : KeyInv (pmap (preceded (tag ['m']) (parseConstInt false 32)) Const.u32) [] 1 1 1 :=
        keyInv_pmap (keyInv_preceded_tag1 (keyInv_of_ctxPure ctxPure_parseConstInt [] 0 0 0))
      have cbn : KeyInv (pmap (preceded (tag ['n']) (parseConstInt true 128)) Const.i128) [] 1 1 1 :=
        keyInv_pmap (keyInv_preceded_tag1 (keyInv_of_ctxPure ctxPure_parseConstInt [] 0 0 0))
      have cbo : KeyInv (pmap (preceded (tag ['o']) (parseConstInt false 128)) Const.u128) [] 1 1 1 :=
        keyInv_pmap (keyInv_preceded_tag1 (keyInv_of_ctxPure ctxPure_parseConstInt [] 0 0 0))
      have cbs : KeyInv (pmap (preceded (tag ['s']) (parseConstInt true 16)) Const.i16) [] 1 1 1 :=
        keyInv_pmap (keyInv_preceded_tag1 (keyInv_of_ctxPure ctxPure_parseConstInt [] 0 0 0))
      have cbt : KeyInv (pmap (preceded (tag ['t']) (parseConstInt false 16)) Const.u16) [] 1 1 1 :=
        keyInv_pmap (keyInv_preceded_tag1 (keyInv_of_ctxPure ctxPure_parseConstInt [] 0 0 0))
      have cbx : KeyInv (pmap (preceded (tag ['x']) (parseConstInt true 64)) Const.i64) [] 1 1 1 :=
        keyInv_pmap (keyInv_preceded_tag1 (keyInv_of_ctxPure ctxPure_parseConstInt [] 0 0 0))
      have cby : KeyInv (pmap (preceded (tag ['y']) (parseConstInt false 64)) Const.u64) [] 1 1 1 :=
        keyInv_pmap (keyInv_preceded_tag1 (keyInv_of_ctxPure ctxPure_parseConstInt [] 0 0 0))
      have cbb : KeyInv (preceded (tag ['b']) (pmapOpt (parseConstInt false 8) (fun r => if r = 0 then some (Const.bool false) else if r = 1 then some (Const.bool true) else none))) [] 1 1 1 :=
        keyInv_preceded_tag1 (keyInv_pmapOpt (keyInv_of_ctxPure ctxPure_parseConstInt [] 0 0 0))
      have cbc : KeyInv (preceded (tag ['c']) (pmapOpt (parseConstInt false 32) (fun r => if Nat.isValidChar r.toNat then some (Const.char (Char.ofNat r.toNat)) else none))) [] 1 1 1 :=
        keyInv_preceded_tag1 (keyInv_pmapOpt (keyInv_of_ctxPure ctxPure_parseConstInt [] 0 0 0))
      have cbe : KeyInv (pmap (preceded (tag ['e']) parseConstStr) Const.str) [] 1 1 1 :=
        keyInv_pmap (keyInv_preceded_tag1 (keyInv_of_ctxPure ctxPure_parseConstStr [] 0 0 0))
      have cbU_R : KeyInv (pmap (preceded (tag ['R']) (grammar pd fuel).const) Const.ref) [] 1 1 1 :=
        keyInv_pmap (keyInv_preceded_tag1 c000)
      have cbU_Q : KeyInv (pmap (preceded (tag ['Q']) (grammar pd fuel).const) Const.refMut) [] 1 1 1 :=
        keyInv_pmap (keyInv_preceded_tag1 c000)
      have cbU_A : KeyInv (pmap (delimited (tag ['A']) (pmany0 (grammar pd fuel).const fuel) (tag ['E'])) Const.array) [] 1 1 1 :=
        keyInv_pmap (keyInv_preceded_tag1
          (keyInv_terminated_tag1
            (keyInv_pmany0 c000 hAconst (dirtyOn_grammar_const pd fuel) (cleanOn_nil _) fuel)
            (advances_pmany0 hAconst fuel) (by decide)))
      have cbU_T : KeyInv (pmap (delimited (tag ['T']) (pmany0 (grammar pd fuel).const fuel) (tag ['E'])) Const.tuple) [] 1 1 1 :=
        keyInv_pmap (keyInv_preceded_tag1
          (keyInv_terminated_tag1
            (keyInv_pmany0 c000 hAconst (dirtyOn_grammar_const pd fuel) (cleanOn_nil _) fuel)
            (advances_pmany0 hAconst fuel) (by decide)))
      have cbU_V : KeyInv (pmap (preceded (tag ['V']) (pand (grammar pd fuel).path (grammar pd fuel).constFields)) (fun x => Const.namedStruct x.1 x.2)) [] 1 1 1 :=
        keyInv_pmap (keyInv_preceded_tag1
          (keyInv_pand p000 hAp cf000 hAcf (cleanOn_nil _)))
      have cbp : KeyInv (pmap (tag ['p']) (fun _ => Const.placeholder)) [] 1 1 1 :=
        keyInv_of_ctxPure (ctxPure_pmap ctxPure_tag) ([] : List Char) 1 1 1
      have halt := (keyInv_por cba (keyInv_por cbh (keyInv_por cbi (keyInv_por cbj (keyInv_por cbl (keyInv_por cbm (keyInv_por cbn (keyInv_por cbo (keyInv_por cbs (keyInv_por cbt (keyInv_por cbx (keyInv_por cby (keyInv_por cbb (keyInv_por cbc (keyInv_por cbe (keyInv_por cbU_R (keyInv_por cbU_Q (keyInv_por cbU_A (keyInv_por cbU_T (keyInv_por cbU_V cbp (dirtyOn_pmap (dirtyOn_preceded_tag1 'V' _)) (cleanOn_pmap (cleanOn_tag1 (by decide)))) (dirtyOn_pmap (dirtyOn_preceded_tag1 'T' _)) (cleanOn_por (cleanOn_pmap (cleanOn_preceded_tag1 (by decide))) (cleanOn_pmap (cleanOn_tag1 (by decide))))) (dirtyOn_pmap (dirtyOn_preceded_tag1 'A' _)) (cleanOn_por (cleanOn_pmap (cleanOn_preceded_tag1 (by decide))) (cleanOn_por (cleanOn_pmap (cleanOn_preceded_tag1 (by decide))) (cleanOn_pmap (cleanOn_tag1 (by decide)))))) (dirtyOn_pmap (dirtyOn_preceded_tag1 'Q' _)) (cleanOn_por (cleanOn_pmap (cleanOn_preceded_tag1 (by decide))) (cleanOn_por (cleanOn_pmap (cleanOn_preceded_tag1 (by decide))) (cleanOn_por (cleanOn_pmap (cleanOn_preceded_tag1 (by decide))) (cleanOn_pmap (cleanOn_tag1 (by decide))))))) (dirtyOn_pmap (dirtyOn_preceded_tag1 'R' _)) (cleanOn_por (cleanOn_pmap (cleanOn_preceded_tag1 (by decide))) (cleanOn_por (cleanOn_pmap (cleanOn_preceded_tag1 (by decide))) (cleanOn_por (cleanOn_pmap (cleanOn_preceded_tag1 (by decide))) (cleanOn_por (cleanOn_pmap (cleanOn_preceded_tag1 (by decide))) (cleanOn_pmap (cleanOn_tag1 (by decide)))))))) (dirtyOn_pmap (dirtyOn_preceded_tag1 'e' _)) (cleanOn_por (cleanOn_pmap (cleanOn_preceded_tag1 (by decide))) (cleanOn_por (cleanOn_pmap (cleanOn_preceded_tag1 (by decide))) (cleanOn_por (cleanOn_pmap (cleanOn_preceded_tag1 (by decide))) (cleanOn_por (cleanOn_pmap (cleanOn_preceded_tag1 (by decide))) (cleanOn_por (cleanOn_pmap (cleanOn_preceded_tag1 (by decide))) (cleanOn_pmap (cleanOn_tag1 (by decide))))))))) (dirtyOn_preceded_tag1 'c' _) (cleanOn_por (cleanOn_pmap (cleanOn_preceded_tag1 (by decide))) (cleanOn_por (cleanOn_pmap (cleanOn_preceded_tag1 (by decide))) (cleanOn_por (cleanOn_pmap (cleanOn_preceded_tag1 (by decide))) (cleanOn_por (cleanOn_pmap (cleanOn_preceded_tag1 (by decide))) (cleanOn_por (cleanOn_pmap (cleanOn_preceded_tag1 (by decide))) (cleanOn_por (cleanOn_pmap (cleanOn_preceded_tag1 (by decide))) (cleanOn_pmap (cleanOn_tag1 (by decide)))))))))) (dirtyOn_preceded_tag1 'b' _) (cleanOn_por (cleanOn_preceded_tag1 (by decide)) (cleanOn_por (cleanOn_pmap (cleanOn_preceded_tag1 (by decide))) (cleanOn_por (cleanOn_pmap (cleanOn_preceded_tag1 (by decide))) (cleanOn_por (cleanOn_pmap (cleanOn_preceded_tag1 (by decide))) (cleanOn_por (cleanOn_pmap (cleanOn_preceded_tag1 (by decide))) (cleanOn_por (cleanOn_pmap (cleanOn_preceded_tag1 (by decide))) (cleanOn_por (cleanOn_pmap (cleanOn_preceded_tag1 (by decide))) (cleanOn_pmap (cleanOn_tag1 (by decide))))))))))) (dirtyOn_pmap (dirtyOn_preceded_tag1 'y' _)) (cleanOn_por (cleanOn_preceded_tag1 (by decide)) (cleanOn_por (cleanOn_preceded_tag1 (by decide)) (cleanOn_por (cleanOn_pmap (cleanOn_preceded_tag1 (by decide))) (cleanOn_por (cleanOn_pmap (cleanOn_preceded_tag1 (by decide))) (cleanOn_por (cleanOn_pmap (cleanOn_preceded_tag1 (by decide))) (cleanOn_por (cleanOn_pmap (cleanOn_preceded_tag1 (by decide))) (cleanOn_por (cleanOn_pmap (cleanOn_preceded_tag1 (by decide))) (cleanOn_por (cleanOn_pmap (cleanOn_preceded_tag1 (by decide))) (cleanOn_pmap (cleanOn_tag1 (by decide)))))))))))) (dirtyOn_pmap (dirtyOn_preceded_tag1 'x' _)) (cleanOn_por (cleanOn_pmap (cleanOn_preceded_tag1 (by decide))) (cleanOn_por (cleanOn_preceded_tag1 (by decide)) (cleanOn_por (cleanOn_preceded_tag1 (by decide)) (cleanOn_por (cleanOn_pmap (cleanOn_preceded_tag1 (by decide))) (cleanOn_por (cleanOn_pmap (cleanOn_preceded_tag1 (by decide))) (cleanOn_por (cleanOn_pmap (cleanOn_preceded_tag1 (by decide))) (cleanOn_por (cleanOn_pmap (cleanOn_preceded_tag1 (by decide))) (cleanOn_por (cleanOn_pmap (cleanOn_preceded_tag1 (by decide))) (cleanOn_por (cleanOn_pmap (cleanOn_preceded_tag1 (by decide))) (cleanOn_pmap (cleanOn_tag1 (by decide))))))))))))) (dirtyOn_pmap (dirtyOn_preceded_tag1 't' _)) (cleanOn_por (cleanOn_pmap (cleanOn_preceded_tag1 (by decide))) (cleanOn_por (cleanOn_pmap (cleanOn_preceded_tag1 (by decide))) (cleanOn_por (cleanOn_preceded_tag1 (by decide)) (cleanOn_por (cleanOn_preceded_tag1 (by decide)) (cleanOn_por (cleanOn_pmap (cleanOn_preceded_tag1 (by decide))) (cleanOn_por (cleanOn_pmap (cleanOn_preceded_tag1 (by decide))) (cleanOn_por (cleanOn_pmap (cleanOn_preceded_tag1 (by decide))) (cleanOn_por (cleanOn_pmap (cleanOn_preceded_tag1 (by decide))) (cleanOn_por (cleanOn_pmap (cleanOn_preceded_tag1 (by decide))) (cleanOn_por (cleanOn_pmap (cleanOn_preceded_tag1 (by decide))) (cleanOn_pmap (cleanOn_tag1 (by decide)))))))))))))) (dirtyOn_pmap (dirtyOn_preceded_tag1 's' _)) (cleanOn_por (cleanOn_pmap (cleanOn_preceded_tag1 (by decide))) (cleanOn_por (cleanOn_pmap (cleanOn_preceded_tag1 (by decide))) (cleanOn_por (cleanOn_pmap (cleanOn_preceded_tag1 (by decide))) (cleanOn_por (cleanOn_preceded_tag1 (by decide)) (cleanOn_por (cleanOn_preceded_tag1 (by decide)) (cleanOn_por (cleanOn_pmap (cleanOn_preceded_tag1 (by decide))) (cleanOn_por (cleanOn_pmap (cleanOn_preceded_tag1 (by decide))) (cleanOn_por (cleanOn_pmap (cleanOn_preceded_tag1 (by decide))) (cleanOn_por (cleanOn_pmap (cleanOn_preceded_tag1 (by decide))) (cleanOn_por (cleanOn_pmap (cleanOn_preceded_tag1 (by decide))) (cleanOn_por (cleanOn_pmap (cleanOn_preceded_tag1 (by decide))) (cleanOn_pmap (cleanOn_tag1 (by decide))))))))))))))) (dirtyOn_pmap (dirtyOn_preceded_tag1 'o' _)) (cleanOn_por (cleanOn_pmap (cleanOn_preceded_tag1 (by decide))) (cleanOn_por (cleanOn_pmap (cleanOn_preceded_tag1 (by decide))) (cleanOn_por (cleanOn_pmap (cleanOn_preceded_tag1 (by decide))) (cleanOn_por (cleanOn_pmap (cleanOn_preceded_tag1 (by decide))) (cleanOn_por (cleanOn_preceded_tag1 (by decide)) (cleanOn_por (cleanOn_preceded_tag1 (by decide)) (cleanOn_por (cleanOn_pmap (cleanOn_preceded_tag1 (by decide))) (cleanOn_por (cleanOn_pmap (cleanOn_preceded_tag1 (by decide))) (cleanOn_por (cleanOn_pmap (cleanOn_preceded_tag1 (by decide))) (cleanOn_por (cleanOn_pmap (cleanOn_preceded_tag1 (by decide))) (cleanOn_por (cleanOn_pmap (cleanOn_preceded_tag1 (by decide))) (cleanOn_por (cleanOn_pmap (cleanOn_preceded_tag1 (by decide))) (cleanOn_pmap (cleanOn_tag1 (by decide)))))))))))))))) (dirtyOn_pmap (dirtyOn_preceded_tag1 'n' _)) (cleanOn_por (cleanOn_pmap (cleanOn_preceded_tag1 (by decide))) (cleanOn_por (cleanOn_pmap (cleanOn_preceded_tag1 (by decide))) (cleanOn_por (cleanOn_pmap (cleanOn_preceded_tag1 (by decide))) (cleanOn_por (cleanOn_pmap (cleanOn_preceded_tag1 (by decide))) (cleanOn_por (cleanOn_pmap (cleanOn_preceded_tag1 (by decide))) (cleanOn_por (cleanOn_preceded_tag1 (by decide)) (cleanOn_por (cleanOn_preceded_tag1 (by decide)) (cleanOn_por (cleanOn_pmap (cleanOn_preceded_tag1 (by decide))) (cleanOn_por (cleanOn_pmap (cleanOn_preceded_tag1 (by decide))) (cleanOn_por (cleanOn_pmap (cleanOn_preceded_tag1 (by decide))) (cleanOn_por (cleanOn_pmap (cleanOn_preceded_tag1 (by decide))) (cleanOn_por (cleanOn_pmap (cleanOn_preceded_tag1 (by decide))) (cleanOn_por (cleanOn_pmap (cleanOn_preceded_tag1 (by decide))) (cleanOn_pmap (cleanOn_tag1 (by decide))))))))))))))))) (dirtyOn_pmap (dirtyOn_preceded_tag1 'm' _)) (cleanOn_por (cleanOn_pmap (cleanOn_preceded_tag1 (by decide))) (cleanOn_por (cleanOn_pmap (cleanOn_preceded_tag1 (by decide))) (cleanOn_por (cleanOn_pmap (cleanOn_preceded_tag1 (by decide))) (cleanOn_por (cleanOn_pmap (cleanOn_preceded_tag1 (by decide))) (cleanOn_por (cleanOn_pmap (cleanOn_preceded_tag1 (by decide))) (cleanOn_por (cleanOn_pmap (cleanOn_preceded_tag1 (by decide))) (cleanOn_por (cleanOn_preceded_tag1 (by decide)) (cleanOn_por (cleanOn_preceded_tag1 (by decide)) (cleanOn_por (cleanOn_pmap (cleanOn_preceded_tag1 (by decide))) (cleanOn_por (cleanOn_pmap (cleanOn_preceded_tag1 (by decide))) (cleanOn_por (cleanOn_pmap (cleanOn_preceded_tag1 (by decide))) (cleanOn_por (cleanOn_pmap (cleanOn_preceded_tag1 (by decide))) (cleanOn_por (cleanOn_pmap (cleanOn_preceded_tag1 (by decide))) (cleanOn_por (cleanOn_pmap (cleanOn_preceded_tag1 (by decide))) (cleanOn_pmap (cleanOn_tag1 (by decide)))))))))))))))))) (dirtyOn_pmap (dirtyOn_preceded_tag1 'l' _)) (cleanOn_por (cleanOn_pmap (cleanOn_preceded_tag1 (by decide))) (cleanOn_por (cleanOn_pmap (cleanOn_preceded_tag1 (by decide))) (cleanOn_por (cleanOn_pmap (cleanOn_preceded_tag1 (by decide))) (cleanOn_por (cleanOn_pmap (cleanOn_preceded_tag1 (by decide))) (cleanOn_por (cleanOn_pmap (cleanOn_preceded_tag1 (by decide))) (cleanOn_por (cleanOn_pmap (cleanOn_preceded_tag1 (by decide))) (cleanOn_por (cleanOn_pmap (cleanOn_preceded_tag1 (by decide))) (cleanOn_por (cleanOn_preceded_tag1 (by decide)) (cleanOn_por (cleanOn_preceded_tag1 (by decide)) (cleanOn_por (cleanOn_pmap (cleanOn_preceded_tag1 (by decide))) (cleanOn_por (cleanOn_pmap (cleanOn_preceded_tag1 (by decide))) (cleanOn_por (cleanOn_pmap (cleanOn_preceded_tag1 (by decide))) (cleanOn_por (cleanOn_pmap (cleanOn_preceded_tag1 (by decide))) (cleanOn_por (cleanOn_pmap (cleanOn_preceded_tag1 (by decide))) (cleanOn_por (cleanOn_pmap (cleanOn_preceded_tag1 (by decide))) (cleanOn_pmap (cleanOn_tag1 (by decide))))))))))))))))))) (dirtyOn_pmap (dirtyOn_preceded_tag1 'j' _)) (cleanOn_por (cleanOn_pmap (cleanOn_preceded_tag1 (by decide))) (cleanOn_por (cleanOn_pmap (cleanOn_preceded_tag1 (by decide))) (cleanOn_por (cleanOn_pmap (cleanOn_preceded_tag1 (by decide))) (cleanOn_por (cleanOn_pmap (cleanOn_preceded_tag1 (by decide))) (cleanOn_por (cleanOn_pmap (cleanOn_preceded_tag1 (by decide))) (cleanOn_por (cleanOn_pmap (cleanOn_preceded_tag1 (by decide))) (cleanOn_por (cleanOn_pmap (cleanOn_preceded_tag1 (by decide))) (cleanOn_por (cleanOn_pmap (cleanOn_preceded_tag1 (by decide))) (cleanOn_por (cleanOn_preceded_tag1 (by decide)) (cleanOn_por (cleanOn_preceded_tag1 (by decide)) (cleanOn_por (cleanOn_pmap (cleanOn_preceded_tag1 (by decide))) (cleanOn_por (cleanOn_pmap (cleanOn_preceded_tag1 (by decide))) (cleanOn_por (cleanOn_pmap (cleanOn_preceded_tag1 (by decide))) (cleanOn_por (cleanOn_pmap (cleanOn_preceded_tag1 (by decide))) (cleanOn_por (cleanOn_pmap (cleanOn_preceded_tag1 (by decide))) (cleanOn_por (cleanOn_pmap (cleanOn_preceded_tag1 (by decide))) (cleanOn_pmap (cleanOn_tag1 (by decide)))))))))))))))))))) (dirtyOn_pmap (dirtyOn_preceded_tag1 'i' _)) (cleanOn_por (cleanOn_pmap (cleanOn_preceded_tag1 (by decide))) (cleanOn_por (cleanOn_pmap (cleanOn_preceded_tag1 (by decide))) (cleanOn_por (cleanOn_pmap (cleanOn_preceded_tag1 (by decide))) (cleanOn_por (cleanOn_pmap (cleanOn_preceded_tag1 (by decide))) (cleanOn_por (cleanOn_pmap (cleanOn_preceded_tag1 (by decide))) (cleanOn_por (cleanOn_pmap (cleanOn_preceded_tag1 (by decide))) (cleanOn_por (cleanOn_pmap (cleanOn_preceded_tag1 (by decide))) (cleanOn_por (cleanOn_pmap (cleanOn_preceded_tag1 (by decide))) (cleanOn_por (cleanOn_pmap (cleanOn_preceded_tag1 (by decide))) (cleanOn_por (cleanOn_preceded_tag1 (by decide)) (cleanOn_por (cleanOn_preceded_tag1 (by decide)) (cleanOn_por (cleanOn_pmap (cleanOn_preceded_tag1 (by decide))) (cleanOn_por (cleanOn_pmap (cleanOn_preceded_tag1 (by decide))) (cleanOn_por (cleanOn_pmap (cleanOn_preceded_tag1 (by decide))) (cleanOn_por (cleanOn_pmap (cleanOn_preceded_tag1 (by decide))) (cleanOn_por (cleanOn_pmap (cleanOn_preceded_tag1 (by decide))) (cleanOn_por (cleanOn_pmap (cleanOn_preceded_tag1 (by decide))) (cleanOn_pmap (cleanOn_tag1 (by decide))))))))))))))))))))) (dirtyOn_pmap (dirtyOn_preceded_tag1 'h' _)) (cleanOn_por (cleanOn_pmap (cleanOn_preceded_tag1 (by decide))) (cleanOn_por (cleanOn_pmap (cleanOn_preceded_tag1 (by decide))) (cleanOn_por (cleanOn_pmap (cleanOn_preceded_tag1 (by decide))) (cleanOn_por (cleanOn_pmap (cleanOn_preceded_tag1 (by decide))) (cleanOn_por (cleanOn_pmap (cleanOn_preceded_tag1 (by decide))) (cleanOn_por (cleanOn_pmap (cleanOn_preceded_tag1 (by decide))) (cleanOn_por (cleanOn_pmap (cleanOn_preceded_tag1 (by decide))) (cleanOn_por (cleanOn_pmap (cleanOn_preceded_tag1 (by decide))) (cleanOn_por (cleanOn_pmap (cleanOn_preceded_tag1 (by decide))) (cleanOn_por (cleanOn_pmap (cleanOn_preceded_tag1 (by decide))) (cleanOn_por (cleanOn_preceded_tag1 (by decide)) (cleanOn_por (cleanOn_preceded_tag1 (by decide)) (cleanOn_por (cleanOn_pmap (cleanOn_preceded_tag1 (by decide))) (cleanOn_por (cleanOn_pmap (cleanOn_preceded_tag1 (by decide))) (cleanOn_por (cleanOn_pmap (cleanOn_preceded_tag1 (by decide))) (cleanOn_por (cleanOn_pmap (cleanOn_preceded_tag1 (by decide))) (cleanOn_por (cleanOn_pmap (cleanOn_preceded_tag1 (by decide))) (cleanOn_por (cleanOn_pmap (cleanOn_preceded_tag1 (by decide))) (cleanOn_pmap (cleanOn_tag1 (by decide)))))))))))))))))))))) (dirtyOn_pmap (dirtyOn_preceded_tag1 'a' _)) (cleanOn_por (cleanOn_pmap (cleanOn_preceded_tag1 (by decide))) (cleanOn_por (cleanOn_pmap (cleanOn_preceded_tag1 (by decide))) (cleanOn_por (cleanOn_pmap (cleanOn_preceded_tag1 (by decide))) (cleanOn_por (cleanOn_pmap (cleanOn_preceded_tag1 (by decide))) (cleanOn_por (cleanOn_pmap (cleanOn_preceded_tag1 (by decide))) (cleanOn_por (cleanOn_pmap (cleanOn_preceded_tag1 (by decide))) (cleanOn_por (cleanOn_pmap (cleanOn_preceded_tag1 (by decide))) (cleanOn_por (cleanOn_pmap (cleanOn_preceded_tag1 (by decide))) (cleanOn_por (cleanOn_pmap (cleanOn_preceded_tag1 (by decide))) (cleanOn_por (cleanOn_pmap (cleanOn_preceded_tag1 (by decide))) (cleanOn_por (cleanOn_pmap (cleanOn_preceded_tag1 (by decide))) (cleanOn_por (cleanOn_preceded_tag1 (by decide)) (cleanOn_por (cleanOn_preceded_tag1 (by decide)) (cleanOn_por (cleanOn_pmap (cleanOn_preceded_tag1 (by decide))) (cleanOn_por (cleanOn_pmap (cleanOn_preceded_tag1 (by decide))) (cleanOn_por (cleanOn_pmap (cleanOn_preceded_tag1 (by decide))) (cleanOn_por (cleanOn_pmap (cleanOn_preceded_tag1 (by decide))) (cleanOn_por (cleanOn_pmap (cleanOn_preceded_tag1 (by decide))) (cleanOn_por (cleanOn_pmap (cleanOn_preceded_tag1 (by decide))) (cleanOn_pmap (cleanOn_tag1 (by decide)))))))))))))))))))))))
      exact keyInv_memoConst
        (keyInv_mono (keyInv_por (keyInv_pmapRc halt)
          (keyInv_of_ctxPure ctxPure_constBackRef [] 1 1 1)
          (dirtyOn_pmapRc (dirtyOn_constAlt pd fuel))
          (cleanOn_constBackRef (by decide))) (by simp) le_rfl le_rfl le_rfl)
        (consumesPos_por (consumesPos_pmapRc (consumesPos_constAlt pd fuel))
          consumesPos_constBackRef)
    · -- constFields
      rw [show (grammar pd (fuel + 1)).constFields =
        por (pmap (tag ['U']) (fun _ => ConstFields.unit))
          (por (pmap (delimited (tag ['T']) (pmany0 (grammar pd fuel).const fuel)
                 (tag ['E'])) ConstFields.tuple)
            (pmap (delimited (tag ['S'])
                 (pmany0 (pand (parseIdentifier pd) (grammar pd fuel).const) fuel)
                 (tag ['E'])) ConstFields.struct_)) from rfl]
      have fb2 : KeyInv (pmap (delimited (tag ['T'])
          (pmany0 (grammar pd fuel).const fuel) (tag ['E'])) ConstFields.tuple)
          [] 1 1 1 :=
        keyInv_pmap (keyInv_preceded_tag1
        (keyInv_terminated_tag1
          (keyInv_pmany0 c000 hAconst (dirtyOn_grammar_const pd fuel)
            (cleanOn_nil _) fuel)
          (advances_pmany0 hAconst fuel) (by decide)))
      have fb3 : KeyInv (pmap (delimited (tag ['S'])
          (pmany0 (pand (parseIdentifier pd) (grammar pd fuel).const) fuel)
          (tag ['E'])) ConstFields.struct_) [] 1 1 1 :=
        keyInv_pmap (keyInv_preceded_tag1
        (keyInv_terminated_tag1
          (keyInv_pmany0
            (keyInv_pand (keyInv_of_ctxPure ctxPure_parseIdentifier [] 0 0 0)
              advances_parseIdentifier c000 hAconst (cleanOn_nil _))
            (advances_pand advances_parseIdentifier hAconst)
            (dirtyOn_pair pd (grammar pd fuel).const) (cleanOn_nil _) fuel)
          (advances_pmany0 (advances_pand advances_parseIdentifier hAconst) fuel)
          (by decide)))
      refine keyInv_mono (keyInv_por
        (keyInv_of_ctxPure (ctxPure_pmap ctxPure_tag) [] 1 1 1)
        (keyInv_por fb2 fb3
          (dirtyOn_pmap (dirtyOn_delimited_tag1 'T' _ _))
          (cleanOn_pmap (cleanOn_delimited_tag1 (by decide))))
        (dirtyOn_of_ctxPure (ctxPure_pmap ctxPure_tag) [])
        (cleanOn_nil _)) (by simp) le_rfl le_rfl le_rfl

/-! ### the run-level consequences -/

theorem ctxBelow_empty (n : Nat) : CtxBelow Ctx.empty n := by
  refine ⟨?_, ?_, ?_⟩ <;> (intro k hk; simp [keysP, keysT, keysC, Ctx.empty] at hk)

theorem nodupAll_empty : NodupAll Ctx.empty := by
  refine ⟨?_, ?_, ?_⟩ <;> simp [keysP, keysT, keysC, Ctx.empty]

theorem keyInv_parseSymbolInner (pd : PunyDecode) (fuel : Nat) :
    KeyInv (parseSymbolInner pd fuel) ([] ++ pathDirty) 0 1 1 := by
  obtain ⟨ihp, _, _, _, _, _, _, _, _, _⟩ := keyInvGrammar_grammar pd fuel
  obtain ⟨hAp, _, _, _, _, _, _, _, _, _⟩ := advGrammar_grammar pd fuel
  exact keyInv_pmap (keyInv_pand
    (keyInv_pand (keyInv_of_ctxPure (ctxPure_popt ctxPure_parseDecimalNumber) [] 0 1 1)
      (advances_popt advances_parseDecimalNumber) ihp hAp (cleanOn_nil _))
    (advances_pand (advances_popt advances_parseDecimalNumber) hAp)
    (keyInv_popt ihp (dirtyOn_grammar_path pd fuel))
    (advances_popt hAp) (cleanOn_nil _))

/-- whatever the outcome, a `parse_symbol` run from the empty context leaves
every memo table with pairwise-distinct keys: no offset is ever memoized
twice, so no insert ever shadows an earlier entry. -/
theorem nodupAll_parseSymbolInner (pd : PunyDecode) (fuel : Nat)
    (input : List Char) :
    NodupAll (parseSymbolInner pd fuel ⟨0, input⟩ Ctx.empty).2 := by
  have hinv := keyInv_parseSymbolInner pd fuel ⟨0, input⟩ Ctx.empty
    (ctxBelow_empty 0) nodupAll_empty
  rcases h : parseSymbolInner pd fuel ⟨0, input⟩ Ctx.empty with ⟨o, c⟩
  rcases o with _ | ⟨out, rest⟩
  · exact hinv.2 c h
  · exact (hinv.1 out rest c h).1

/-- on a duplicate-free extension, every entry of the smaller context is
still what lookup returns in the larger one. -/
theorem ctx_lookup_stable (c c' : Ctx) (hx : Ext c c') (hn : NodupAll c') :
    (∀ k v, c.paths.lookup k = some v → c'.paths.lookup k = some v) ∧
    (∀ k v, c.types.lookup k = some v → c'.types.lookup k = some v) ∧
    (∀ k v, c.consts.lookup k = some v → c'.consts.lookup k = some v) := by
  obtain ⟨⟨l1, h1⟩, ⟨l2, h2⟩, ⟨l3, h3⟩⟩ := hx
  refine ⟨?_, ?_, ?_⟩
  · intro k v h
    rw [h1]
    refine lookup_stable l1 c.paths k v ?_ h
    have hnd := hn.1
    rw [keysP, h1] at hnd
    exact hnd
  · intro k v h
    rw [h2]
    refine lookup_stable l2 c.types k v ?_ h
    have hnd := hn.2.1
    rw [keysT, h2] at hnd
    exact hnd
  · intro k v h
    rw [h3]
    refine lookup_stable l3 c.consts k v ?_ h
    have hnd := hn.2.2
    rw [keysC, h3] at hnd
    exact hnd

/-- **C3.**  Within a single parse, a node obtained by resolving a
back-reference is object-identical to the memo-table entry for that offset,
the node originally parsed there; two back-references to the same offset
resolve to object-identical nodes.  Formally: (1-3) the back-reference
branch of each memoizing production returns exactly the current table
entry at the decoded offset; (4-5) every production, and the whole
`parse_symbol` run, only prepends entries to the tables, never removing or
replacing one; (6) a run from the empty context keeps every table's keys
pairwise distinct, so the entry a back-reference reads is the unique one
inserted when that offset was originally parsed; (7) consequently an entry,
once present, is returned unchanged by every later lookup — in particular
two back-references to one offset, resolved at two points of the same run,
both return the entry of the final (and of every intermediate) table, the
same shared node. -/
theorem back_ref_object_identity :
    (∀ inp ctx v rest, (pathBackRef inp ctx).1 = some (v, rest) →
      ∃ k, (parseBackRef inp ctx).1 = some (k, rest) ∧
        ctx.paths.lookup k = some v) ∧
    (∀ inp ctx v rest, (tyBackRef inp ctx).1 = some (v, rest) →
      ∃ k, (parseBackRef inp ctx).1 = some (k, rest) ∧
        ctx.types.lookup k = some v) ∧
    (∀ inp ctx v rest, (constBackRef inp ctx).1 = some (v, rest) →
      ∃ k, (parseBackRef inp ctx).1 = some (k, rest) ∧
        ctx.consts.lookup k = some v) ∧
    (∀ pd fuel, ExtGrammar (grammar pd fuel)) ∧
    (∀ pd fuel inp ctx, Ext ctx (parseSymbolInner pd fuel inp ctx).2) ∧
    (∀ pd fuel input,
      NodupAll (parseSymbolInner pd fuel ⟨0, input⟩ Ctx.empty).2) ∧
    (∀ c c' : Ctx, Ext c c' → NodupAll c' →
      (∀ k v, c.paths.lookup k = some v → c'.paths.lookup k = some v) ∧
      (∀ k v, c.types.lookup k = some v → c'.types.lookup k = some v) ∧
      (∀ k v, c.consts.lookup k = some v → c'.consts.lookup k = some v)) :=
  ⟨fun _ _ _ _ h => pathBackRef_resolves h,
   fun _ _ _ _ h => tyBackRef_resolves h,
   fun _ _ _ _ h => constBackRef_resolves h,
   fun pd fuel => extGrammar_grammar pd fuel,
   fun pd fuel inp ctx => extends_parseSymbolInner pd fuel inp ctx,
   fun pd fuel input => nodupAll_parseSymbolInner pd fuel input,
   fun c c' hx hn => ctx_lookup_stable c c' hx hn⟩

/-- **C3 witness.**  A concrete memo table with the crate-root path of `a`
at offset 0: `B_` resolves to exactly that entry; the aliasing input
`NvC1a1fB1_` runs with duplicate-free final tables; and after a later
insert at offset 1, lookup of offset 0 still returns the original node. -/
theorem back_ref_object_identity_witness :
    ((pathBackRef ⟨0, ['B', '_']⟩ c3wCtx).1 = some (c3w1, ⟨2, []⟩)) ∧
    (∃ k, (parseBackRef ⟨0, ['B', '_']⟩ c3wCtx).1 = some (k, ⟨2, []⟩) ∧
      c3wCtx.paths.lookup k = some c3w1) ∧
    NodupAll (parseSymbolInner pdId
      (symbolFuel ['N', 'v', 'C', '1', 'a', '1', 'f', 'B', '1', '_'])
      ⟨0, ['N', 'v', 'C', '1', 'a', '1', 'f', 'B', '1', '_']⟩ Ctx.empty).2 ∧
    (Ext c3wCtx c3wCtx2 ∧ NodupAll c3wCtx2 ∧
      c3wCtx2.paths.lookup 0 = some c3w1) :=
  ⟨rfl,
   back_ref_object_identity.1 ⟨0, ['B', '_']⟩ c3wCtx c3w1 ⟨2, []⟩ rfl,
   back_ref_object_identity.2.2.2.2.2.1 pdId _ _,
   ⟨⟨[(1, c3w1)], rfl⟩, ⟨[], rfl⟩, ⟨[], rfl⟩⟩,
   ⟨by decide, by decide, by decide⟩,
   ((back_ref_object_identity.2.2.2.2.2.2 c3wCtx c3wCtx2
      ⟨⟨[(1, c3w1)], rfl⟩, ⟨[], rfl⟩, ⟨[], rfl⟩⟩
      ⟨by decide, by decide, by decide⟩).1) 0 c3w1 rfl⟩

end AstDemangle

